import Mathlib

/-!
# PebbleQuest: grid world, dungeon generator, pursuit planner and projection table

A shallow embedding of the parts of `pebble_quest.c` / `pebble_quest.h` that
own the dungeon grid, the player and NPC occupancy, the dungeon generator, the
pursuit heuristic and the back-wall projection table, followed by theorems
about them.

Conventions of the embedding:

* `int16_t` values (cell types, directions, coordinates, stats) are `Int`.
  Grid coordinates and their one-step neighbours stay far away from the 16-bit
  limits, so no wrap-around is modelled.
* The globals `g_player` and `g_quest` become the fields of one `World` value
  that every operation takes and returns.
* The singly linked NPC list `g_quest->npcs` is a `List npc_t` in list order;
  a pointer to a node is the node's index in that list.
* `rand()` reads the head of an infinite stream of naturals and leaves the
  tail; an operation that calls `rand()` returns the remaining stream.
* An array store through an index outside the array has no defined result in
  C; such a store makes the embedded operation return `none`.
* The carving loop of the generator has no bound in the source; it is run with
  a budget of passes and returns `none` when the budget runs out first. The
  `do ... while` loop of `get_npc_spawn_point` is treated the same way.
* For `remove_npc` the link fields are modelled as well (`NpcLinks`): node
  addresses are naturals and `next` maps an address to the next one.
* An array read through an index outside the array is a read of the stats
  function at that index: `StatArray` is defined on every natural, the array
  proper being the indices below `NUM_CHARACTER_STATS`.
* Drawing is reduced to the choice of the figure (`Sprite`).
-/

namespace PebbleQuest

/-! ## Constants (`pebble_quest.h`) -/

abbrev SCREEN_WIDTH : Int := 144
abbrev SCREEN_HEIGHT : Int := 168
abbrev STATUS_BAR_HEIGHT : Int := 16
abbrev FIRST_WALL_OFFSET : Int := STATUS_BAR_HEIGHT
abbrev GRAPHICS_FRAME_WIDTH : Int := SCREEN_WIDTH
abbrev GRAPHICS_FRAME_HEIGHT : Int := SCREEN_HEIGHT - 2 * STATUS_BAR_HEIGHT
abbrev LOCATION_WIDTH : Int := 15
abbrev LOCATION_HEIGHT : Int := LOCATION_WIDTH
abbrev MAX_VISIBILITY_DEPTH : Nat := 6
abbrev STRAIGHT_AHEAD : Nat := MAX_VISIBILITY_DEPTH - 1
abbrev TOP_LEFT : Nat := 0
abbrev BOTTOM_RIGHT : Nat := 1
abbrev MIN_DAMAGE : Int := 2
abbrev MAX_NPCS_AT_ONE_TIME : Int := 3
abbrev MIN_NPCS_PER_QUEST : Nat := 10
abbrev MAX_NPCS_PER_QUEST : Nat := 30

-- Quest types
abbrev RECOVER_ITEM : Int := 2
abbrev RESCUE : Int := 4
abbrev ASSASSINATE : Int := 5
abbrev MAIN_QUEST_CONCLUSION : Int := 8

-- Cell types, including loot/item types
abbrev CLOSED_DOOR : Int := 0
abbrev LOCKED_DOOR : Int := 1
abbrev SOLID : Int := 2
abbrev EMPTY : Int := 3
abbrev CAPTIVE : Int := 4
abbrev LOOT : Int := 5

-- Item types
abbrev GOLD : Int := 0
abbrev KEY : Int := 1
abbrev ARTIFACT : Int := 2

-- NPC types
abbrev ARCHMAGE : Int := 0
abbrev MAGE : Int := 1
abbrev THIEF : Int := 2
abbrev WARRIOR : Int := 3
abbrev WOLF : Int := 5
abbrev BEAR : Int := 6
abbrev GOBLIN : Int := 7
abbrev ORC : Int := 8
abbrev OGRE : Int := 9
abbrev TROLL : Int := 10
abbrev SLIME : Int := 11

-- Character stats
abbrev STRENGTH : Nat := 0
abbrev AGILITY : Nat := 1
abbrev INTELLECT : Nat := 2
abbrev MAX_HP : Nat := 3
abbrev MAX_MP : Nat := 4
abbrev PHYSICAL_POWER : Nat := 5
abbrev PHYSICAL_DEFENSE : Nat := 6
abbrev MAGICAL_POWER : Nat := 7
abbrev MAGICAL_DEFENSE : Nat := 8
abbrev CURRENT_HP : Nat := 9
abbrev CURRENT_MP : Nat := 10
abbrev NUM_CHARACTER_STATS : Nat := 11
abbrev NUM_STATUS_EFFECTS : Nat := 7

-- Scroll types
abbrev FAILURE_SCROLL : Int := 4
abbrev VICTORY_SCROLL : Int := 5
abbrev DEATH_SCROLL : Int := 6

-- Directions
abbrev NORTH : Int := 0
abbrev SOUTH : Int := 1
abbrev EAST : Int := 2
abbrev WEST : Int := 3
abbrev NUM_DIRECTIONS : Nat := 4

/-! ## Data model -/

/-- The Pebble SDK point: two `int16_t` coordinates. -/
structure GPoint where
  x : Int
  y : Int
deriving DecidableEq, Repr

/-- An `int16_t` array seen from its first element: index to stored value. -/
abbrev StatArray := Nat → Int

/-- The array `a` after the store `a[i] = v`. -/
def StatArray.set (a : StatArray) (i : Nat) (v : Int) : StatArray :=
  fun k => if k = i then v else a k

/-- The struct `npc_t` without its `next` link, which the list order carries. -/
structure npc_t where
  position : GPoint
  type : Int
  stats : StatArray
  status_effects : StatArray

/-- The fields of `player_t` that the grid, combat and quest code touches. -/
structure player_t where
  position : GPoint
  direction : Int
  stats : StatArray
  status_effects : StatArray
  gold : Int
  has_key : Bool

/-- The struct `quest_t`; `cells` is the array `cells[LOCATION_WIDTH][LOCATION_HEIGHT]`
seen as a map from the two indices to the stored cell type. -/
structure quest_t where
  type : Int
  reward : Int
  primary_npc_type : Int
  num_npcs : Int
  kills : Int
  cells : Nat → Nat → Int
  entrance_direction : Int
  exit_direction : Int
  starting_point : GPoint
  ending_point : GPoint
  npcs : List npc_t
  completed : Bool

/-- The globals: `g_player`, `g_quest`, and the scroll last handed to
`show_scroll` (the only trace of the window stack kept here). -/
structure World where
  player : player_t
  quest : quest_t
  scroll : Option Int

/-- The stream that `rand()` reads. -/
abbrev Rand := Nat → Nat

/-- One call of `rand()`: the value drawn and the stream that remains. -/
def rand (r : Rand) : Nat × Rand := (r 0, fun n => r (n + 1))

/-! ## Grid queries -/

/-- Pebble SDK `gpoint_equal`. -/
def gpoint_equal (a b : GPoint) : Bool := a.x == b.x && a.y == b.y

/-- Source: `out_of_bounds`. -/
def out_of_bounds (cell : GPoint) : Bool :=
  decide (cell.x < 0) || decide (cell.x ≥ LOCATION_WIDTH) ||
  decide (cell.y < 0) || decide (cell.y ≥ LOCATION_HEIGHT)

/-- Source: `get_cell_type`. -/
def get_cell_type (w : World) (cell : GPoint) : Int :=
  if out_of_bounds cell then SOLID
  else w.quest.cells cell.x.toNat cell.y.toNat

/-- Source: `set_cell_type`, which "doesn't test coordinates to ensure they're
in-bounds": a store outside the array gives `none`. -/
def set_cell_type (w : World) (cell : GPoint) (type : Int) : Option World :=
  if out_of_bounds cell then none
  else some { w with quest := { w.quest with
    cells := fun i j => if i = cell.x.toNat ∧ j = cell.y.toNat then type else w.quest.cells i j } }

/-- The list walk of `get_npc_at`: first NPC standing on `cell`, if any. -/
def get_npc_at_from : List npc_t → GPoint → Option npc_t
  | [], _ => none
  | npc :: next, cell =>
    if gpoint_equal npc.position cell then some npc else get_npc_at_from next cell

/-- Source: `get_npc_at`; `none` is the NULL pointer. -/
def get_npc_at (w : World) (cell : GPoint) : Option npc_t :=
  get_npc_at_from w.quest.npcs cell

/-- Source: `occupiable`. -/
def occupiable (w : World) (cell : GPoint) : Bool :=
  decide (get_cell_type w cell ≤ EMPTY) &&
  !gpoint_equal w.player.position cell &&
  (get_npc_at w cell).isNone

/-- Source: `touching`. -/
def touching (cell cell_2 : GPoint) : Bool :=
  let diff_x := cell.x - cell_2.x
  let diff_y := cell.y - cell_2.y
  (diff_x == 0 && diff_y.natAbs == 1) || (diff_y == 0 && diff_x.natAbs == 1)

/-- Source: `get_cell_farther_away`. -/
def get_cell_farther_away (reference_point : GPoint) (direction : Int) (distance : Int) :
    GPoint :=
  if direction = NORTH then ⟨reference_point.x, reference_point.y - distance⟩
  else if direction = SOUTH then ⟨reference_point.x, reference_point.y + distance⟩
  else if direction = EAST then ⟨reference_point.x + distance, reference_point.y⟩
  else ⟨reference_point.x - distance, reference_point.y⟩

/-! ## Directions -/

/-- Source: `get_direction_to_the_left`. -/
def get_direction_to_the_left (reference_direction : Int) : Int :=
  if reference_direction = NORTH then WEST
  else if reference_direction = WEST then SOUTH
  else if reference_direction = SOUTH then EAST
  else NORTH

/-- Source: `get_direction_to_the_right`. -/
def get_direction_to_the_right (reference_direction : Int) : Int :=
  if reference_direction = NORTH then EAST
  else if reference_direction = EAST then SOUTH
  else if reference_direction = SOUTH then WEST
  else NORTH

/-- Source: `get_opposite_direction`. -/
def get_opposite_direction (direction : Int) : Int :=
  if direction = NORTH then SOUTH
  else if direction = SOUTH then NORTH
  else if direction = EAST then WEST
  else EAST

/-! ## Player bookkeeping -/

/-- Source: `show_scroll`; the text layout and window stack are display only. -/
def show_scroll (w : World) (scroll : Int) : World :=
  { w with scroll := some scroll }

/-- Source: `adjust_player_gold`; the result pairs the new state with the
returned flag. `MAX_SMALL_INT_VALUE` is used by the source file but defined
nowhere in the header, so it is taken as a parameter. -/
def adjust_player_gold (MAX_SMALL_INT_VALUE : Int) (w : World) (amount : Int) : World × Bool :=
  if w.player.gold + amount < 0 then (w, false)
  else if w.player.gold + amount > MAX_SMALL_INT_VALUE then
    ({ w with player := { w.player with gold := MAX_SMALL_INT_VALUE } }, false)
  else ({ w with player := { w.player with gold := w.player.gold + amount } }, true)

/-- Source: `adjust_player_current_hp`. -/
def adjust_player_current_hp (w : World) (amount : Int) : World :=
  let w1 : World := { w with player := { w.player with
    stats := w.player.stats.set CURRENT_HP (w.player.stats CURRENT_HP + amount) } }
  if w1.player.stats CURRENT_HP > w1.player.stats MAX_HP then
    { w1 with player := { w1.player with
      stats := w1.player.stats.set CURRENT_HP (w1.player.stats MAX_HP) } }
  else if w1.player.stats CURRENT_HP ≤ 0 then show_scroll w1 DEATH_SCROLL
  else w1

/-- The amount `damage_player` passes on after the defense and the floor. -/
def damage_player_amount (w : World) (damage : Int) : Int :=
  let damage := damage - Int.tdiv (w.player.stats PHYSICAL_DEFENSE) 2
  if damage < MIN_DAMAGE then MIN_DAMAGE else damage

/-- Source: `damage_player`; the vibration and the screen flash are display only. -/
def damage_player (w : World) (damage : Int) : World :=
  adjust_player_current_hp w (damage_player_amount w damage * -1)

/-- Source: `end_quest`. -/
def end_quest (MAX_SMALL_INT_VALUE : Int) (w : World) : World :=
  if w.quest.completed then
    show_scroll (adjust_player_gold MAX_SMALL_INT_VALUE w w.quest.reward).1 VICTORY_SCROLL
  else show_scroll w FAILURE_SCROLL

/-! ## Movement -/

/-- Source: `move_player`. The result is `none` when `set_cell_type` stores
outside the grid. -/
def move_player (MAX_SMALL_INT_VALUE : Int) (w : World) (direction : Int) : Option World :=
  let destination := get_cell_farther_away w.player.position direction 1
  if gpoint_equal w.player.position w.quest.starting_point &&
      w.player.direction == w.quest.entrance_direction then
    some (end_quest MAX_SMALL_INT_VALUE w)
  else if occupiable w destination then
    let w1 : World := { w with player := { w.player with position := destination } }
    if get_cell_type w1 destination = CAPTIVE ∨ get_cell_type w1 destination = ARTIFACT then
      (set_cell_type w1 destination EMPTY).map
        (fun w2 => { w2 with quest := { w2.quest with completed := true } })
    else some w1
  else some w

/-- Source: `move_npc`; `npc` is the index of the node in the quest's list. -/
def move_npc (w : World) (npc : Nat) (direction : Int) : World :=
  match w.quest.npcs[npc]? with
  | none => w
  | some n =>
    let destination := get_cell_farther_away n.position direction 1
    if occupiable w destination then
      { w with quest := { w.quest with
        npcs := w.quest.npcs.set npc { n with position := destination } } }
    else w

/-! ## Pursuit planner -/

/-- The `while` loop of `get_pursuit_direction` together with the final
`return horizontal_direction`. The arguments are the loop's live variables;
`rand()` is called only when neither direction has been checked. -/
def pursuit_loop (w : World) (pursuer : GPoint) (horizontal_direction vertical_direction : Int)
    (checked_horizontal_direction checked_vertical_direction : Bool) (r : Rand) : Int × Rand :=
  if hloop : checked_horizontal_direction = true ∧ checked_vertical_direction = true then
    (horizontal_direction, r)
  else
    let coin : Bool × Rand :=
      if checked_vertical_direction then (true, r)
      else if !checked_horizontal_direction then (decide ((rand r).1 % 2 ≠ 0), (rand r).2)
      else (false, r)
    if coin.1 && occupiable w (get_cell_farther_away pursuer horizontal_direction 1) then
      (horizontal_direction, coin.2)
    else
      let checked_h := checked_horizontal_direction || coin.1
      if !checked_vertical_direction &&
          occupiable w (get_cell_farther_away pursuer vertical_direction 1) then
        (vertical_direction, coin.2)
      else
        pursuit_loop w pursuer horizontal_direction vertical_direction checked_h true coin.2
termination_by (if checked_horizontal_direction then 0 else 1) +
  (if checked_vertical_direction then 0 else 1)
decreasing_by
  cases checked_horizontal_direction <;> cases checked_vertical_direction <;> simp_all
  split <;> simp

/-- One pass through the body of the `while` loop of `get_pursuit_direction`:
`Sum.inl` is a `return` with its value and the random stream left, `Sum.inr`
the two flags and the stream after a pass that did not return. -/
def pursuit_pass (w : World) (pursuer : GPoint) (horizontal_direction vertical_direction : Int)
    (checked_horizontal_direction checked_vertical_direction : Bool) (r : Rand) :
    (Int × Rand) ⊕ (Bool × Bool × Rand) :=
  let coin : Bool × Rand :=
    if checked_vertical_direction then (true, r)
    else if !checked_horizontal_direction then (decide ((rand r).1 % 2 ≠ 0), (rand r).2)
    else (false, r)
  if coin.1 && occupiable w (get_cell_farther_away pursuer horizontal_direction 1) then
    Sum.inl (horizontal_direction, coin.2)
  else if !checked_vertical_direction &&
      occupiable w (get_cell_farther_away pursuer vertical_direction 1) then
    Sum.inl (vertical_direction, coin.2)
  else Sum.inr (checked_horizontal_direction || coin.1, true, coin.2)

/-- The `while` loop of `get_pursuit_direction` and the final
`return horizontal_direction`, allowed at most `passes` passes through the loop
body; `none` when that is not enough. -/
def pursuit_passes (w : World) (pursuer : GPoint) (horizontal_direction vertical_direction : Int) :
    Nat → Bool → Bool → Rand → Option (Int × Rand)
  | 0, checked_horizontal_direction, checked_vertical_direction, r =>
    if checked_horizontal_direction && checked_vertical_direction then
      some (horizontal_direction, r)
    else none
  | passes + 1, checked_horizontal_direction, checked_vertical_direction, r =>
    if checked_horizontal_direction && checked_vertical_direction then
      some (horizontal_direction, r)
    else
      match pursuit_pass w pursuer horizontal_direction vertical_direction
          checked_horizontal_direction checked_vertical_direction r with
      | Sum.inl result => some result
      | Sum.inr next => pursuit_passes w pursuer horizontal_direction vertical_direction passes
          next.1 next.2.1 next.2.2

/-- Source: `get_pursuit_direction`. -/
def get_pursuit_direction (w : World) (pursuer pursuee : GPoint) (r : Rand) : Int × Rand :=
  let diff_x := pursuer.x - pursuee.x
  let diff_y := pursuer.y - pursuee.y
  let horizontal_direction := if diff_x > 0 then WEST else EAST
  let vertical_direction := if diff_y > 0 then NORTH else SOUTH
  -- Check for alignment along the x-axis:
  if diff_x = 0 ∧
      (diff_y = 1 ∨ occupiable w (get_cell_farther_away pursuer vertical_direction 1) = true) then
    (vertical_direction, r)
  else
    -- The x-axis block ran without returning exactly when diff_x = 0:
    let checked_vertical_direction := decide (diff_x = 0)
    -- Check for alignment along the y-axis:
    if diff_y = 0 ∧
        (diff_x = 1 ∨
          occupiable w (get_cell_farther_away pursuer horizontal_direction 1) = true) then
      (horizontal_direction, r)
    else
      -- Likewise for the y-axis block and diff_y = 0:
      let checked_horizontal_direction := decide (diff_y = 0)
      -- If not aligned along either axis, a direction in either axis will do:
      pursuit_loop w pursuer horizontal_direction vertical_direction
        checked_horizontal_direction checked_vertical_direction r

/-- Source: `determine_npc_behavior`; `npc` is the index of the node. -/
def determine_npc_behavior (w : World) (npc : Nat) (r : Rand) : World × Rand :=
  match w.quest.npcs[npc]? with
  | none => (w, r)
  | some n =>
    if touching n.position w.player.position then
      (damage_player w (n.stats PHYSICAL_POWER), r)
    else
      let d := get_pursuit_direction w n.position w.player.position r
      (move_npc w npc d.1, d.2)

/-! ## The NPC list -/

/-- The list walk of `remove_npc`: `index` counts the nodes already passed, so
the node under `npc_pointer` is the one asked for when `index = npc`. Its four
unlinking cases (head or not, last or not) all drop that node and keep the
nodes before and after it. -/
def remove_npc_walk (npc : Nat) : Nat → List npc_t → List npc_t
  | _, [] => []
  | index, npc_pointer :: next =>
    if index = npc then
      match next with
      | _ :: _ => next
      | [] => []
    else npc_pointer :: remove_npc_walk npc (index + 1) next

/-- Source: `remove_npc`; `npc` is the index of the node. -/
def remove_npc (w : World) (npc : Nat) : World :=
  { w with quest := { w.quest with npcs := remove_npc_walk npc 0 w.quest.npcs } }

/-- The link fields of the quest's NPC list as `remove_npc` sees them: the
head pointer `g_quest->npcs`, the `next` field of the node at each address
(`none` is NULL), and the addresses handed to `free`. -/
structure NpcLinks where
  npcs : Option Nat
  next : Nat → Option Nat
  freed : List Nat

/-- The store `node->next = value`. -/
def NpcLinks.set_next (l : NpcLinks) (node : Nat) (value : Option Nat) : NpcLinks :=
  { l with next := fun a => if a = node then value else l.next a }

/-- Source: `remove_npc` on the link fields, pointer for pointer: its
`while (npc_pointer != NULL)` loop run for at most `fuel` passes. `none` when
the passes run out, or when `npc_pointer_2->next` is stored through a NULL
`npc_pointer_2`. -/
def remove_npc_links (npc : Nat) (l : NpcLinks) :
    Nat → Option Nat → Option Nat → Option NpcLinks
  | 0, _, _ => none
  | _ + 1, none, _ => some l
  | fuel + 1, some npc_pointer, npc_pointer_2 =>
    if npc_pointer = npc then
      if l.next npc_pointer ≠ none then
        if some npc_pointer = l.npcs then
          some { l with npcs := l.next npc_pointer, freed := npc_pointer :: l.freed }
        else
          npc_pointer_2.map fun node =>
            { l.set_next node (l.next npc_pointer) with freed := npc_pointer :: l.freed }
      else if some npc_pointer = l.npcs then
        some { l with npcs := none, freed := npc_pointer :: l.freed }
      else
        npc_pointer_2.map fun node =>
          { l.set_next node none with freed := npc_pointer :: l.freed }
    else remove_npc_links npc l fuel (l.next npc_pointer) (some npc_pointer)

/-- Source: `assign_minor_stats`, index expressions as written there. -/
def assign_minor_stats (stats_array : StatArray) : StatArray :=
  let s := stats_array.set MAX_HP (stats_array (STRENGTH * 10))
  let s := s.set MAX_MP (s (INTELLECT * 10))
  let s := s.set PHYSICAL_POWER (s (STRENGTH * 2) + s AGILITY)
  let s := s.set PHYSICAL_DEFENSE (s STRENGTH + s (AGILITY * 2))
  let s := s.set MAGICAL_POWER (s (INTELLECT * 2) + s AGILITY)
  s.set MAGICAL_DEFENSE (s INTELLECT + s (AGILITY * 2))

/-- Source: `init_npc`. `npc` is the freshly allocated node, whose contents
are whatever `malloc` returned. -/
def init_npc (w : World) (npc : npc_t) (type : Int) (position : GPoint) : npc_t :=
  let stats := npc.stats.set STRENGTH (Int.tdiv (w.player.stats STRENGTH) 5)
  let stats := stats.set AGILITY (Int.tdiv (w.player.stats AGILITY) 5)
  let stats := stats.set INTELLECT (Int.tdiv (w.player.stats INTELLECT) 5)
  let status_effects : StatArray :=
    (List.range NUM_STATUS_EFFECTS).foldl (fun s i => s.set i 0) npc.status_effects
  -- Adjust for each NPC type's weaknesses/strengths:
  let stats :=
    if type = ORC ∨ type = WARRIOR ∨ type = BEAR ∨ type = OGRE ∨ type = TROLL then
      stats.set STRENGTH (stats STRENGTH * 2)
    else stats
  let stats :=
    if type = THIEF ∨ type = WARRIOR ∨ type = GOBLIN ∨ type = ORC then
      stats.set AGILITY (stats AGILITY * 2)
    else stats
  let stats :=
    if type = ARCHMAGE ∨ type = MAGE then stats.set INTELLECT (stats INTELLECT * 2)
    else stats
  { position := position, type := type, stats := assign_minor_stats stats,
    status_effects := status_effects }

/-- The counting walk of `add_new_npc`: called on the nodes after
`npc_pointer`, it returns `count` once `npc_pointer->next` is NULL. -/
def add_new_npc_count : List npc_t → Int → Int
  | [], count => count
  | _ :: next, count => add_new_npc_count next (count + 1)

/-- Source: `add_new_npc`; `fresh` is the node `malloc` returns. -/
def add_new_npc (w : World) (npc_type : Int) (position : GPoint) (fresh : npc_t) : World :=
  if occupiable w position then
    match w.quest.npcs with
    | [] =>
      { w with quest := { w.quest with npcs := [init_npc w fresh npc_type position] } }
    | first :: next =>
      if add_new_npc_count next 1 < MAX_NPCS_AT_ONE_TIME then
        { w with quest := { w.quest with
          npcs := (first :: next) ++ [init_npc w fresh npc_type position] } }
      else w
  else w

/-- The `do ... while (!checked_left || !checked_right)` loop of
`get_npc_spawn_point` for one `j`, run for at most `fuel` passes. The inner
`some` is the point returned from inside the loop, the inner `none` a loop that
ended without returning; the outer `none` means the passes ran out. The test
`else if (!checked_right)` always holds where it is evaluated, the first test
having failed, so the two branches are the two arms of `coin`. -/
def spawn_do_while (w : World) (spawn_point : GPoint) (direction j : Int) :
    Nat → Bool → Bool → Rand → Option (Option GPoint × Rand)
  | 0, _, _, _ => none
  | fuel + 1, checked_left, checked_right, r =>
    let coin : Bool × Rand :=
      if checked_right then (true, r) else (decide ((rand r).1 % 2 ≠ 0), (rand r).2)
    -- Check to the left, or else to the right:
    let spawn_point2 : GPoint :=
      if coin.1 then get_cell_farther_away spawn_point (get_direction_to_the_left direction) j
      else get_cell_farther_away spawn_point (get_direction_to_the_right direction) j
    let checked_left := checked_left || coin.1
    let checked_right := checked_right || !coin.1
    if occupiable w spawn_point2 then some (some spawn_point2, coin.2)
    else if !checked_left || !checked_right then
      spawn_do_while w spawn_point direction j fuel checked_left checked_right coin.2
    else some (none, coin.2)

/-- The loop `for (j = 1; j < MAX_VISIBILITY_DEPTH - 1; ++j)` of
`get_npc_spawn_point`, with `count` values of `j` still to try. -/
def spawn_j_loop (fuel : Nat) (w : World) (spawn_point : GPoint) (direction : Int) :
    Nat → Int → Rand → Option (Option GPoint × Rand)
  | 0, _, r => some (none, r)
  | count + 1, j, r =>
    match spawn_do_while w spawn_point direction j fuel false false r with
    | none => none
    | some (some spawn_point2, r2) => some (some spawn_point2, r2)
    | some (none, r2) => spawn_j_loop fuel w spawn_point direction count (j + 1) r2

/-- The loop over the four directions of `get_npc_spawn_point`, with `count`
directions still to try, and the final `return GPoint(-1, -1)`. -/
def spawn_direction_loop (fuel : Nat) (w : World) : Nat → Int → Rand → Option (GPoint × Rand)
  | 0, _, r => some (⟨-1, -1⟩, r)
  | count + 1, direction, r =>
    let next_direction := if direction + 1 = NUM_DIRECTIONS then NORTH else direction + 1
    let spawn_point := get_cell_farther_away w.player.position direction MAX_VISIBILITY_DEPTH
    if out_of_bounds spawn_point then spawn_direction_loop fuel w count next_direction r
    else if occupiable w spawn_point then some (spawn_point, r)
    else
      match spawn_j_loop fuel w spawn_point direction (MAX_VISIBILITY_DEPTH - 1 - 1) 1 r with
      | none => none
      | some (some spawn_point2, r2) => some (spawn_point2, r2)
      | some (none, r2) => spawn_direction_loop fuel w count next_direction r2

/-- Source: `get_npc_spawn_point`, each `do ... while` loop run for at most
`fuel` passes; `none` when one of them needs more. -/
def get_npc_spawn_point (fuel : Nat) (w : World) (r : Rand) : Option (GPoint × Rand) :=
  spawn_direction_loop fuel w NUM_DIRECTIONS (((rand r).1 % NUM_DIRECTIONS : Nat) : Int) (rand r).2

/-! ## Projection table -/

/-- The global `g_back_wall_coords[depth][position][corner]`: the stores made
so far, latest first, over the contents the array had before them. -/
structure WallCoords where
  stores : List ((Nat × Nat × Nat) × GPoint)
  before : Nat → Nat → Nat → GPoint

/-- The latest store to `key` in a store list, if there is one. -/
def latest_store (key : Nat × Nat × Nat) : List ((Nat × Nat × Nat) × GPoint) → Option GPoint
  | [] => none
  | (k, p) :: earlier => if k = key then some p else latest_store key earlier

/-- The read `t[i][j][k]`. -/
def WallCoords.get (t : WallCoords) (i j k : Nat) : GPoint :=
  match latest_store (i, j, k) t.stores with
  | some p => p
  | none => t.before i j k

/-- The table after the store `t[i][j][k] = p`. -/
def WallCoords.set (t : WallCoords) (i j k : Nat) (p : GPoint) : WallCoords :=
  { t with stores := ((i, j, k), p) :: t.stores }

/-- First loop nest of `init_wall_coords`: every entry becomes `GPoint(0, 0)`. -/
def init_wall_coords_clear (t : WallCoords) : WallCoords :=
  (List.range (MAX_VISIBILITY_DEPTH - 1)).foldl (fun t i =>
    (List.range (STRAIGHT_AHEAD * 2 + 1)).foldl (fun t j =>
      (t.set i j TOP_LEFT ⟨0, 0⟩).set i j BOTTOM_RIGHT ⟨0, 0⟩) t) t

/-- Body of the inner `for (j = 1; j <= STRAIGHT_AHEAD; ++j)` loop. -/
def init_wall_coords_side (i : Nat) (wall_width : Int) (t : WallCoords) (j : Nat) :
    WallCoords :=
  let t := t.set i (STRAIGHT_AHEAD - j) TOP_LEFT (t.get i STRAIGHT_AHEAD TOP_LEFT)
  let t := t.set i (STRAIGHT_AHEAD - j) TOP_LEFT
    { t.get i (STRAIGHT_AHEAD - j) TOP_LEFT with
      x := (t.get i (STRAIGHT_AHEAD - j) TOP_LEFT).x - wall_width * j }
  let t := t.set i (STRAIGHT_AHEAD - j) BOTTOM_RIGHT (t.get i STRAIGHT_AHEAD BOTTOM_RIGHT)
  let t := t.set i (STRAIGHT_AHEAD - j) BOTTOM_RIGHT
    { t.get i (STRAIGHT_AHEAD - j) BOTTOM_RIGHT with
      x := (t.get i (STRAIGHT_AHEAD - j) BOTTOM_RIGHT).x - wall_width * j }
  let t := t.set i (STRAIGHT_AHEAD + j) TOP_LEFT (t.get i STRAIGHT_AHEAD TOP_LEFT)
  let t := t.set i (STRAIGHT_AHEAD + j) TOP_LEFT
    { t.get i (STRAIGHT_AHEAD + j) TOP_LEFT with
      x := (t.get i (STRAIGHT_AHEAD + j) TOP_LEFT).x + wall_width * j }
  let t := t.set i (STRAIGHT_AHEAD + j) BOTTOM_RIGHT (t.get i STRAIGHT_AHEAD BOTTOM_RIGHT)
  t.set i (STRAIGHT_AHEAD + j) BOTTOM_RIGHT
    { t.get i (STRAIGHT_AHEAD + j) BOTTOM_RIGHT with
      x := (t.get i (STRAIGHT_AHEAD + j) BOTTOM_RIGHT).x + wall_width * j }

/-- Body of the second `for (i = 0; i < MAX_VISIBILITY_DEPTH - 1; ++i)` loop.
`perspective_modifier` is the float 2.0; `i * 2.0` is a small whole number, so
the conversion back to `int16_t` is exact and the arithmetic is done in `Int`. -/
def init_wall_coords_depth (t : WallCoords) (i : Nat) : WallCoords :=
  let perspective_modifier : Int := 2
  let t := t.set i STRAIGHT_AHEAD TOP_LEFT
    ⟨FIRST_WALL_OFFSET - i * perspective_modifier, FIRST_WALL_OFFSET - i * perspective_modifier⟩
  let t :=
    if i > 0 then
      let t := t.set i STRAIGHT_AHEAD TOP_LEFT
        { t.get i STRAIGHT_AHEAD TOP_LEFT with
          x := (t.get i STRAIGHT_AHEAD TOP_LEFT).x + (t.get (i - 1) STRAIGHT_AHEAD TOP_LEFT).x }
      t.set i STRAIGHT_AHEAD TOP_LEFT
        { t.get i STRAIGHT_AHEAD TOP_LEFT with
          y := (t.get i STRAIGHT_AHEAD TOP_LEFT).y + (t.get (i - 1) STRAIGHT_AHEAD TOP_LEFT).y }
    else t
  let t := t.set i STRAIGHT_AHEAD BOTTOM_RIGHT
    { t.get i STRAIGHT_AHEAD BOTTOM_RIGHT with
      x := GRAPHICS_FRAME_WIDTH - (t.get i STRAIGHT_AHEAD TOP_LEFT).x }
  let t := t.set i STRAIGHT_AHEAD BOTTOM_RIGHT
    { t.get i STRAIGHT_AHEAD BOTTOM_RIGHT with
      y := GRAPHICS_FRAME_HEIGHT - (t.get i STRAIGHT_AHEAD TOP_LEFT).y }
  let wall_width :=
    (t.get i STRAIGHT_AHEAD BOTTOM_RIGHT).x - (t.get i STRAIGHT_AHEAD TOP_LEFT).x
  (List.range' 1 STRAIGHT_AHEAD).foldl (init_wall_coords_side i wall_width) t

/-- Source: `init_wall_coords`, run on the table's previous contents `t`. -/
def init_wall_coords (t : WallCoords) : WallCoords :=
  (List.range (MAX_VISIBILITY_DEPTH - 1)).foldl init_wall_coords_depth
    (init_wall_coords_clear t)

/-! ## Drawing -/

/-- What `draw_cell_contents` puts into a cell. -/
inductive Sprite where
  | nothing
  | shadow
  | treasure_chest
  | captive
  | orc
  | wolf
  | slime
deriving DecidableEq, Repr

/-- Source: `draw_cell_contents`, reduced to the choice of the figure drawn
over the shadow; the rectangles and quads of each figure are not modelled.
`Sprite.shadow` is the shadow with no figure over it. -/
def draw_cell_contents (w : World) (cell : GPoint) : Sprite :=
  match get_npc_at w cell with
  | none =>
    -- Check for a completely empty cell:
    if get_cell_type w cell ≤ EMPTY then Sprite.nothing
    else if get_cell_type w cell ≥ GOLD then Sprite.treasure_chest
    else if get_cell_type w cell = CAPTIVE then Sprite.captive
    else Sprite.shadow
  | some npc =>
    if npc.type = ORC then Sprite.orc
    else if npc.type = WOLF then Sprite.wolf
    else if npc.type = SLIME then Sprite.slime
    else Sprite.shadow

/-! ## Dungeon generator -/

/-- Source: `set_player_direction`; the compass rotation is display only. -/
def set_player_direction (w : World) (new_direction : Int) : World :=
  { w with player := { w.player with direction := new_direction } }

/-- Macro `RANDOM_POINT_NORTH`: `GPoint(rand() % LOCATION_WIDTH, 0)`. -/
def RANDOM_POINT_NORTH (r : Rand) : GPoint × Rand :=
  (⟨((rand r).1 : Int) % LOCATION_WIDTH, 0⟩, (rand r).2)

/-- Macro `RANDOM_POINT_SOUTH`: `GPoint(rand() % LOCATION_WIDTH, LOCATION_HEIGHT - 1)`. -/
def RANDOM_POINT_SOUTH (r : Rand) : GPoint × Rand :=
  (⟨((rand r).1 : Int) % LOCATION_WIDTH, LOCATION_HEIGHT - 1⟩, (rand r).2)

/-- Macro `RANDOM_POINT_EAST`: `GPoint(LOCATION_WIDTH - 1, rand() % LOCATION_HEIGHT)`. -/
def RANDOM_POINT_EAST (r : Rand) : GPoint × Rand :=
  (⟨LOCATION_WIDTH - 1, ((rand r).1 : Int) % LOCATION_HEIGHT⟩, (rand r).2)

/-- Macro `RANDOM_POINT_WEST`: `GPoint(0, rand() % LOCATION_HEIGHT)`. -/
def RANDOM_POINT_WEST (r : Rand) : GPoint × Rand :=
  (⟨0, ((rand r).1 : Int) % LOCATION_HEIGHT⟩, (rand r).2)

/-- The grid after the direct store `cells[i][j] = v`. -/
def store_cell (cells : Nat → Nat → Int) (i j : Nat) (v : Int) : Nat → Nat → Int :=
  fun a b => if a = i ∧ b = j then v else cells a b

/-- First part of `init_quest_location`: the two nested loops that set each
cell to solid. -/
def init_quest_location_clear (w : World) : World :=
  { w with quest := { w.quest with
    cells := (List.range LOCATION_WIDTH.toNat).foldl (fun cells i =>
      (List.range LOCATION_HEIGHT.toNat).foldl (fun cells j => store_cell cells i j SOLID)
        cells) w.quest.cells } }

/-- Second part of `init_quest_location`: the `switch` on
`g_quest->entrance_direction = rand() % NUM_DIRECTIONS` that sets the starting
and exit points. -/
def init_quest_location_points (w : World) (r : Rand) : World × Rand :=
  let entrance_direction : Int := (((rand r).1 % NUM_DIRECTIONS : Nat) : Int)
  let r := (rand r).2
  let w : World := { w with quest := { w.quest with entrance_direction := entrance_direction } }
  if entrance_direction = NORTH then
    let s := RANDOM_POINT_NORTH r
    let e := RANDOM_POINT_SOUTH s.2
    ({ w with quest := { w.quest with starting_point := s.1, ending_point := e.1 } }, e.2)
  else if entrance_direction = SOUTH then
    let s := RANDOM_POINT_SOUTH r
    let e := RANDOM_POINT_NORTH s.2
    ({ w with quest := { w.quest with starting_point := s.1, ending_point := e.1 } }, e.2)
  else if entrance_direction = EAST then
    let s := RANDOM_POINT_EAST r
    let e := RANDOM_POINT_WEST s.2
    ({ w with quest := { w.quest with starting_point := s.1, ending_point := e.1 } }, e.2)
  else
    let s := RANDOM_POINT_WEST r
    let e := RANDOM_POINT_EAST s.2
    ({ w with quest := { w.quest with starting_point := s.1, ending_point := e.1 } }, e.2)

/-- The live variables of the carving loop of `init_quest_location`. -/
structure Builder where
  w : World
  builder_position : GPoint
  builder_direction : Int
  r : Rand

/-- One pass through the body of the carving loop: empty the current cell,
step one cell in the walk direction unless that would leave the grid, record
the exit direction, and turn with a chance of one in four. `none` when the
store lands outside the grid. -/
def carve_step (b : Builder) : Option Builder :=
  (set_cell_type b.w b.builder_position EMPTY).map fun w1 =>
    let p := b.builder_position
    let p : GPoint :=
      if b.builder_direction = NORTH then
        if p.y > 0 then { p with y := p.y - 1 } else p
      else if b.builder_direction = SOUTH then
        if p.y < LOCATION_HEIGHT - 1 then { p with y := p.y + 1 } else p
      else if b.builder_direction = EAST then
        if p.x < LOCATION_WIDTH - 1 then { p with x := p.x + 1 } else p
      else
        if p.x > 0 then { p with x := p.x - 1 } else p
    let w2 : World :=
      { w1 with quest := { w1.quest with exit_direction := b.builder_direction } }
    -- 25% chance of turning:
    if (rand b.r).1 % NUM_DIRECTIONS = 0 then
      { w := w2, builder_position := p,
        builder_direction := (((rand (rand b.r).2).1 % NUM_DIRECTIONS : Nat) : Int),
        r := (rand (rand b.r).2).2 }
    else
      { w := w2, builder_position := p, builder_direction := b.builder_direction,
        r := (rand b.r).2 }

/-- The carving loop `while (!gpoint_equal(&builder_position, &ending_point))`,
run for at most `fuel` passes. `none` when the passes run out before the
builder stands on `ending_point`, or when a pass stores outside the grid. -/
def carve_loop : Nat → Builder → Option Builder
  | 0, b =>
    if gpoint_equal b.builder_position b.w.quest.ending_point then some b else none
  | fuel + 1, b =>
    if gpoint_equal b.builder_position b.w.quest.ending_point then some b
    else (carve_step b).bind (carve_loop fuel)

/-- Last part of `init_quest_location`: the final `set_cell_type` of the
builder's cell and the special NPC or object at `ending_point`. -/
def init_quest_location_finish (b : Builder) (fresh : npc_t) : Option (World × Rand) :=
  (set_cell_type b.w b.builder_position EMPTY).bind fun w =>
    if w.quest.type = MAIN_QUEST_CONCLUSION then
      some (add_new_npc w ARCHMAGE w.quest.ending_point fresh, b.r)
    else if w.quest.type = RECOVER_ITEM then
      (set_cell_type w w.quest.ending_point ARTIFACT).map fun w2 => (w2, b.r)
    else if w.quest.type = RESCUE then
      (set_cell_type w w.quest.ending_point CAPTIVE).map fun w2 => (w2, b.r)
    else some (w, b.r)

/-- Source: `init_quest_location`, its carving loop run for at most `fuel`
passes; `fresh` is the node `malloc` returns to `add_new_npc`. -/
def init_quest_location (fuel : Nat) (w : World) (r : Rand) (fresh : npc_t) :
    Option (World × Rand) :=
  let w := init_quest_location_clear w
  let wr := init_quest_location_points w r
  (carve_loop fuel
    { w := wr.1, builder_position := wr.1.quest.starting_point,
      builder_direction := get_opposite_direction wr.1.quest.entrance_direction,
      r := wr.2 }).bind fun b => init_quest_location_finish b fresh

/-- The live variables on entry to the carving loop of `init_quest_location`:
the grid cleared, the two points chosen, the builder on `starting_point`
heading away from the entrance edge. -/
def carve_start (w : World) (r : Rand) : Builder :=
  let wr := init_quest_location_points (init_quest_location_clear w) r
  { w := wr.1, builder_position := wr.1.quest.starting_point,
    builder_direction := get_opposite_direction wr.1.quest.entrance_direction,
    r := wr.2 }

/-- The body of the carving loop run `n` times in a row, the loop test left
out. `none` when one of the passes stores outside the grid. -/
def carve_passes : Nat → Builder → Option Builder
  | 0, b => some b
  | n + 1, b => (carve_step b).bind (carve_passes n)

/-- The builder's positions on entry to each of the first `n` passes of the
carving loop and after the last of them, in order. -/
def carve_visited : Nat → Builder → List GPoint
  | 0, b => [b.builder_position]
  | n + 1, b =>
    b.builder_position ::
      match carve_step b with
      | none => []
      | some b2 => carve_visited n b2

/-- First part of `init_quest`: the assignments before the call of
`init_quest_location`. `DEFAULT_QUEST_REWARD` is `25 * (rand() % 10 + 1)`. -/
def init_quest_fields (w : World) (type : Int) (r : Rand) : World × Rand :=
  let reward : Int := 25 * ((((rand r).1 % 10 : Nat) : Int) + 1)
  let r := (rand r).2
  let reward := if type = ASSASSINATE then reward * 2 else reward
  let num_npcs : Int :=
    (((rand r).1 % (MAX_NPCS_PER_QUEST - MIN_NPCS_PER_QUEST + 1) + MIN_NPCS_PER_QUEST : Nat) : Int)
  let r := (rand r).2
  ({ w with quest := { w.quest with
      type := type, reward := reward, primary_npc_type := GOBLIN, num_npcs := num_npcs,
      kills := 0, npcs := [], completed := false } }, r)

/-- Last part of `init_quest`: move and orient the player, restore HP and MP,
drop the key and clear the status effects. -/
def init_quest_player (w : World) : World :=
  let w := set_player_direction w (get_opposite_direction w.quest.entrance_direction)
  let stats := w.player.stats.set CURRENT_HP (w.player.stats MAX_HP)
  let stats := stats.set CURRENT_MP (stats MAX_MP)
  { w with player := { w.player with
      position := w.quest.starting_point, stats := stats, has_key := false,
      status_effects :=
        (List.range NUM_STATUS_EFFECTS).foldl (fun s i => s.set i 0) w.player.status_effects } }

/-- Source: `init_quest`, the carving loop run for at most `fuel` passes. -/
def init_quest (fuel : Nat) (w : World) (type : Int) (r : Rand) (fresh : npc_t) :
    Option (World × Rand) :=
  (init_quest_location fuel (init_quest_fields w type r).1 (init_quest_fields w type r).2
    fresh).map fun wr => (init_quest_player wr.1, wr.2)

/-! ## Occupancy exclusivity -/

/-- No two NPCs of the quest's list share a position, and no NPC stands on the
player's position. -/
def occupancy_exclusive (w : World) : Prop :=
  (w.quest.npcs.map (fun n => n.position)).Nodup ∧
  ∀ n ∈ w.quest.npcs, n.position ≠ w.player.position

instance occupancy_exclusive_decidable (w : World) : Decidable (occupancy_exclusive w) :=
  inferInstanceAs (Decidable ((w.quest.npcs.map (fun n : npc_t => n.position)).Nodup ∧
    ∀ n ∈ w.quest.npcs, n.position ≠ w.player.position))

/-! ## Properties of generated dungeons -/

/-- Two states agree on what the carving loop and the stores into the grid
leave alone: the player, the NPC list, the quest type, the two end points and
the entrance direction. -/
def same_frame (a b : World) : Prop :=
  a.player = b.player ∧ a.quest.npcs = b.quest.npcs ∧ a.quest.type = b.quest.type ∧
  a.quest.starting_point = b.quest.starting_point ∧
  a.quest.ending_point = b.quest.ending_point ∧
  a.quest.entrance_direction = b.quest.entrance_direction

/-- The point `p` lies on the border edge named by `direction`: NORTH is
y = 0, SOUTH is y = LOCATION_HEIGHT - 1, EAST is x = LOCATION_WIDTH - 1 and
WEST is x = 0. -/
def on_border_edge (direction : Int) (p : GPoint) : Prop :=
  (direction = NORTH → p.y = 0) ∧ (direction = SOUTH → p.y = LOCATION_HEIGHT - 1) ∧
  (direction = EAST → p.x = LOCATION_WIDTH - 1) ∧ (direction = WEST → p.x = 0)

/-- A path of cells: each lies inside the grid and does not read `SOLID`, and
consecutive cells touch (are 4-adjacent). -/
def open_path (w : World) (path : List GPoint) : Prop :=
  (∀ c ∈ path, out_of_bounds c = false ∧ get_cell_type w c ≠ SOLID) ∧
  List.Chain' (fun a b => touching a b = true) path

/-- Cell `b` can be reached from cell `a` along an open path, end points
included. -/
def reachable (w : World) (a b : GPoint) : Prop :=
  ∃ path : List GPoint, path.head? = some a ∧ path.getLast? = some b ∧ open_path w path

/-- The carving invariant: the cells of `trail` followed by the builder's cell
`p` form a chain of touching in-grid cells that starts at `starting_point`, and
every cell of `trail` already reads `EMPTY`. -/
def carved_trail (w : World) (trail : List GPoint) (p : GPoint) : Prop :=
  (trail ++ [p]).head? = some w.quest.starting_point ∧
  List.Chain' (fun a b => touching a b = true) (trail ++ [p]) ∧
  (∀ c ∈ trail ++ [p], out_of_bounds c = false) ∧
  ∀ c ∈ trail, get_cell_type w c = EMPTY

/-- A chain of touching cells of `cells` that leads from `a` to `b`. -/
def linked_within (cells : List GPoint) (a b : GPoint) : Prop :=
  ∃ path : List GPoint, path.head? = some a ∧ path.getLast? = some b ∧
    (∀ c ∈ path, c ∈ cells) ∧ List.Chain' (fun a b => touching a b = true) path

/-- The Manhattan distance between two cells. -/
def manhattan (a b : GPoint) : Nat := (a.x - b.x).natAbs + (a.y - b.y).natAbs

/-- The nodes `nodes`, in this order, are linked from `pointer` up to `stop`. -/
def linked_from (next : Nat → Option Nat) : Option Nat → List Nat → Option Nat → Prop
  | pointer, [], stop => pointer = stop
  | pointer, node :: nodes, stop => pointer = some node ∧ linked_from next (next node) nodes stop

/-- The link fields hold exactly the list `nodes`, in this order, ending in
NULL. -/
def holds_list (l : NpcLinks) (nodes : List Nat) : Prop :=
  linked_from l.next l.npcs nodes none

/-! ## Concrete states used to evaluate the operations -/

/-- A player at `position`, facing north, every stat 10, no gold. -/
def demo_player (position : GPoint) : player_t :=
  { position := position, direction := NORTH, stats := fun _ => 10,
    status_effects := fun _ => 0, gold := 0, has_key := false }

/-- An NPC of type `GOBLIN` at `position`, every stat 4. -/
def demo_npc (position : GPoint) : npc_t :=
  { position := position, type := GOBLIN, stats := fun _ => 4, status_effects := fun _ => 0 }

/-- A running quest over the grid `cells` with the NPCs `npcs`, entered from
the north edge at (7, 0), the player standing at `position`. -/
def demo_world (cells : Nat → Nat → Int) (position : GPoint) (npcs : List npc_t) : World :=
  { player := demo_player position,
    quest :=
      { type := 0, reward := 25, primary_npc_type := GOBLIN, num_npcs := 10, kills := 0,
        cells := cells,
        entrance_direction := NORTH, exit_direction := SOUTH,
        starting_point := ⟨7, 0⟩, ending_point := ⟨7, 14⟩, npcs := npcs, completed := false },
    scroll := none }

/-- Every cell of the grid is `SOLID`. -/
def solid_cells : Nat → Nat → Int := fun _ _ => SOLID

/-- Every cell of the grid is `EMPTY`. -/
def empty_cells : Nat → Nat → Int := fun _ _ => EMPTY

/-- An all-empty grid with the player at (5, 5) and two NPCs, at (5, 3) and (8, 8). -/
def two_npc_world : World :=
  demo_world empty_cells ⟨5, 5⟩ [demo_npc ⟨5, 3⟩, demo_npc ⟨8, 8⟩]

/-- An all-empty grid except for captives at (6, 5) and (5, 6), the player at (7, 7). -/
def cornered_cells : Nat → Nat → Int :=
  fun i j => if (i = 6 ∧ j = 5) ∨ (i = 5 ∧ j = 6) then CAPTIVE else EMPTY

/-- The table before `init_wall_coords` has run: nothing stored, all zero. -/
def zero_wall_coords : WallCoords := { stores := [], before := fun _ _ _ => ⟨0, 0⟩ }

/-- A random stream for `init_quest_location`: entrance NORTH, start (7, 0),
end (7, 14), and a walk that never turns. -/
def straight_south : Rand := fun n => if n = 0 then 0 else if n ≤ 2 then 7 else 1

/-- The same dungeon for `init_quest`, which draws the reward and the NPC
count first. -/
def quest_straight_south : Rand :=
  fun n => if n = 2 then 0 else if n = 3 ∨ n = 4 then 7 else 1

/-- A quest of type `RECOVER_ITEM` about to be generated. -/
def recover_item_world : World :=
  { demo_world solid_cells ⟨3, 3⟩ [] with
    quest := { (demo_world solid_cells ⟨3, 3⟩ []).quest with type := RECOVER_ITEM } }

/-- An all-empty grid except for a captive at (5, 4). -/
def captive_cells : Nat → Nat → Int := fun i j => if i = 5 ∧ j = 4 then CAPTIVE else EMPTY

/-- A completed quest with reward 25, the player on the starting point (7, 0),
facing the entrance, and owning `gold`. -/
def rich_world (gold : Int) : World :=
  { player := { demo_player ⟨7, 0⟩ with gold := gold },
    quest := { (demo_world empty_cells ⟨7, 0⟩ []).quest with completed := true },
    scroll := none }

/-- A player with `PHYSICAL_DEFENSE` 100 and every other stat 30. -/
def armoured_world : World :=
  { demo_world empty_cells ⟨5, 5⟩ [] with
    player := { demo_player ⟨5, 5⟩ with
      stats := fun i => if i = PHYSICAL_DEFENSE then 100 else 30 } }

/-- A player with 5 of 10 hit points. -/
def wounded_world : World :=
  { demo_world empty_cells ⟨5, 5⟩ [] with
    player := { demo_player ⟨5, 5⟩ with
      stats := fun i => if i = CURRENT_HP then 5 else 10 } }

/-- A random stream for `init_quest_location`: entrance NORTH, start (0, 0),
end (1, 14), and every later draw 1, so the walk never turns. -/
def never_turning : Rand := fun n => if n < 2 then 0 else 1

/-- The player on the west edge at (0, 5) of an all-empty grid, one NPC six
cells to the south at (0, 11). -/
def west_edge_world : World := demo_world empty_cells ⟨0, 5⟩ [demo_npc ⟨0, 11⟩]

/-- A random stream for `get_npc_spawn_point`: direction SOUTH, then an even
draw, so the right-hand side is looked at first. -/
def south_then_right : Rand := fun n => if n = 0 then 1 else 0

/-- The player at (5, 5) of an all-empty grid, with NPCs six cells to the
south at (5, 11) and on the cell east of that one, (6, 11). -/
def blocked_left_world : World :=
  demo_world empty_cells ⟨5, 5⟩ [demo_npc ⟨5, 11⟩, demo_npc ⟨6, 11⟩]

/-- Every draw is 1: direction SOUTH, then odd draws only. -/
def always_odd : Rand := fun _ => 1

/-- Three nodes at the addresses 10, 20 and 30, linked in this order. -/
def three_links : NpcLinks :=
  { npcs := some 10,
    next := fun a => if a = 10 then some 20 else if a = 20 then some 30 else none,
    freed := [] }

/-! ## Theorems: grid queries -/

/-- Claim C1: `get_cell_type` returns `SOLID` for every position outside the
grid, whatever the grid holds, and the stored value `cells[p.x][p.y]` for every
position inside it. -/
theorem get_cell_type_sentinel (w : World) (p : GPoint) :
    ((p.x < 0 ∨ p.x ≥ LOCATION_WIDTH ∨ p.y < 0 ∨ p.y ≥ LOCATION_HEIGHT) →
      get_cell_type w p = SOLID) ∧
    ((0 ≤ p.x ∧ p.x < LOCATION_WIDTH ∧ 0 ≤ p.y ∧ p.y < LOCATION_HEIGHT) →
      get_cell_type w p = w.quest.cells p.x.toNat p.y.toNat) := by
  constructor
  · intro h
    have hb : out_of_bounds p = true := by
      simp only [out_of_bounds, Bool.or_eq_true, decide_eq_true_eq]
      tauto
    simp [get_cell_type, hb]
  · intro h
    have hb : out_of_bounds p = false := by
      simp only [out_of_bounds, Bool.or_eq_false_iff, decide_eq_false_iff_not]
      omega
    simp [get_cell_type, hb]

/-- Claim C1 at concrete inputs: (-1, 4) reads `SOLID` on an all-empty grid and
(3, 4) reads the stored `EMPTY`. -/
theorem get_cell_type_sentinel_witness :
    get_cell_type (demo_world empty_cells ⟨7, 0⟩ []) ⟨-1, 4⟩ = SOLID ∧
    get_cell_type (demo_world empty_cells ⟨7, 0⟩ []) ⟨3, 4⟩ = EMPTY :=
  ⟨(get_cell_type_sentinel (demo_world empty_cells ⟨7, 0⟩ []) ⟨-1, 4⟩).1 (by decide),
   (get_cell_type_sentinel (demo_world empty_cells ⟨7, 0⟩ []) ⟨3, 4⟩).2 (by decide)⟩

/-- Claim C2 fails on the code: with the player at (0, 0) and no NPC, the
out-of-bounds cell (-1, 0) and the in-bounds solid cell (3, 3) both read
`SOLID`, and `occupiable` returns true for both, because `SOLID` (2) passes the
test `get_cell_type(cell) <= EMPTY` (3). -/
theorem occupiable_accepts_solid :
    get_cell_type (demo_world solid_cells ⟨0, 0⟩ []) ⟨-1, 0⟩ = SOLID ∧
    occupiable (demo_world solid_cells ⟨0, 0⟩ []) ⟨-1, 0⟩ = true ∧
    get_cell_type (demo_world solid_cells ⟨0, 0⟩ []) ⟨3, 3⟩ = SOLID ∧
    occupiable (demo_world solid_cells ⟨0, 0⟩ []) ⟨3, 3⟩ = true := by
  decide

/-! ## Theorems: occupancy -/

/-- The SDK comparison `gpoint_equal` decides equality of points. -/
theorem gpoint_equal_iff (a b : GPoint) : gpoint_equal a b = true ↔ a = b := by
  cases a; cases b; simp [gpoint_equal]

/-- The walk of `get_npc_at` finds nobody exactly when no listed NPC stands on `cell`. -/
theorem get_npc_at_from_eq_none (npcs : List npc_t) (cell : GPoint) :
    get_npc_at_from npcs cell = none ↔ ∀ n ∈ npcs, n.position ≠ cell := by
  induction npcs with
  | nil => simp [get_npc_at_from]
  | cons n rest ih =>
    by_cases hn : n.position = cell
    · have ht : gpoint_equal n.position cell = true := (gpoint_equal_iff _ _).2 hn
      simp only [get_npc_at_from, ht, if_true]
      constructor
      · intro hc; exact Option.noConfusion hc
      · intro hc; exact absurd hn (hc n (List.mem_cons_self _ _))
    · have hf : gpoint_equal n.position cell = false := by
        rw [← Bool.not_eq_true, gpoint_equal_iff]; exact hn
      simp [get_npc_at_from, hf, ih, hn]

/-- An occupiable cell holds neither the player nor a listed NPC. -/
theorem occupiable_free (w : World) (cell : GPoint) (h : occupiable w cell = true) :
    w.player.position ≠ cell ∧ ∀ n ∈ w.quest.npcs, n.position ≠ cell := by
  simp only [occupiable, Bool.and_eq_true, Bool.not_eq_true', Option.isNone_iff_eq_none] at h
  obtain ⟨⟨_, hp⟩, hn⟩ := h
  refine ⟨?_, (get_npc_at_from_eq_none _ _).1 hn⟩
  intro heq
  rw [← gpoint_equal_iff] at heq
  rw [heq] at hp
  exact Bool.noConfusion hp

/-- The player's own cell is never occupiable. -/
theorem occupiable_player_cell (w : World) : occupiable w w.player.position = false := by
  simp [occupiable, (gpoint_equal_iff _ _).2 rfl]

/-- A cell held by a listed NPC is never occupiable. -/
theorem occupiable_npc_cell (w : World) (n : npc_t) (hn : n ∈ w.quest.npcs) :
    occupiable w n.position = false := by
  cases hocc : occupiable w n.position with
  | false => rfl
  | true => exact absurd rfl ((occupiable_free w _ hocc).2 n hn)

/-- `move_npc` keeps occupancy exclusive. -/
theorem move_npc_exclusive (w : World) (h : occupancy_exclusive w) (npc : Nat) (direction : Int) :
    occupancy_exclusive (move_npc w npc direction) := by
  unfold move_npc
  split
  · exact h
  · rename_i n hn
    simp only
    split
    · rename_i hocc
      obtain ⟨hp, hfree⟩ := occupiable_free w _ hocc
      refine ⟨?_, ?_⟩
      · simp only [List.map_set]
        apply List.Nodup.set h.1
        simp only [List.mem_map, not_exists, not_and]
        intro m hm
        exact hfree m hm
      · intro m hm
        rcases List.mem_or_eq_of_mem_set hm with hm | hm
        · exact h.2 m hm
        · subst hm
          exact fun heq => hp heq.symm
    · exact h

/-- The walk of `remove_npc` only drops nodes and keeps the order of the rest. -/
theorem remove_npc_walk_sublist (npc : Nat) (l : List npc_t) :
    ∀ index, (remove_npc_walk npc index l).Sublist l := by
  induction l with
  | nil => intro index; simp [remove_npc_walk]
  | cons n rest ih =>
    intro index
    unfold remove_npc_walk
    split
    · cases rest with
      | nil => simp
      | cons m rest2 => simp
    · exact (ih (index + 1)).cons₂ n

/-- `remove_npc` keeps occupancy exclusive. -/
theorem remove_npc_exclusive (w : World) (h : occupancy_exclusive w) (npc : Nat) :
    occupancy_exclusive (remove_npc w npc) := by
  have hs := remove_npc_walk_sublist npc w.quest.npcs 0
  refine ⟨?_, ?_⟩
  · exact h.1.sublist (hs.map _)
  · intro m hm
    exact h.2 m (hs.subset hm)

/-- `init_npc` puts the new NPC on the position it is given. -/
theorem init_npc_position (w : World) (npc : npc_t) (type : Int) (position : GPoint) :
    (init_npc w npc type position).position = position := rfl

/-- `add_new_npc` keeps occupancy exclusive. -/
theorem add_new_npc_exclusive (w : World) (h : occupancy_exclusive w) (npc_type : Int)
    (position : GPoint) (fresh : npc_t) :
    occupancy_exclusive (add_new_npc w npc_type position fresh) := by
  unfold add_new_npc
  split
  · rename_i hocc
    obtain ⟨hp, hfree⟩ := occupiable_free w _ hocc
    split
    · refine ⟨by simp, ?_⟩
      intro m hm
      simp only [List.mem_singleton] at hm
      subst hm
      exact fun heq => hp heq.symm
    · rename_i first next hl
      split
      · have h1 := h.1
        have h2 := h.2
        rw [hl] at h1 h2 hfree
        refine ⟨?_, ?_⟩
        · rw [List.map_append]
          refine List.Nodup.append h1 (by simp) ?_
          intro p hp1 hp2
          obtain ⟨m, hm, hmp⟩ := List.mem_map.1 hp1
          simp only [List.map_cons, List.map_nil, List.mem_singleton] at hp2
          rw [hp2] at hmp
          exact hfree m hm hmp
        · intro m hm
          rcases List.mem_append.1 hm with hm | hm
          · exact h2 m hm
          · simp only [List.mem_singleton] at hm
            subst hm
            exact fun heq => hp heq.symm
      · exact h
  · exact h

/-- `damage_player` changes neither the quest nor where the player stands. -/
theorem damage_player_frame (w : World) (damage : Int) :
    (damage_player w damage).quest = w.quest ∧
    (damage_player w damage).player.position = w.player.position := by
  unfold damage_player adjust_player_current_hp show_scroll
  simp only
  split
  · exact ⟨rfl, rfl⟩
  · split <;> exact ⟨rfl, rfl⟩

/-- `end_quest` changes neither the quest nor where the player stands. -/
theorem end_quest_frame (M : Int) (w : World) :
    (end_quest M w).quest = w.quest ∧
    (end_quest M w).player.position = w.player.position := by
  unfold end_quest adjust_player_gold show_scroll
  split
  · simp only
    split
    · exact ⟨rfl, rfl⟩
    · split <;> exact ⟨rfl, rfl⟩
  · exact ⟨rfl, rfl⟩

/-- Exclusivity depends only on the NPC list and the position of the player. -/
theorem exclusive_of_frame (w w2 : World) (h : occupancy_exclusive w)
    (hq : w2.quest.npcs = w.quest.npcs) (hp : w2.player.position = w.player.position) :
    occupancy_exclusive w2 := by
  unfold occupancy_exclusive
  rw [hq, hp]
  exact h

/-- `determine_npc_behavior` keeps occupancy exclusive. -/
theorem determine_npc_behavior_exclusive (w : World) (h : occupancy_exclusive w) (npc : Nat)
    (r : Rand) : occupancy_exclusive (determine_npc_behavior w npc r).1 := by
  unfold determine_npc_behavior
  split
  · exact h
  · split
    · have hf := damage_player_frame w
      exact exclusive_of_frame w _ h (by rw [(hf _).1]) (hf _).2
    · exact move_npc_exclusive w h npc _

/-- `move_player` keeps occupancy exclusive whenever it completes. -/
theorem move_player_exclusive (M : Int) (w : World) (h : occupancy_exclusive w)
    (direction : Int) (w2 : World) (hm : move_player M w direction = some w2) :
    occupancy_exclusive w2 := by
  unfold move_player at hm
  simp only at hm
  split at hm
  · cases hm
    have hf := end_quest_frame M w
    exact exclusive_of_frame w _ h (by rw [hf.1]) hf.2
  · split at hm
    · rename_i hocc
      obtain ⟨hp, hfree⟩ := occupiable_free w _ hocc
      have hmoved : occupancy_exclusive
          { w with player := { w.player with
            position := get_cell_farther_away w.player.position direction 1 } } :=
        ⟨h.1, hfree⟩
      split at hm
      · unfold set_cell_type at hm
        split at hm
        · simp at hm
        · simp only [Option.map_some', Option.some.injEq] at hm
          subst hm
          exact hmoved
      · cases hm
        exact hmoved
    · cases hm
      exact h

/-- Claim C3: occupancy exclusivity (no two NPCs share a position, no NPC on
the player's position) is kept by `move_player` (whenever it completes, that
is, makes no store outside the grid), `move_npc`, `determine_npc_behavior`,
`add_new_npc` and `remove_npc`; and `occupiable` is false for the player's
position and for every position held by an NPC. -/
theorem occupancy_exclusivity (MAX_SMALL_INT_VALUE : Int) (w : World)
    (h : occupancy_exclusive w) :
    (∀ direction w2, move_player MAX_SMALL_INT_VALUE w direction = some w2 →
      occupancy_exclusive w2) ∧
    (∀ npc direction, occupancy_exclusive (move_npc w npc direction)) ∧
    (∀ npc r, occupancy_exclusive (determine_npc_behavior w npc r).1) ∧
    (∀ npc_type position fresh,
      occupancy_exclusive (add_new_npc w npc_type position fresh)) ∧
    (∀ npc, occupancy_exclusive (remove_npc w npc)) ∧
    occupiable w w.player.position = false ∧
    ∀ n ∈ w.quest.npcs, occupiable w n.position = false :=
  ⟨fun direction w2 hm => move_player_exclusive MAX_SMALL_INT_VALUE w h direction w2 hm,
   fun npc direction => move_npc_exclusive w h npc direction,
   fun npc r => determine_npc_behavior_exclusive w h npc r,
   fun npc_type position fresh => add_new_npc_exclusive w h npc_type position fresh,
   fun npc => remove_npc_exclusive w h npc,
   occupiable_player_cell w,
   fun n hn => occupiable_npc_cell w n hn⟩

/-- Claim C3 at a concrete state: the player at (5, 5) with NPCs at (5, 3) and
(8, 8) is exclusive; it stays so when the first NPC steps south, when the
player steps north (a move that completes), and when a third NPC is added; the
player's cell is not occupiable. -/
theorem occupancy_exclusivity_witness :
    occupancy_exclusive two_npc_world ∧
    occupancy_exclusive (move_npc two_npc_world 0 SOUTH) ∧
    (move_player 9999 two_npc_world NORTH).isSome = true ∧
    (∀ w2, move_player 9999 two_npc_world NORTH = some w2 → occupancy_exclusive w2) ∧
    occupancy_exclusive (add_new_npc two_npc_world GOBLIN ⟨1, 1⟩ (demo_npc ⟨0, 0⟩)) ∧
    occupiable two_npc_world ⟨5, 5⟩ = false :=
  ⟨by decide,
   (occupancy_exclusivity 9999 two_npc_world (by decide)).2.1 0 SOUTH,
   by decide,
   (occupancy_exclusivity 9999 two_npc_world (by decide)).1 NORTH,
   (occupancy_exclusivity 9999 two_npc_world (by decide)).2.2.2.1 GOBLIN ⟨1, 1⟩ (demo_npc ⟨0, 0⟩),
   (occupancy_exclusivity 9999 two_npc_world (by decide)).2.2.2.2.2.1⟩

/-! ## Theorems: pursuit planner -/

/-- Once both directions are checked the loop ends with the horizontal one. -/
theorem pursuit_loop_done (w : World) (pursuer : GPoint) (hd vd : Int) (r : Rand) :
    pursuit_loop w pursuer hd vd true true r = (hd, r) := by
  unfold pursuit_loop; simp

/-- Claim C4: when pursuer and target share x, the pursuer is south of the
target (greater y) and the cell one step north of the pursuer is occupiable,
`get_pursuit_direction` returns `NORTH` and leaves the random stream as it
found it, so every call gives the same result. -/
theorem pursuit_aligned_north (w : World) (pursuer target : GPoint) (r : Rand)
    (hx : pursuer.x = target.x) (hy : pursuer.y > target.y)
    (hocc : occupiable w (get_cell_farther_away pursuer NORTH 1) = true) :
    get_pursuit_direction w pursuer target r = (NORTH, r) := by
  have h1 : pursuer.x - target.x = 0 := by omega
  have h2 : pursuer.y - target.y > 0 := by omega
  simp only [get_pursuit_direction, h1, h2, if_true, hocc, true_and, or_true]

/-- Claim C4 at the spec's input: pursuer (5, 5), target (5, 2) on an
all-empty grid. -/
theorem pursuit_aligned_north_witness :
    get_pursuit_direction (demo_world empty_cells ⟨5, 2⟩ []) ⟨5, 5⟩ ⟨5, 2⟩ (fun _ => 1) =
      (NORTH, fun _ => 1) :=
  pursuit_aligned_north (demo_world empty_cells ⟨5, 2⟩ []) ⟨5, 5⟩ ⟨5, 2⟩ (fun _ => 1)
    (by decide) (by decide) (by decide)

/-- Claim C5 fails on the code: when the pursuer stands directly north of the
target (same x, target.y = pursuer.y + 1) and the target cell is not
occupiable, as it never is when the player stands on it, the result is `EAST`,
not `SOUTH`. The adjacency test of the source is `diff_y == 1` only. -/
theorem pursuit_adjacent_south_goes_east (w : World) (pursuer target : GPoint) (r : Rand)
    (hx : pursuer.x = target.x) (hy : pursuer.y + 1 = target.y)
    (hocc : occupiable w target = false) :
    get_pursuit_direction w pursuer target r = (EAST, r) := by
  have h1 : pursuer.x - target.x = 0 := by omega
  have h2 : pursuer.y - target.y = -1 := by omega
  have ht : get_cell_farther_away pursuer SOUTH 1 = target := by
    cases pursuer; cases target; simp_all [get_cell_farther_away]
  simp only [get_pursuit_direction, h1, h2]
  simp [ht, hocc]
  unfold pursuit_loop
  simp [pursuit_loop_done]

/-- Claim C5 at the failing input: pursuer (5, 4), target (5, 5) where the
player stands, all-empty grid: the code answers `EAST`. -/
theorem pursuit_adjacent_south_goes_east_witness :
    get_pursuit_direction (demo_world empty_cells ⟨5, 5⟩ []) ⟨5, 4⟩ ⟨5, 5⟩ (fun _ => 0) =
      (EAST, fun _ => 0) :=
  pursuit_adjacent_south_goes_east (demo_world empty_cells ⟨5, 5⟩ []) ⟨5, 4⟩ ⟨5, 5⟩ (fun _ => 0)
    (by decide) (by decide) (by decide)

/-- Claim C6 fails on the code: on an all-solid grid the pursuer at (5, 5) has
four neighbours that read `SOLID`, yet towards the target (7, 7) it goes `EAST`
when the coin is odd and `SOUTH` when it is even, because `occupiable` accepts
solid cells. -/
theorem pursuit_boxed_in_depends_on_coin :
    get_cell_type (demo_world solid_cells ⟨7, 7⟩ [demo_npc ⟨5, 5⟩]) ⟨5, 4⟩ = SOLID ∧
    get_cell_type (demo_world solid_cells ⟨7, 7⟩ [demo_npc ⟨5, 5⟩]) ⟨5, 6⟩ = SOLID ∧
    get_cell_type (demo_world solid_cells ⟨7, 7⟩ [demo_npc ⟨5, 5⟩]) ⟨6, 5⟩ = SOLID ∧
    get_cell_type (demo_world solid_cells ⟨7, 7⟩ [demo_npc ⟨5, 5⟩]) ⟨4, 5⟩ = SOLID ∧
    (get_pursuit_direction (demo_world solid_cells ⟨7, 7⟩ [demo_npc ⟨5, 5⟩])
      ⟨5, 5⟩ ⟨7, 7⟩ (fun _ => 1)).1 = EAST ∧
    (get_pursuit_direction (demo_world solid_cells ⟨7, 7⟩ [demo_npc ⟨5, 5⟩])
      ⟨5, 5⟩ ⟨7, 7⟩ (fun _ => 0)).1 = SOUTH := by
  refine ⟨by decide, by decide, by decide, by decide, ?_, ?_⟩
  · simp [get_pursuit_direction]
    unfold pursuit_loop
    simp [rand]
    decide
  · simp [get_pursuit_direction]
    unfold pursuit_loop
    simp [rand]
    decide

/-- Claim C7: when pursuer and target differ in x and in y and neither the cell
one step horizontally towards the target nor the cell one step vertically
towards it is occupiable, `get_pursuit_direction` returns the horizontal
candidate (`WEST` if pursuer.x > target.x, else `EAST`) for every random
stream, so for either outcome of the coin flip. -/
theorem pursuit_blocked_returns_horizontal (w : World) (pursuer target : GPoint) (r : Rand)
    (hx : pursuer.x ≠ target.x) (hy : pursuer.y ≠ target.y)
    (hh : occupiable w (get_cell_farther_away pursuer
      (if pursuer.x > target.x then WEST else EAST) 1) = false)
    (hv : occupiable w (get_cell_farther_away pursuer
      (if pursuer.y > target.y then NORTH else SOUTH) 1) = false) :
    (get_pursuit_direction w pursuer target r).1 =
      if pursuer.x > target.x then WEST else EAST := by
  have h1 : pursuer.x - target.x ≠ 0 := by omega
  have h2 : pursuer.y - target.y ≠ 0 := by omega
  have h3 : (pursuer.x - target.x > 0) ↔ pursuer.x > target.x := by omega
  have h4 : (pursuer.y - target.y > 0) ↔ pursuer.y > target.y := by omega
  simp only [get_pursuit_direction, h1, h2, h3, h4, false_and, if_false, decide_False]
  unfold pursuit_loop
  simp only [hh, hv]
  simp
  unfold pursuit_loop
  simp only [hh, hv]
  split <;> simp [pursuit_loop_done]

/-- Claim C7 at a concrete input: pursuer (5, 5), target (7, 7), captives on
(6, 5) and (5, 6): the answer is `EAST` with an odd coin and with an even one. -/
theorem pursuit_blocked_returns_horizontal_witness :
    (get_pursuit_direction (demo_world cornered_cells ⟨7, 7⟩ []) ⟨5, 5⟩ ⟨7, 7⟩
      (fun _ => 1)).1 = EAST ∧
    (get_pursuit_direction (demo_world cornered_cells ⟨7, 7⟩ []) ⟨5, 5⟩ ⟨7, 7⟩
      (fun _ => 0)).1 = EAST :=
  ⟨pursuit_blocked_returns_horizontal (demo_world cornered_cells ⟨7, 7⟩ []) ⟨5, 5⟩ ⟨7, 7⟩
      (fun _ => 1) (by decide) (by decide) (by decide) (by decide),
   pursuit_blocked_returns_horizontal (demo_world cornered_cells ⟨7, 7⟩ []) ⟨5, 5⟩ ⟨7, 7⟩
      (fun _ => 0) (by decide) (by decide) (by decide) (by decide)⟩

/-! ## Theorems: directions -/

/-- Claim C8: for each of the four directions, four left turns give the
direction back, and so do four right turns. -/
theorem rotation_closure (d : Int) (hd : d = NORTH ∨ d = SOUTH ∨ d = EAST ∨ d = WEST) :
    get_direction_to_the_left (get_direction_to_the_left
      (get_direction_to_the_left (get_direction_to_the_left d))) = d ∧
    get_direction_to_the_right (get_direction_to_the_right
      (get_direction_to_the_right (get_direction_to_the_right d))) = d := by
  rcases hd with h | h | h | h <;> subst h <;> decide

/-- Claim C8 at `EAST`. -/
theorem rotation_closure_witness :
    get_direction_to_the_left (get_direction_to_the_left
      (get_direction_to_the_left (get_direction_to_the_left EAST))) = EAST ∧
    get_direction_to_the_right (get_direction_to_the_right
      (get_direction_to_the_right (get_direction_to_the_right EAST))) = EAST :=
  rotation_closure EAST (by decide)

/-- Claim C9: turning left runs the cycle NORTH, WEST, SOUTH, EAST, NORTH, and
on the four directions turning right undoes turning left and turning left
undoes turning right. -/
theorem left_cycle_right_inverse :
    get_direction_to_the_left NORTH = WEST ∧
    get_direction_to_the_left WEST = SOUTH ∧
    get_direction_to_the_left SOUTH = EAST ∧
    get_direction_to_the_left EAST = NORTH ∧
    ∀ d : Int, d = NORTH ∨ d = SOUTH ∨ d = EAST ∨ d = WEST →
      get_direction_to_the_right (get_direction_to_the_left d) = d ∧
      get_direction_to_the_left (get_direction_to_the_right d) = d := by
  refine ⟨by decide, by decide, by decide, by decide, ?_⟩
  intro d hd
  rcases hd with h | h | h | h <;> subst h <;> decide

/-- Claim C9 at `SOUTH`. -/
theorem left_cycle_right_inverse_witness :
    get_direction_to_the_right (get_direction_to_the_left SOUTH) = SOUTH ∧
    get_direction_to_the_left (get_direction_to_the_right SOUTH) = SOUTH :=
  left_cycle_right_inverse.2.2.2.2 SOUTH (by decide)

/-! ## Theorems: projection table -/

/-- The centred column after `init_wall_coords`, whatever the table held. -/
theorem init_wall_coords_centred (t : WallCoords) :
    (init_wall_coords t).get 0 STRAIGHT_AHEAD TOP_LEFT = ⟨16, 16⟩ ∧
    (init_wall_coords t).get 0 STRAIGHT_AHEAD BOTTOM_RIGHT = ⟨128, 120⟩ ∧
    (init_wall_coords t).get 1 STRAIGHT_AHEAD TOP_LEFT = ⟨30, 30⟩ ∧
    (init_wall_coords t).get 1 STRAIGHT_AHEAD BOTTOM_RIGHT = ⟨114, 106⟩ ∧
    (init_wall_coords t).get 2 STRAIGHT_AHEAD TOP_LEFT = ⟨42, 42⟩ ∧
    (init_wall_coords t).get 2 STRAIGHT_AHEAD BOTTOM_RIGHT = ⟨102, 94⟩ ∧
    (init_wall_coords t).get 3 STRAIGHT_AHEAD TOP_LEFT = ⟨52, 52⟩ ∧
    (init_wall_coords t).get 3 STRAIGHT_AHEAD BOTTOM_RIGHT = ⟨92, 84⟩ ∧
    (init_wall_coords t).get 4 STRAIGHT_AHEAD TOP_LEFT = ⟨60, 60⟩ ∧
    (init_wall_coords t).get 4 STRAIGHT_AHEAD BOTTOM_RIGHT = ⟨84, 76⟩ :=
  ⟨rfl, rfl, rfl, rfl, rfl, rfl, rfl, rfl, rfl, rfl⟩

/-- Claim C10: after `init_wall_coords`, in the centred slot `STRAIGHT_AHEAD`
and for every depth `d < MAX_VISIBILITY_DEPTH - 2`, the top-left corner of
depth `d + 1` is strictly greater in x and in y than that of depth `d`, and the
bottom-right corner strictly smaller in x and in y. -/
theorem centred_rectangles_nest (t : WallCoords) (d : Nat) (hd : d < MAX_VISIBILITY_DEPTH - 2) :
    ((init_wall_coords t).get d STRAIGHT_AHEAD TOP_LEFT).x <
      ((init_wall_coords t).get (d + 1) STRAIGHT_AHEAD TOP_LEFT).x ∧
    ((init_wall_coords t).get d STRAIGHT_AHEAD TOP_LEFT).y <
      ((init_wall_coords t).get (d + 1) STRAIGHT_AHEAD TOP_LEFT).y ∧
    ((init_wall_coords t).get (d + 1) STRAIGHT_AHEAD BOTTOM_RIGHT).x <
      ((init_wall_coords t).get d STRAIGHT_AHEAD BOTTOM_RIGHT).x ∧
    ((init_wall_coords t).get (d + 1) STRAIGHT_AHEAD BOTTOM_RIGHT).y <
      ((init_wall_coords t).get d STRAIGHT_AHEAD BOTTOM_RIGHT).y := by
  obtain ⟨h0a, h0b, h1a, h1b, h2a, h2b, h3a, h3b, h4a, h4b⟩ := init_wall_coords_centred t
  have hd4 : d < 4 := hd
  interval_cases d
  · rw [h0a, h0b, h1a, h1b]; decide
  · rw [h1a, h1b, h2a, h2b]; decide
  · rw [h2a, h2b, h3a, h3b]; decide
  · rw [h3a, h3b, h4a, h4b]; decide

/-- Claim C10 at depth 3, the deepest pair, starting from an all-zero table. -/
theorem centred_rectangles_nest_witness :
    ((init_wall_coords zero_wall_coords).get 3 STRAIGHT_AHEAD TOP_LEFT).x <
      ((init_wall_coords zero_wall_coords).get 4 STRAIGHT_AHEAD TOP_LEFT).x ∧
    ((init_wall_coords zero_wall_coords).get 3 STRAIGHT_AHEAD TOP_LEFT).y <
      ((init_wall_coords zero_wall_coords).get 4 STRAIGHT_AHEAD TOP_LEFT).y ∧
    ((init_wall_coords zero_wall_coords).get 4 STRAIGHT_AHEAD BOTTOM_RIGHT).x <
      ((init_wall_coords zero_wall_coords).get 3 STRAIGHT_AHEAD BOTTOM_RIGHT).x ∧
    ((init_wall_coords zero_wall_coords).get 4 STRAIGHT_AHEAD BOTTOM_RIGHT).y <
      ((init_wall_coords zero_wall_coords).get 3 STRAIGHT_AHEAD BOTTOM_RIGHT).y :=
  centred_rectangles_nest zero_wall_coords 3 (by decide)

set_option maxHeartbeats 4000000 in
/-- Every entry of the table after `init_wall_coords`, whatever it held
before: at depth `d` the centred inset is `(d + 1) * (16 - d)`, and slot `s` is
the centred rectangle moved by `s - 5` times its width. -/
theorem init_wall_coords_entries (t : WallCoords) (d s : Nat)
    (hd : d < MAX_VISIBILITY_DEPTH - 1) (hs : s < STRAIGHT_AHEAD * 2 + 1) :
    (init_wall_coords t).get d s TOP_LEFT =
      ⟨((d : Int) + 1) * (16 - d) + ((s : Int) - 5) * (144 - 2 * (((d : Int) + 1) * (16 - d))),
       ((d : Int) + 1) * (16 - d)⟩ ∧
    (init_wall_coords t).get d s BOTTOM_RIGHT =
      ⟨144 - ((d : Int) + 1) * (16 - d) +
          ((s : Int) - 5) * (144 - 2 * (((d : Int) + 1) * (16 - d))),
       136 - ((d : Int) + 1) * (16 - d)⟩ := by
  have hd5 : d < 5 := hd
  have hs11 : s < 11 := hs
  interval_cases d <;> interval_cases s <;> exact ⟨rfl, rfl⟩

/-! ## Theorems: the lateral slots of the projection table -/

/-- Claim C11 fails as stated: starting from the all-zero table, in slot 0 the
depth-1 rectangle does not lie inside the depth-0 rectangle, since its right
edge (x = -306) is right of the depth-0 right edge (x = -432). -/
theorem lateral_rectangles_not_nested :
    ¬ (((init_wall_coords zero_wall_coords).get 0 0 TOP_LEFT).x ≤
        ((init_wall_coords zero_wall_coords).get 1 0 TOP_LEFT).x ∧
      ((init_wall_coords zero_wall_coords).get 1 0 BOTTOM_RIGHT).x ≤
        ((init_wall_coords zero_wall_coords).get 0 0 BOTTOM_RIGHT).x ∧
      ((init_wall_coords zero_wall_coords).get 0 0 TOP_LEFT).y ≤
        ((init_wall_coords zero_wall_coords).get 1 0 TOP_LEFT).y ∧
      ((init_wall_coords zero_wall_coords).get 1 0 BOTTOM_RIGHT).y ≤
        ((init_wall_coords zero_wall_coords).get 0 0 BOTTOM_RIGHT).y) := by
  have e0 := init_wall_coords_entries zero_wall_coords 0 0 (by decide) (by decide)
  have e1 := init_wall_coords_entries zero_wall_coords 1 0 (by decide) (by decide)
  rw [e0.1, e0.2, e1.1, e1.2]
  decide

/-- Claim C11 as amended: after `init_wall_coords`, for every slot
`s ≤ 2 * STRAIGHT_AHEAD` and every depth `d < MAX_VISIBILITY_DEPTH - 2`, the
rectangle at depth `d + 1` lies vertically inside the one at depth `d` (top
not above, bottom not below). Horizontally it lies inside for the centred
slot; for a slot left of centre both its edges lie strictly right of the
depth-`d` edges, and for a slot right of centre both lie strictly left. -/
theorem lateral_rectangles_nest_vertically (t : WallCoords) (d s : Nat)
    (hd : d < MAX_VISIBILITY_DEPTH - 2) (hs : s ≤ 2 * STRAIGHT_AHEAD) :
    ((init_wall_coords t).get d s TOP_LEFT).y ≤ ((init_wall_coords t).get (d + 1) s TOP_LEFT).y ∧
    ((init_wall_coords t).get (d + 1) s BOTTOM_RIGHT).y ≤
      ((init_wall_coords t).get d s BOTTOM_RIGHT).y ∧
    (s = STRAIGHT_AHEAD →
      ((init_wall_coords t).get d s TOP_LEFT).x ≤ ((init_wall_coords t).get (d + 1) s TOP_LEFT).x ∧
      ((init_wall_coords t).get (d + 1) s BOTTOM_RIGHT).x ≤
        ((init_wall_coords t).get d s BOTTOM_RIGHT).x) ∧
    (s < STRAIGHT_AHEAD →
      ((init_wall_coords t).get d s TOP_LEFT).x < ((init_wall_coords t).get (d + 1) s TOP_LEFT).x ∧
      ((init_wall_coords t).get d s BOTTOM_RIGHT).x <
        ((init_wall_coords t).get (d + 1) s BOTTOM_RIGHT).x) ∧
    (STRAIGHT_AHEAD < s →
      ((init_wall_coords t).get (d + 1) s TOP_LEFT).x < ((init_wall_coords t).get d s TOP_LEFT).x ∧
      ((init_wall_coords t).get (d + 1) s BOTTOM_RIGHT).x <
        ((init_wall_coords t).get d s BOTTOM_RIGHT).x) := by
  have hd4 : d < 4 := hd
  have hs10 : s ≤ 10 := hs
  have e0 := init_wall_coords_entries t d s (by simp only [MAX_VISIBILITY_DEPTH]; omega)
    (by simp only [STRAIGHT_AHEAD, MAX_VISIBILITY_DEPTH]; omega)
  have e1 := init_wall_coords_entries t (d + 1) s (by simp only [MAX_VISIBILITY_DEPTH]; omega)
    (by simp only [STRAIGHT_AHEAD, MAX_VISIBILITY_DEPTH]; omega)
  rw [e0.1, e0.2, e1.1, e1.2]
  simp only [STRAIGHT_AHEAD, MAX_VISIBILITY_DEPTH]
  interval_cases d <;> simp <;> omega

/-- Claim C11 as amended, in slot 0 between depths 0 and 1: the top edge does
not rise, and the right edge moves right. -/
theorem lateral_rectangles_nest_vertically_witness :
    ((init_wall_coords zero_wall_coords).get 0 0 TOP_LEFT).y ≤
      ((init_wall_coords zero_wall_coords).get 1 0 TOP_LEFT).y ∧
    ((init_wall_coords zero_wall_coords).get 0 0 BOTTOM_RIGHT).x <
      ((init_wall_coords zero_wall_coords).get 1 0 BOTTOM_RIGHT).x :=
  ⟨(lateral_rectangles_nest_vertically zero_wall_coords 0 0 (by decide) (by decide)).1,
   ((lateral_rectangles_nest_vertically zero_wall_coords 0 0 (by decide) (by decide)).2.2.2.1
      (by decide)).2⟩

/-- Claim C12: after `init_wall_coords`, at every depth the centred rectangle
has BOTTOM_RIGHT.x = GRAPHICS_FRAME_WIDTH - TOP_LEFT.x and BOTTOM_RIGHT.y =
GRAPHICS_FRAME_HEIGHT - TOP_LEFT.y, so its two x coordinates add up to twice
SCREEN_WIDTH / 2: it is symmetric about the vertical line x = SCREEN_WIDTH / 2. -/
theorem centred_rectangle_mirrors (t : WallCoords) (d : Nat) (hd : d < MAX_VISIBILITY_DEPTH - 1) :
    ((init_wall_coords t).get d STRAIGHT_AHEAD BOTTOM_RIGHT).x =
      GRAPHICS_FRAME_WIDTH - ((init_wall_coords t).get d STRAIGHT_AHEAD TOP_LEFT).x ∧
    ((init_wall_coords t).get d STRAIGHT_AHEAD BOTTOM_RIGHT).y =
      GRAPHICS_FRAME_HEIGHT - ((init_wall_coords t).get d STRAIGHT_AHEAD TOP_LEFT).y ∧
    ((init_wall_coords t).get d STRAIGHT_AHEAD TOP_LEFT).x +
      ((init_wall_coords t).get d STRAIGHT_AHEAD BOTTOM_RIGHT).x = 2 * (SCREEN_WIDTH / 2) := by
  obtain ⟨h0a, h0b, h1a, h1b, h2a, h2b, h3a, h3b, h4a, h4b⟩ := init_wall_coords_centred t
  have hd5 : d < 5 := hd
  interval_cases d
  · rw [h0a, h0b]; decide
  · rw [h1a, h1b]; decide
  · rw [h2a, h2b]; decide
  · rw [h3a, h3b]; decide
  · rw [h4a, h4b]; decide

/-- Claim C12 at depth 4, the deepest rectangle. -/
theorem centred_rectangle_mirrors_witness :
    ((init_wall_coords zero_wall_coords).get 4 STRAIGHT_AHEAD BOTTOM_RIGHT).x =
      GRAPHICS_FRAME_WIDTH - ((init_wall_coords zero_wall_coords).get 4 STRAIGHT_AHEAD TOP_LEFT).x :=
  (centred_rectangle_mirrors zero_wall_coords 4 (by decide)).1

/-- Claim C13: after `init_wall_coords`, at every depth `d` and for every `j`
from 1 to STRAIGHT_AHEAD, the rectangle in slot STRAIGHT_AHEAD - j is the
centred rectangle moved by `-j * w` in x, the one in slot STRAIGHT_AHEAD + j
the centred rectangle moved by `+j * w`, with `w` the centred rectangle's
width and the y coordinates unchanged; and adjacent slots tile: BOTTOM_RIGHT.x
of slot `s` equals TOP_LEFT.x of slot `s + 1`. -/
theorem lateral_slots_translate (t : WallCoords) (d j : Nat) (hd : d < MAX_VISIBILITY_DEPTH - 1)
    (hj1 : 1 ≤ j) (hj : j ≤ STRAIGHT_AHEAD) :
    (init_wall_coords t).get d (STRAIGHT_AHEAD - j) TOP_LEFT =
      ⟨((init_wall_coords t).get d STRAIGHT_AHEAD TOP_LEFT).x -
          j * (((init_wall_coords t).get d STRAIGHT_AHEAD BOTTOM_RIGHT).x -
            ((init_wall_coords t).get d STRAIGHT_AHEAD TOP_LEFT).x),
        ((init_wall_coords t).get d STRAIGHT_AHEAD TOP_LEFT).y⟩ ∧
    (init_wall_coords t).get d (STRAIGHT_AHEAD - j) BOTTOM_RIGHT =
      ⟨((init_wall_coords t).get d STRAIGHT_AHEAD BOTTOM_RIGHT).x -
          j * (((init_wall_coords t).get d STRAIGHT_AHEAD BOTTOM_RIGHT).x -
            ((init_wall_coords t).get d STRAIGHT_AHEAD TOP_LEFT).x),
        ((init_wall_coords t).get d STRAIGHT_AHEAD BOTTOM_RIGHT).y⟩ ∧
    (init_wall_coords t).get d (STRAIGHT_AHEAD + j) TOP_LEFT =
      ⟨((init_wall_coords t).get d STRAIGHT_AHEAD TOP_LEFT).x +
          j * (((init_wall_coords t).get d STRAIGHT_AHEAD BOTTOM_RIGHT).x -
            ((init_wall_coords t).get d STRAIGHT_AHEAD TOP_LEFT).x),
        ((init_wall_coords t).get d STRAIGHT_AHEAD TOP_LEFT).y⟩ ∧
    (init_wall_coords t).get d (STRAIGHT_AHEAD + j) BOTTOM_RIGHT =
      ⟨((init_wall_coords t).get d STRAIGHT_AHEAD BOTTOM_RIGHT).x +
          j * (((init_wall_coords t).get d STRAIGHT_AHEAD BOTTOM_RIGHT).x -
            ((init_wall_coords t).get d STRAIGHT_AHEAD TOP_LEFT).x),
        ((init_wall_coords t).get d STRAIGHT_AHEAD BOTTOM_RIGHT).y⟩ ∧
    ∀ s, s < 2 * STRAIGHT_AHEAD →
      ((init_wall_coords t).get d s BOTTOM_RIGHT).x =
        ((init_wall_coords t).get d (s + 1) TOP_LEFT).x := by
  have hd5 : d < 5 := hd
  have hj5 : j ≤ 5 := hj
  have e0 := init_wall_coords_entries t d STRAIGHT_AHEAD hd (by decide)
  have e1 := init_wall_coords_entries t d (STRAIGHT_AHEAD - j) hd
    (by simp only [STRAIGHT_AHEAD, MAX_VISIBILITY_DEPTH]; omega)
  have e2 := init_wall_coords_entries t d (STRAIGHT_AHEAD + j) hd
    (by simp only [STRAIGHT_AHEAD, MAX_VISIBILITY_DEPTH]; omega)
  rw [e0.1, e0.2, e1.1, e1.2, e2.1, e2.2]
  refine ⟨?_, ?_, ?_, ?_, ?_⟩
  · interval_cases d <;> interval_cases j <;> decide
  · interval_cases d <;> interval_cases j <;> decide
  · interval_cases d <;> interval_cases j <;> decide
  · interval_cases d <;> interval_cases j <;> decide
  · intro s hs
    have hs10 : s < 10 := hs
    have f0 := init_wall_coords_entries t d s hd
      (by simp only [STRAIGHT_AHEAD, MAX_VISIBILITY_DEPTH]; omega)
    have f1 := init_wall_coords_entries t d (s + 1) hd
      (by simp only [STRAIGHT_AHEAD, MAX_VISIBILITY_DEPTH]; omega)
    rw [f0.2, f1.1]
    simp only
    push_cast
    ring

/-- Claim C13 at depth 0: slot 4 ends where the centred slot 5 begins. -/
theorem lateral_slots_translate_witness :
    ((init_wall_coords zero_wall_coords).get 0 4 BOTTOM_RIGHT).x =
      ((init_wall_coords zero_wall_coords).get 0 (4 + 1) TOP_LEFT).x :=
  (lateral_slots_translate zero_wall_coords 0 1 (by decide) (by decide) (by decide)).2.2.2.2 4
    (by decide)

/-! ## Theorems: dungeon generator -/

/-- Every state agrees with itself. -/
theorem same_frame_refl (a : World) : same_frame a a := ⟨rfl, rfl, rfl, rfl, rfl, rfl⟩

/-- Agreement on the frame is transitive. -/
theorem same_frame_trans {a b c : World} (h1 : same_frame a b) (h2 : same_frame b c) :
    same_frame a c :=
  ⟨h1.1.trans h2.1, h1.2.1.trans h2.2.1, h1.2.2.1.trans h2.2.2.1, h1.2.2.2.1.trans h2.2.2.2.1,
   h1.2.2.2.2.1.trans h2.2.2.2.2.1, h1.2.2.2.2.2.trans h2.2.2.2.2.2⟩

/-- A completed `set_cell_type` stored inside the grid, changed only the
grid, and the cell now reads the stored type. -/
theorem set_cell_type_eq_some (w w2 : World) (c : GPoint) (v : Int)
    (h : set_cell_type w c v = some w2) :
    out_of_bounds c = false ∧ same_frame w w2 ∧ get_cell_type w2 c = v := by
  unfold set_cell_type at h
  split at h
  · exact Option.noConfusion h
  · rename_i hb
    have hb2 : out_of_bounds c = false := by simpa using hb
    cases h
    refine ⟨hb2, ⟨rfl, rfl, rfl, rfl, rfl, rfl⟩, ?_⟩
    simp [get_cell_type, hb2]

/-- One pass of the carving loop changes only the grid and `exit_direction`. -/
theorem carve_step_frame (b b2 : Builder) (h : carve_step b = some b2) :
    same_frame b.w b2.w := by
  unfold carve_step at h
  cases hs : set_cell_type b.w b.builder_position EMPTY with
  | none => rw [hs] at h; exact Option.noConfusion h
  | some w1 =>
    rw [hs] at h
    have hf := (set_cell_type_eq_some _ _ _ _ hs).2.1
    simp only [Option.map_some', Option.some.injEq] at h
    split at h <;> (subst h; exact hf)

/-- When the carving loop ends, only the grid and `exit_direction` have
changed and the builder stands on `ending_point`. -/
theorem carve_loop_frame (fuel : Nat) : ∀ (b b2 : Builder), carve_loop fuel b = some b2 →
    same_frame b.w b2.w ∧ b2.builder_position = b2.w.quest.ending_point := by
  induction fuel with
  | zero =>
    intro b b2 h
    unfold carve_loop at h
    split at h
    · rename_i heq
      cases h
      exact ⟨same_frame_refl _, (gpoint_equal_iff _ _).1 heq⟩
    · exact Option.noConfusion h
  | succ n ih =>
    intro b b2 h
    unfold carve_loop at h
    split at h
    · rename_i heq
      cases h
      exact ⟨same_frame_refl _, (gpoint_equal_iff _ _).1 heq⟩
    · cases hs : carve_step b with
      | none => rw [hs] at h; exact Option.noConfusion h
      | some b1 =>
        rw [hs] at h
        simp only [Option.some_bind] at h
        obtain ⟨hf, hp⟩ := ih b1 b2 h
        exact ⟨same_frame_trans (carve_step_frame b b1 hs) hf, hp⟩

/-- The points chosen by `init_quest_location`: the entrance direction is one
of the four, the starting point lies inside the grid on the entrance edge, the
ending point inside the grid on the opposite edge, and the two differ. -/
theorem init_quest_location_points_edges (w : World) (r : Rand) :
    ((init_quest_location_points w r).1.quest.entrance_direction = NORTH ∨
      (init_quest_location_points w r).1.quest.entrance_direction = SOUTH ∨
      (init_quest_location_points w r).1.quest.entrance_direction = EAST ∨
      (init_quest_location_points w r).1.quest.entrance_direction = WEST) ∧
    out_of_bounds (init_quest_location_points w r).1.quest.starting_point = false ∧
    on_border_edge (init_quest_location_points w r).1.quest.entrance_direction
      (init_quest_location_points w r).1.quest.starting_point ∧
    out_of_bounds (init_quest_location_points w r).1.quest.ending_point = false ∧
    on_border_edge
      (get_opposite_direction (init_quest_location_points w r).1.quest.entrance_direction)
      (init_quest_location_points w r).1.quest.ending_point ∧
    (init_quest_location_points w r).1.quest.starting_point ≠
      (init_quest_location_points w r).1.quest.ending_point := by
  have hlt : (rand r).1 % NUM_DIRECTIONS < 4 := Nat.mod_lt _ (by decide)
  unfold init_quest_location_points
  generalize (rand r).1 % NUM_DIRECTIONS = k at hlt
  interval_cases k
  all_goals
    simp [RANDOM_POINT_NORTH, RANDOM_POINT_SOUTH, RANDOM_POINT_EAST, RANDOM_POINT_WEST,
      out_of_bounds, on_border_edge, get_opposite_direction, LOCATION_WIDTH, LOCATION_HEIGHT]
  all_goals omega

/-- Choosing the points changes neither the player, the NPC list nor the quest type. -/
theorem init_quest_location_points_frame (w : World) (r : Rand) :
    (init_quest_location_points w r).1.player = w.player ∧
    (init_quest_location_points w r).1.quest.npcs = w.quest.npcs ∧
    (init_quest_location_points w r).1.quest.type = w.quest.type := by
  unfold init_quest_location_points
  simp only
  split
  · exact ⟨rfl, rfl, rfl⟩
  · split
    · exact ⟨rfl, rfl, rfl⟩
    · split <;> exact ⟨rfl, rfl, rfl⟩

/-- `add_new_npc` changes only the NPC list. -/
theorem add_new_npc_frame (w : World) (npc_type : Int) (position : GPoint) (fresh : npc_t) :
    (add_new_npc w npc_type position fresh).player = w.player ∧
    (add_new_npc w npc_type position fresh).quest.cells = w.quest.cells ∧
    (add_new_npc w npc_type position fresh).quest.type = w.quest.type ∧
    (add_new_npc w npc_type position fresh).quest.starting_point = w.quest.starting_point ∧
    (add_new_npc w npc_type position fresh).quest.ending_point = w.quest.ending_point ∧
    (add_new_npc w npc_type position fresh).quest.entrance_direction =
      w.quest.entrance_direction := by
  unfold add_new_npc
  split
  · split
    · exact ⟨rfl, rfl, rfl, rfl, rfl, rfl⟩
    · split <;> exact ⟨rfl, rfl, rfl, rfl, rfl, rfl⟩
  · exact ⟨rfl, rfl, rfl, rfl, rfl, rfl⟩

/-- `get_cell_type` depends on the state only through the grid. -/
theorem get_cell_type_congr (a b : World) (h : a.quest.cells = b.quest.cells) (c : GPoint) :
    get_cell_type a c = get_cell_type b c := by
  simp [get_cell_type, h]

/-- What the last part of `init_quest_location` leaves behind when the builder
stands on `ending_point`. -/
theorem init_quest_location_finish_eq_some (b : Builder) (fresh : npc_t) (w2 : World) (r2 : Rand)
    (h : init_quest_location_finish b fresh = some (w2, r2))
    (hpos : b.builder_position = b.w.quest.ending_point) :
    w2.player = b.w.player ∧ w2.quest.type = b.w.quest.type ∧
    w2.quest.starting_point = b.w.quest.starting_point ∧
    w2.quest.ending_point = b.w.quest.ending_point ∧
    w2.quest.entrance_direction = b.w.quest.entrance_direction ∧
    out_of_bounds w2.quest.ending_point = false ∧
    (w2.quest.type = RESCUE → get_cell_type w2 w2.quest.ending_point = CAPTIVE) ∧
    (w2.quest.type = RECOVER_ITEM → get_cell_type w2 w2.quest.ending_point = ARTIFACT) ∧
    (w2.quest.type ≠ RESCUE → w2.quest.type ≠ RECOVER_ITEM →
      get_cell_type w2 w2.quest.ending_point = EMPTY) ∧
    (w2.quest.type = MAIN_QUEST_CONCLUSION →
      ∃ wf, same_frame b.w wf ∧ get_cell_type wf wf.quest.ending_point = EMPTY ∧
        w2 = add_new_npc wf ARCHMAGE wf.quest.ending_point fresh) ∧
    (w2.quest.type ≠ MAIN_QUEST_CONCLUSION → w2.quest.npcs = b.w.quest.npcs) := by
  unfold init_quest_location_finish at h
  cases hs : set_cell_type b.w b.builder_position EMPTY with
  | none => rw [hs] at h; exact Option.noConfusion h
  | some wf =>
    rw [hs] at h
    simp only [Option.some_bind] at h
    obtain ⟨hin, hf, hcell⟩ := set_cell_type_eq_some _ _ _ _ hs
    obtain ⟨f1, f2, f3, f4, f5, f6⟩ := hf
    rw [hpos, f5] at hcell
    rw [hpos, f5] at hin
    split at h
    · rename_i hty
      simp only [Option.some.injEq, Prod.mk.injEq] at h
      obtain ⟨hw, _⟩ := h
      obtain ⟨a1, a2, a3, a4, a5, a6⟩ := add_new_npc_frame wf ARCHMAGE wf.quest.ending_point fresh
      have hcells : get_cell_type w2 w2.quest.ending_point = EMPTY := by
        rw [← hw, a5, get_cell_type_congr _ wf a2]; exact hcell
      have hty2 : w2.quest.type = MAIN_QUEST_CONCLUSION := by rw [← hw, a3]; exact hty
      refine ⟨by rw [← hw, a1, f1], by rw [← hw, a3, f3], by rw [← hw, a4, f4],
        by rw [← hw, a5, f5], by rw [← hw, a6, f6], by rw [← hw, a5]; exact hin, ?_, ?_, ?_, ?_, ?_⟩
      · intro h1; rw [hty2] at h1; exact absurd h1 (by decide)
      · intro h1; rw [hty2] at h1; exact absurd h1 (by decide)
      · intro _ _; exact hcells
      · intro _; exact ⟨wf, ⟨f1, f2, f3, f4, f5, f6⟩, hcell, hw.symm⟩
      · intro h1; exact absurd hty2 h1
    · rename_i hty
      split at h
      · rename_i hty1
        cases hs2 : set_cell_type wf wf.quest.ending_point ARTIFACT with
        | none => rw [hs2] at h; exact Option.noConfusion h
        | some w3 =>
          rw [hs2] at h
          simp only [Option.map_some', Option.some.injEq, Prod.mk.injEq] at h
          obtain ⟨hw, _⟩ := h
          subst hw
          obtain ⟨hin2, ⟨g1, g2, g3, g4, g5, g6⟩, hcell2⟩ := set_cell_type_eq_some _ _ _ _ hs2
          have hty3 : w3.quest.type = RECOVER_ITEM := by rw [← g3]; exact hty1
          refine ⟨by rw [← g1, f1], by rw [← g3, f3], by rw [← g4, f4], by rw [← g5, f5],
            by rw [← g6, f6], by rw [← g5]; exact hin2, ?_, ?_, ?_, ?_, ?_⟩
          · intro h1; rw [hty3] at h1; exact absurd h1 (by decide)
          · intro _; rw [← g5]; exact hcell2
          · intro _ h1; exact absurd hty3 h1
          · intro h1; rw [hty3] at h1; exact absurd h1 (by decide)
          · intro _; rw [← g2, f2]
      · rename_i hty1
        split at h
        · rename_i hty2
          cases hs2 : set_cell_type wf wf.quest.ending_point CAPTIVE with
          | none => rw [hs2] at h; exact Option.noConfusion h
          | some w3 =>
            rw [hs2] at h
            simp only [Option.map_some', Option.some.injEq, Prod.mk.injEq] at h
            obtain ⟨hw, _⟩ := h
            subst hw
            obtain ⟨hin2, ⟨g1, g2, g3, g4, g5, g6⟩, hcell2⟩ := set_cell_type_eq_some _ _ _ _ hs2
            have hty3 : w3.quest.type = RESCUE := by rw [← g3]; exact hty2
            refine ⟨by rw [← g1, f1], by rw [← g3, f3], by rw [← g4, f4], by rw [← g5, f5],
              by rw [← g6, f6], by rw [← g5]; exact hin2, ?_, ?_, ?_, ?_, ?_⟩
            · intro _; rw [← g5]; exact hcell2
            · intro h1; rw [hty3] at h1; exact absurd h1 (by decide)
            · intro h1 _; exact absurd hty3 h1
            · intro h1; rw [hty3] at h1; exact absurd h1 (by decide)
            · intro _; rw [← g2, f2]
        · rename_i hty2
          simp only [Option.some.injEq, Prod.mk.injEq] at h
          obtain ⟨hw, _⟩ := h
          subst hw
          refine ⟨f1.symm, f3.symm, f4.symm, f5.symm, f6.symm, hin, ?_, ?_, ?_, ?_, ?_⟩
          · intro h1; exact absurd h1 hty2
          · intro h1; exact absurd h1 hty1
          · intro _ _; exact hcell
          · intro h1; exact absurd h1 hty
          · intro _; exact f2.symm

/-- What a completed `init_quest_location` leaves behind: the player and quest
type it was given, the points chosen by the `switch`, the content of the ending
cell by quest type, and the NPC list. -/
theorem init_quest_location_eq_some (fuel : Nat) (w : World) (r : Rand) (fresh : npc_t)
    (w2 : World) (r2 : Rand) (h : init_quest_location fuel w r fresh = some (w2, r2)) :
    w2.player = w.player ∧ w2.quest.type = w.quest.type ∧
    w2.quest.starting_point =
      (init_quest_location_points (init_quest_location_clear w) r).1.quest.starting_point ∧
    w2.quest.ending_point =
      (init_quest_location_points (init_quest_location_clear w) r).1.quest.ending_point ∧
    w2.quest.entrance_direction =
      (init_quest_location_points (init_quest_location_clear w) r).1.quest.entrance_direction ∧
    (w2.quest.type = RESCUE → get_cell_type w2 w2.quest.ending_point = CAPTIVE) ∧
    (w2.quest.type = RECOVER_ITEM → get_cell_type w2 w2.quest.ending_point = ARTIFACT) ∧
    (w2.quest.type ≠ RESCUE → w2.quest.type ≠ RECOVER_ITEM →
      get_cell_type w2 w2.quest.ending_point = EMPTY) ∧
    (w2.quest.type = MAIN_QUEST_CONCLUSION →
      ∃ wf, wf.player = w.player ∧ wf.quest.npcs = w.quest.npcs ∧
        wf.quest.ending_point = w2.quest.ending_point ∧
        get_cell_type wf wf.quest.ending_point = EMPTY ∧
        w2 = add_new_npc wf ARCHMAGE wf.quest.ending_point fresh) ∧
    (w2.quest.type ≠ MAIN_QUEST_CONCLUSION → w2.quest.npcs = w.quest.npcs) := by
  unfold init_quest_location at h
  simp only at h
  obtain ⟨p1, p2, p3⟩ := init_quest_location_points_frame (init_quest_location_clear w) r
  have c1 : (init_quest_location_clear w).player = w.player := rfl
  have c2 : (init_quest_location_clear w).quest.npcs = w.quest.npcs := rfl
  have c3 : (init_quest_location_clear w).quest.type = w.quest.type := rfl
  generalize init_quest_location_points (init_quest_location_clear w) r = pts at h p1 p2 p3
  cases hb : carve_loop fuel
      { w := pts.1, builder_position := pts.1.quest.starting_point,
        builder_direction := get_opposite_direction pts.1.quest.entrance_direction,
        r := pts.2 } with
  | none => rw [hb] at h; exact Option.noConfusion h
  | some b =>
    rw [hb] at h
    simp only [Option.some_bind] at h
    obtain ⟨⟨f1, f2, f3, f4, f5, f6⟩, hpos⟩ := carve_loop_frame fuel _ b hb
    simp only at f1 f2 f3 f4 f5 f6
    obtain ⟨e1, e2, e3, e4, e5, _, e7, e8, e9, e10, e11⟩ :=
      init_quest_location_finish_eq_some b fresh w2 r2 h hpos
    refine ⟨by rw [e1, ← f1, p1, c1], by rw [e2, ← f3, p3, c3], by rw [e3, ← f4],
      by rw [e4, ← f5], by rw [e5, ← f6], e7, e8, e9, ?_, ?_⟩
    · intro hty
      obtain ⟨wf, ⟨g1, g2, g3, g4, g5, g6⟩, hcell, hw⟩ := e10 hty
      exact ⟨wf, by rw [← g1, ← f1, p1, c1], by rw [← g2, ← f2, p2, c2], by rw [e4, g5],
        hcell, hw⟩
    · intro hty
      rw [e11 hty, ← f2, p2, c2]

/-- Claim C15: for every random stream the `switch` of `init_quest_location`
draws one of the four directions as `entrance_direction` and puts
`starting_point` inside the grid on the border edge it names and `ending_point`
inside the grid on the opposite edge, so the two differ; and every completed
`init_quest_location` returns a state with these properties. -/
theorem init_quest_location_borders (fuel : Nat) (w : World) (r : Rand) (fresh : npc_t) :
    ((((init_quest_location_points (init_quest_location_clear w) r).1.quest.entrance_direction
          = NORTH ∨
        (init_quest_location_points (init_quest_location_clear w) r).1.quest.entrance_direction
          = SOUTH ∨
        (init_quest_location_points (init_quest_location_clear w) r).1.quest.entrance_direction
          = EAST ∨
        (init_quest_location_points (init_quest_location_clear w) r).1.quest.entrance_direction
          = WEST)) ∧
      out_of_bounds (init_quest_location_points (init_quest_location_clear w) r).1.quest.starting_point
        = false ∧
      on_border_edge
        (init_quest_location_points (init_quest_location_clear w) r).1.quest.entrance_direction
        (init_quest_location_points (init_quest_location_clear w) r).1.quest.starting_point ∧
      out_of_bounds (init_quest_location_points (init_quest_location_clear w) r).1.quest.ending_point
        = false ∧
      on_border_edge
        (get_opposite_direction
          (init_quest_location_points (init_quest_location_clear w) r).1.quest.entrance_direction)
        (init_quest_location_points (init_quest_location_clear w) r).1.quest.ending_point ∧
      (init_quest_location_points (init_quest_location_clear w) r).1.quest.starting_point ≠
        (init_quest_location_points (init_quest_location_clear w) r).1.quest.ending_point) ∧
    ∀ w2 r2, init_quest_location fuel w r fresh = some (w2, r2) →
      (w2.quest.entrance_direction = NORTH ∨ w2.quest.entrance_direction = SOUTH ∨
        w2.quest.entrance_direction = EAST ∨ w2.quest.entrance_direction = WEST) ∧
      out_of_bounds w2.quest.starting_point = false ∧
      on_border_edge w2.quest.entrance_direction w2.quest.starting_point ∧
      out_of_bounds w2.quest.ending_point = false ∧
      on_border_edge (get_opposite_direction w2.quest.entrance_direction) w2.quest.ending_point ∧
      w2.quest.starting_point ≠ w2.quest.ending_point := by
  have hp := init_quest_location_points_edges (init_quest_location_clear w) r
  refine ⟨hp, ?_⟩
  intro w2 r2 h
  obtain ⟨_, _, e3, e4, e5, _⟩ := init_quest_location_eq_some fuel w r fresh w2 r2 h
  rw [e3, e4, e5]
  exact hp

/-- Claim C15 on a concrete run: entrance NORTH, start (7, 0) on the north
edge, end (7, 14) on the south edge. -/
theorem init_quest_location_borders_witness :
    ∃ p, init_quest_location 14 recover_item_world straight_south (demo_npc ⟨0, 0⟩) = some p ∧
      p.1.quest.starting_point = ⟨7, 0⟩ ∧ p.1.quest.ending_point = ⟨7, 14⟩ ∧
      on_border_edge p.1.quest.entrance_direction p.1.quest.starting_point ∧
      p.1.quest.starting_point ≠ p.1.quest.ending_point := by
  have hpts : (init_quest_location 14 recover_item_world straight_south (demo_npc ⟨0, 0⟩)).map
      (fun p => (p.1.quest.starting_point, p.1.quest.ending_point)) =
      some (⟨7, 0⟩, ⟨7, 14⟩) := by decide
  obtain ⟨p, hp, he⟩ := Option.map_eq_some'.1 hpts
  simp only [Prod.mk.injEq] at he
  have h := (init_quest_location_borders 14 recover_item_world straight_south
    (demo_npc ⟨0, 0⟩)).2 p.1 p.2 hp
  exact ⟨p, hp, he.1, he.2, h.2.2.1, h.2.2.2.2.2⟩

/-- Claim C16 on the code: after a completed `init_quest_location` the ending
cell reads `CAPTIVE` for a `RESCUE` quest and `EMPTY` for every quest type
other than `RESCUE` and `RECOVER_ITEM`; for a `RECOVER_ITEM` quest it reads
`ARTIFACT`, which is the same number as `SOLID`, so the claim's "distinct from
SOLID" fails. -/
theorem ending_cell_content (fuel : Nat) (w : World) (r : Rand) (fresh : npc_t)
    (w2 : World) (r2 : Rand) (h : init_quest_location fuel w r fresh = some (w2, r2)) :
    (w2.quest.type = RESCUE → get_cell_type w2 w2.quest.ending_point = CAPTIVE) ∧
    (w2.quest.type = RECOVER_ITEM →
      get_cell_type w2 w2.quest.ending_point = ARTIFACT ∧
      get_cell_type w2 w2.quest.ending_point = SOLID) ∧
    (w2.quest.type ≠ RESCUE → w2.quest.type ≠ RECOVER_ITEM →
      get_cell_type w2 w2.quest.ending_point = EMPTY) := by
  obtain ⟨_, _, _, _, _, e7, e8, e9, _⟩ := init_quest_location_eq_some fuel w r fresh w2 r2 h
  exact ⟨e7, fun hty => ⟨e8 hty, e8 hty⟩, e9⟩

/-- Claim C16 at the failing input: a `RECOVER_ITEM` quest generated straight
from (7, 0) to (7, 14): the ending cell reads `SOLID`. -/
theorem ending_cell_content_witness :
    ∃ p, init_quest_location 14 recover_item_world straight_south (demo_npc ⟨0, 0⟩) = some p ∧
      get_cell_type p.1 p.1.quest.ending_point = SOLID := by
  have hty : (init_quest_location 14 recover_item_world straight_south (demo_npc ⟨0, 0⟩)).map
      (fun p => p.1.quest.type) = some RECOVER_ITEM := by decide
  obtain ⟨p, hp, he⟩ := Option.map_eq_some'.1 hty
  exact ⟨p, hp, ((ending_cell_content 14 recover_item_world straight_south (demo_npc ⟨0, 0⟩)
    p.1 p.2 hp).2.1 he).2⟩

/-- No cell of an open path reads `SOLID`. -/
theorem open_path_mem (w : World) (path : List GPoint) (h : open_path w path) (c : GPoint)
    (hc : c ∈ path) : get_cell_type w c ≠ SOLID := (h.1 c hc).2

/-- Claim C14 fails on the code for `RECOVER_ITEM` quests: after every
completed `init_quest_location` of such a quest the ending cell reads `SOLID`
(the stored `ARTIFACT` is 2), so no path of non-solid cells, end points
included, reaches `ending_point`. -/
theorem recover_item_exit_unreachable (fuel : Nat) (w : World) (r : Rand) (fresh : npc_t)
    (w2 : World) (r2 : Rand) (h : init_quest_location fuel w r fresh = some (w2, r2))
    (hty : w2.quest.type = RECOVER_ITEM) :
    ¬ reachable w2 w2.quest.starting_point w2.quest.ending_point := by
  rintro ⟨path, _, hlast, hopen⟩
  obtain ⟨_, _, _, _, _, _, e8, _⟩ := init_quest_location_eq_some fuel w r fresh w2 r2 h
  exact open_path_mem w2 path hopen _ (List.mem_of_getLast?_eq_some hlast) (e8 hty)

/-- Claim C14 at the failing input: the same `RECOVER_ITEM` quest is generated
and its `ending_point` cannot be reached from `starting_point`. -/
theorem recover_item_exit_unreachable_witness :
    ∃ p, init_quest_location 14 recover_item_world straight_south (demo_npc ⟨0, 0⟩) = some p ∧
      ¬ reachable p.1 p.1.quest.starting_point p.1.quest.ending_point := by
  have hty : (init_quest_location 14 recover_item_world straight_south (demo_npc ⟨0, 0⟩)).map
      (fun p => p.1.quest.type) = some RECOVER_ITEM := by decide
  obtain ⟨p, hp, he⟩ := Option.map_eq_some'.1 hty
  exact ⟨p, hp, recover_item_exit_unreachable 14 recover_item_world straight_south
    (demo_npc ⟨0, 0⟩) p.1 p.2 hp he⟩

/-- A completed `init_quest` is a completed `init_quest_location` followed by the player reset. -/
theorem init_quest_eq_some (fuel : Nat) (w : World) (type : Int) (r : Rand) (fresh : npc_t)
    (w2 : World) (r2 : Rand) (h : init_quest fuel w type r fresh = some (w2, r2)) :
    ∃ wl, init_quest_location fuel (init_quest_fields w type r).1 (init_quest_fields w type r).2
        fresh = some (wl, r2) ∧ w2 = init_quest_player wl := by
  unfold init_quest at h
  obtain ⟨wr, hwr, heq⟩ := Option.map_eq_some'.1 h
  simp only [Prod.mk.injEq] at heq
  obtain ⟨hw, hr⟩ := heq
  exact ⟨wr.1, by rw [← hr]; exact hwr, hw.symm⟩

/-- Claim C17 fails on the code: `init_quest` places the archmage before it
moves the player, so when the player's previous position equals the new
`ending_point` the cell is not occupiable and the NPC list stays empty. In
every other case the list holds exactly one NPC, of type `ARCHMAGE`, standing
on `ending_point`. -/
theorem archmage_placement (fuel : Nat) (w : World) (r : Rand) (fresh : npc_t)
    (w2 : World) (r2 : Rand)
    (h : init_quest fuel w MAIN_QUEST_CONCLUSION r fresh = some (w2, r2)) :
    (w.player.position = w2.quest.ending_point → w2.quest.npcs = []) ∧
    (w.player.position ≠ w2.quest.ending_point →
      ∃ n, w2.quest.npcs = [n] ∧ n.type = ARCHMAGE ∧ n.position = w2.quest.ending_point) := by
  obtain ⟨wl, hloc, hw2⟩ := init_quest_eq_some fuel w _ r fresh w2 r2 h
  have hp : (init_quest_fields w MAIN_QUEST_CONCLUSION r).1.player = w.player := rfl
  have hn : (init_quest_fields w MAIN_QUEST_CONCLUSION r).1.quest.npcs = [] := rfl
  have hty : (init_quest_fields w MAIN_QUEST_CONCLUSION r).1.quest.type = MAIN_QUEST_CONCLUSION :=
    rfl
  have hq : w2.quest = wl.quest := by rw [hw2]; rfl
  obtain ⟨_, e2, _, _, _, _, _, _, e10, _⟩ := init_quest_location_eq_some fuel _ _ fresh wl r2 hloc
  obtain ⟨wf, g1, g2, g3, g4, g5⟩ := e10 (by rw [e2, hty])
  have hnp : wl.quest.npcs = (add_new_npc wf ARCHMAGE wf.quest.ending_point fresh).quest.npcs := by
    rw [← g5]
  rw [hq, hnp, ← g3]
  have hnone : get_npc_at wf wf.quest.ending_point = none := by
    simp [get_npc_at, g2, hn, get_npc_at_from]
  have hocc : occupiable wf wf.quest.ending_point =
      !gpoint_equal w.player.position wf.quest.ending_point := by
    simp [occupiable, g4, hnone, g1, hp]
  constructor
  · intro hpos
    have : occupiable wf wf.quest.ending_point = false := by
      rw [hocc, (gpoint_equal_iff _ _).2 hpos]; rfl
    simp [add_new_npc, this, g2, hn]
  · intro hpos
    have hne : gpoint_equal w.player.position wf.quest.ending_point = false := by
      rw [← Bool.not_eq_true, gpoint_equal_iff]; exact hpos
    have : occupiable wf wf.quest.ending_point = true := by rw [hocc, hne]; rfl
    refine ⟨init_npc wf fresh ARCHMAGE wf.quest.ending_point, ?_, rfl, rfl⟩
    simp [add_new_npc, this, g2, hn]

/-- Claim C17 at the failing input: the player last stood on (7, 14) and the new
dungeon runs straight from (7, 0) to (7, 14); the quest is generated and its
NPC list is empty. -/
theorem archmage_placement_witness :
    ∃ p, init_quest 14 (demo_world solid_cells ⟨7, 14⟩ []) MAIN_QUEST_CONCLUSION
        quest_straight_south (demo_npc ⟨0, 0⟩) = some p ∧
      p.1.quest.ending_point = ⟨7, 14⟩ ∧ p.1.quest.npcs = [] := by
  have hend : (init_quest 14 (demo_world solid_cells ⟨7, 14⟩ []) MAIN_QUEST_CONCLUSION
      quest_straight_south (demo_npc ⟨0, 0⟩)).map (fun p => p.1.quest.ending_point) =
      some ⟨7, 14⟩ := by decide
  obtain ⟨p, hp, he⟩ := Option.map_eq_some'.1 hend
  exact ⟨p, hp, he,
    (archmage_placement 14 (demo_world solid_cells ⟨7, 14⟩ []) quest_straight_south
      (demo_npc ⟨0, 0⟩) p.1 p.2 hp).1 he.symm⟩

/-- A cell is inside the grid exactly when both coordinates lie in 0..14. -/
theorem in_bounds_iff (c : GPoint) :
    out_of_bounds c = false ↔ 0 ≤ c.x ∧ c.x < 15 ∧ 0 ≤ c.y ∧ c.y < 15 := by
  simp only [out_of_bounds, Bool.or_eq_false_iff, decide_eq_false_iff_not, LOCATION_WIDTH,
    LOCATION_HEIGHT]
  omega

/-- After a completed `set_cell_type` an in-grid cell reads the stored type if
it is the cell stored to, and what it read before otherwise. -/
theorem get_cell_type_set (w w2 : World) (c : GPoint) (v : Int)
    (h : set_cell_type w c v = some w2) (d : GPoint) (hd : out_of_bounds d = false) :
    get_cell_type w2 d = if d = c then v else get_cell_type w d := by
  unfold set_cell_type at h
  split at h
  · exact Option.noConfusion h
  · rename_i hb
    have hc : out_of_bounds c = false := by simpa using hb
    cases h
    have hc2 := (in_bounds_iff c).1 hc
    have hd2 := (in_bounds_iff d).1 hd
    simp only [get_cell_type, hd]
    by_cases hdc : d = c
    · subst hdc; simp
    · have : ¬ (d.x.toNat = c.x.toNat ∧ d.y.toNat = c.y.toNat) := by
        intro ⟨hx, hy⟩
        apply hdc
        cases d; cases c
        simp only [GPoint.mk.injEq]
        simp only at hx hy hc2 hd2
        omega
      simp [this, hdc]

/-- One pass of the carving loop keeps the carving invariant. -/
theorem carve_step_trail (b b2 : Builder) (h : carve_step b = some b2) (trail : List GPoint)
    (ht : carved_trail b.w trail b.builder_position) :
    ∃ trail2, carved_trail b2.w trail2 b2.builder_position := by
  obtain ⟨hhead, hchain, hin, hempty⟩ := ht
  unfold carve_step at h
  cases hs : set_cell_type b.w b.builder_position EMPTY with
  | none => rw [hs] at h; exact Option.noConfusion h
  | some w1 =>
    rw [hs] at h
    obtain ⟨_, hf, hcell⟩ := set_cell_type_eq_some _ _ _ _ hs
    have hstart : w1.quest.starting_point = b.w.quest.starting_point := hf.2.2.2.1.symm
    have hp_in : out_of_bounds b.builder_position = false := hin _ (by simp)
    have hpb := (in_bounds_iff _).1 hp_in
    -- every cell of the trail, and the builder's cell, is empty after the store
    have hall : ∀ c ∈ trail ++ [b.builder_position], get_cell_type w1 c = EMPTY := by
      intro c hc
      rw [get_cell_type_set _ _ _ _ hs c (hin c hc)]
      split
      · rfl
      · rcases List.mem_append.1 hc with hc | hc
        · exact hempty c hc
        · simp only [List.mem_singleton] at hc; contradiction
    -- the two shapes the new position can take
    have key : ∀ (w2 : World) (p2 : GPoint), w2.quest.cells = w1.quest.cells →
        w2.quest.starting_point = w1.quest.starting_point →
        (p2 = b.builder_position ∨
          (touching b.builder_position p2 = true ∧ out_of_bounds p2 = false)) →
        ∃ trail2, carved_trail w2 trail2 p2 := by
      intro w2 p2 hcells hst hp2
      rcases hp2 with hp2 | ⟨htouch, hin2⟩
      · subst hp2
        refine ⟨trail, by rw [hst, hstart]; exact hhead, hchain, hin, ?_⟩
        intro c hc
        rw [get_cell_type_congr w2 w1 hcells]
        exact hall c (List.mem_append_left _ hc)
      · refine ⟨trail ++ [b.builder_position], ?_, ?_, ?_, ?_⟩
        · rw [hst, hstart, ← hhead]
          cases trail <;> simp
        · rw [List.chain'_append]
          refine ⟨hchain, List.chain'_singleton _, ?_⟩
          intro x hx y hy
          simp only [List.head?_cons, Option.mem_def, Option.some.injEq] at hy
          subst hy
          have hx2 : x = b.builder_position := by
            have hl : (trail ++ [b.builder_position]).getLast? = some b.builder_position := by
              simp
            rw [hl] at hx
            simp only [Option.mem_def, Option.some.injEq] at hx
            exact hx.symm
          rw [hx2]; exact htouch
        · intro c hc
          rcases List.mem_append.1 hc with hc | hc
          · exact hin c hc
          · simp only [List.mem_singleton] at hc; rw [hc]; exact hin2
        · intro c hc
          rw [get_cell_type_congr w2 w1 hcells]
          exact hall c hc
    -- the clamped step
    have hmove : ∀ p2 : GPoint, p2 = (
        if b.builder_direction = NORTH then
          if b.builder_position.y > 0 then
            { b.builder_position with y := b.builder_position.y - 1 } else b.builder_position
        else if b.builder_direction = SOUTH then
          if b.builder_position.y < LOCATION_HEIGHT - 1 then
            { b.builder_position with y := b.builder_position.y + 1 } else b.builder_position
        else if b.builder_direction = EAST then
          if b.builder_position.x < LOCATION_WIDTH - 1 then
            { b.builder_position with x := b.builder_position.x + 1 } else b.builder_position
        else
          if b.builder_position.x > 0 then
            { b.builder_position with x := b.builder_position.x - 1 } else b.builder_position) →
        (p2 = b.builder_position ∨
          (touching b.builder_position p2 = true ∧ out_of_bounds p2 = false)) := by
      intro p2 hp2
      simp only [LOCATION_WIDTH, LOCATION_HEIGHT] at hp2
      split_ifs at hp2
      all_goals first
        | exact Or.inl hp2
        | (right
           subst hp2
           refine ⟨by simp [touching], (in_bounds_iff _).2 ?_⟩
           simp only
           omega)
    simp only [Option.map_some', Option.some.injEq] at h
    split at h
    · subst h
      exact key _ _ rfl rfl (hmove _ rfl)
    · subst h
      exact key _ _ rfl rfl (hmove _ rfl)

/-- The carving loop keeps the carving invariant. -/
theorem carve_loop_trail (fuel : Nat) : ∀ (b b2 : Builder), carve_loop fuel b = some b2 →
    (∃ trail, carved_trail b.w trail b.builder_position) →
    ∃ trail2, carved_trail b2.w trail2 b2.builder_position := by
  induction fuel with
  | zero =>
    intro b b2 h ht
    unfold carve_loop at h
    split at h
    · cases h; exact ht
    · exact Option.noConfusion h
  | succ n ih =>
    intro b b2 h ht
    unfold carve_loop at h
    split at h
    · cases h; exact ht
    · cases hs : carve_step b with
      | none => rw [hs] at h; exact Option.noConfusion h
      | some b1 =>
        rw [hs] at h
        simp only [Option.some_bind] at h
        obtain ⟨trail, ht⟩ := ht
        exact ih b1 b2 h (carve_step_trail b b1 hs trail ht)

/-- For a quest that is not `RECOVER_ITEM`, the last part of
`init_quest_location` turns the carved trail into an open path. -/
theorem init_quest_location_finish_open (b : Builder) (fresh : npc_t) (w2 : World) (r2 : Rand)
    (h : init_quest_location_finish b fresh = some (w2, r2)) (trail : List GPoint)
    (ht : carved_trail b.w trail b.builder_position) (hty : b.w.quest.type ≠ RECOVER_ITEM) :
    open_path w2 (trail ++ [b.builder_position]) := by
  obtain ⟨_, hchain, hin, hempty⟩ := ht
  unfold init_quest_location_finish at h
  cases hs : set_cell_type b.w b.builder_position EMPTY with
  | none => rw [hs] at h; exact Option.noConfusion h
  | some wf =>
    rw [hs] at h
    simp only [Option.some_bind] at h
    have hf := (set_cell_type_eq_some _ _ _ _ hs).2.1
    have hall : ∀ c ∈ trail ++ [b.builder_position], get_cell_type wf c = EMPTY := by
      intro c hc
      rw [get_cell_type_set _ _ _ _ hs c (hin c hc)]
      split
      · rfl
      · rcases List.mem_append.1 hc with hc | hc
        · exact hempty c hc
        · simp only [List.mem_singleton] at hc; contradiction
    have hty2 : wf.quest.type ≠ RECOVER_ITEM := by rw [← hf.2.2.1]; exact hty
    refine ⟨?_, hchain⟩
    intro c hc
    refine ⟨hin c hc, ?_⟩
    by_cases h1 : wf.quest.type = MAIN_QUEST_CONCLUSION
    · simp only [h1, if_true, Option.some.injEq, Prod.mk.injEq] at h
      rw [← h.1, get_cell_type_congr _ wf (add_new_npc_frame wf _ _ fresh).2.1, hall c hc]
      decide
    · simp only [h1, hty2, if_false] at h
      by_cases h3 : wf.quest.type = RESCUE
      · simp only [h3, if_true] at h
        cases hs2 : set_cell_type wf wf.quest.ending_point CAPTIVE with
        | none => rw [hs2] at h; exact Option.noConfusion h
        | some w3 =>
          rw [hs2] at h
          simp only [Option.map_some', Option.some.injEq, Prod.mk.injEq] at h
          rw [← h.1, get_cell_type_set _ _ _ _ hs2 c (hin c hc)]
          split
          · decide
          · rw [hall c hc]; decide
      · simp only [h3, if_false, Option.some.injEq, Prod.mk.injEq] at h
        rw [← h.1, hall c hc]
        decide

/-- Connectivity for the quest types other than `RECOVER_ITEM`: after every
completed `init_quest_location` of such a quest, `ending_point` is reachable
from `starting_point` along touching in-grid cells none of which reads `SOLID`,
end points included. -/
theorem generated_exit_reachable (fuel : Nat) (w : World) (r : Rand) (fresh : npc_t)
    (w2 : World) (r2 : Rand) (h : init_quest_location fuel w r fresh = some (w2, r2))
    (hty : w2.quest.type ≠ RECOVER_ITEM) :
    reachable w2 w2.quest.starting_point w2.quest.ending_point := by
  obtain ⟨_, e2, e3, e4, _⟩ := init_quest_location_eq_some fuel w r fresh w2 r2 h
  unfold init_quest_location at h
  simp only at h
  obtain ⟨_, hsin, _, _, _, _⟩ := init_quest_location_points_edges (init_quest_location_clear w) r
  obtain ⟨_, _, p3⟩ := init_quest_location_points_frame (init_quest_location_clear w) r
  have c3 : (init_quest_location_clear w).quest.type = w.quest.type := rfl
  generalize init_quest_location_points (init_quest_location_clear w) r = pts at h hsin e3 e4 p3
  cases hb : carve_loop fuel
      { w := pts.1, builder_position := pts.1.quest.starting_point,
        builder_direction := get_opposite_direction pts.1.quest.entrance_direction,
        r := pts.2 } with
  | none => rw [hb] at h; exact Option.noConfusion h
  | some b =>
    rw [hb] at h
    simp only [Option.some_bind] at h
    obtain ⟨⟨_, _, f3, f4, f5, _⟩, hpos⟩ := carve_loop_frame fuel _ b hb
    simp only at f3 f4 f5
    have hinit : ∃ trail, carved_trail pts.1 trail pts.1.quest.starting_point := by
      refine ⟨[], rfl, List.chain'_singleton _, ?_, ?_⟩
      · intro c hc
        simp only [List.nil_append, List.mem_singleton] at hc
        rw [hc]; exact hsin
      · intro c hc; exact absurd hc (List.not_mem_nil c)
    obtain ⟨trail, ht⟩ := carve_loop_trail fuel _ b hb hinit
    have htyb : b.w.quest.type ≠ RECOVER_ITEM := by
      rw [← f3, p3, c3, ← e2]; exact hty
    have hopen := init_quest_location_finish_open b fresh w2 r2 h trail ht htyb
    refine ⟨trail ++ [b.builder_position], ?_, ?_, hopen⟩
    · rw [ht.1, e3, f4]
    · rw [e4, f5, ← hpos]; simp

/-- Connectivity on a concrete run: a quest of type 0 carved straight from
(7, 0) to (7, 14). -/
theorem generated_exit_reachable_witness :
    ∃ p, init_quest_location 14 (demo_world solid_cells ⟨3, 3⟩ []) straight_south
        (demo_npc ⟨0, 0⟩) = some p ∧
      reachable p.1 p.1.quest.starting_point p.1.quest.ending_point := by
  have hty : (init_quest_location 14 (demo_world solid_cells ⟨3, 3⟩ []) straight_south
      (demo_npc ⟨0, 0⟩)).map (fun p => p.1.quest.type) = some 0 := by decide
  obtain ⟨p, hp, he⟩ := Option.map_eq_some'.1 hty
  exact ⟨p, hp, generated_exit_reachable 14 (demo_world solid_cells ⟨3, 3⟩ []) straight_south
    (demo_npc ⟨0, 0⟩) p.1 p.2 hp (by rw [he]; decide)⟩

/-! ## Theorems: leaving, rescuing, taking damage -/

/-- Claim C18 fails on the code: when the cell one step ahead reads `CAPTIVE`
(and the player is not leaving through the entrance) `move_player` changes
nothing, because `occupiable` requires `get_cell_type(cell) <= EMPTY` and
`CAPTIVE` is 4. -/
theorem captive_cell_blocks_player (MAX_SMALL_INT_VALUE : Int) (w : World) (direction : Int)
    (hcap : get_cell_type w (get_cell_farther_away w.player.position direction 1) = CAPTIVE)
    (hexit : ¬ (w.player.position = w.quest.starting_point ∧
      w.player.direction = w.quest.entrance_direction)) :
    move_player MAX_SMALL_INT_VALUE w direction = some w := by
  have hocc : occupiable w (get_cell_farther_away w.player.position direction 1) = false := by
    have hle : ¬ (CAPTIVE ≤ EMPTY) := by decide
    simp [occupiable, hcap, hle]
  have hnot : (gpoint_equal w.player.position w.quest.starting_point &&
      w.player.direction == w.quest.entrance_direction) = false := by
    rw [← Bool.not_eq_true]
    intro h
    simp only [Bool.and_eq_true, gpoint_equal_iff, beq_iff_eq] at h
    exact hexit h
  simp [move_player, hocc, hnot]

/-- Claim C18 at the failing input: player at (5, 5), captive at (5, 4), move
`NORTH`: the state is unchanged. -/
theorem captive_cell_blocks_player_witness :
    move_player 9999 (demo_world captive_cells ⟨5, 5⟩ []) NORTH =
      some (demo_world captive_cells ⟨5, 5⟩ []) :=
  captive_cell_blocks_player 9999 (demo_world captive_cells ⟨5, 5⟩ []) NORTH (by decide)
    (by decide)

/-- Claim C19 as amended: with the player on `starting_point` facing
`entrance_direction`, `move_player` completes as `end_quest` and leaves the
player's position and the whole quest (grid, NPC list) unchanged. If the quest
is completed it shows `VICTORY_SCROLL` and gold becomes gold + reward, except
that it is set to `MAX_SMALL_INT_VALUE` when the sum exceeds it and left
unchanged when the sum is negative; otherwise it shows `FAILURE_SCROLL` and
gold is unchanged. -/
theorem exit_move_ends_quest (MAX_SMALL_INT_VALUE : Int) (w : World) (direction : Int)
    (hpos : w.player.position = w.quest.starting_point)
    (hdir : w.player.direction = w.quest.entrance_direction) :
    ∃ w2, move_player MAX_SMALL_INT_VALUE w direction = some w2 ∧
      w2 = end_quest MAX_SMALL_INT_VALUE w ∧
      w2.player.position = w.player.position ∧ w2.quest = w.quest ∧
      (w.quest.completed = true →
        w2.scroll = some VICTORY_SCROLL ∧
        w2.player.gold =
          if w.player.gold + w.quest.reward < 0 then w.player.gold
          else if w.player.gold + w.quest.reward > MAX_SMALL_INT_VALUE then MAX_SMALL_INT_VALUE
          else w.player.gold + w.quest.reward) ∧
      (w.quest.completed = false →
        w2.scroll = some FAILURE_SCROLL ∧ w2.player.gold = w.player.gold) := by
  have hcond : (gpoint_equal w.player.position w.quest.starting_point &&
      w.player.direction == w.quest.entrance_direction) = true := by
    simp [gpoint_equal_iff, hpos, hdir]
  refine ⟨end_quest MAX_SMALL_INT_VALUE w, by simp [move_player, hcond], rfl,
    (end_quest_frame _ w).2, (end_quest_frame _ w).1, ?_, ?_⟩
  · intro hc
    unfold end_quest adjust_player_gold show_scroll
    simp only [hc, if_true]
    split
    · simp [*]
    · split <;> simp [*]
  · intro hc
    unfold end_quest show_scroll
    simp [hc]

/-- Claim C19 at a concrete input: gold 100, reward 25, quest completed: the
victory scroll is shown and gold becomes 125. -/
theorem exit_move_ends_quest_witness :
    ∃ w2, move_player 9999 (rich_world 100) NORTH = some w2 ∧
      w2.scroll = some VICTORY_SCROLL ∧ w2.player.gold = 125 := by
  obtain ⟨w2, h1, _, _, _, h5, _⟩ :=
    exit_move_ends_quest 9999 (rich_world 100) NORTH (by decide) (by decide)
  exact ⟨w2, h1, (h5 rfl).1, (h5 rfl).2⟩

/-- Claim C19 fails as stated: whatever value `MAX_SMALL_INT_VALUE` has, a
player who owns exactly that much gold and leaves a completed quest with reward
25 does not end with gold + reward. -/
theorem exit_reward_capped :
    ¬ ∃ M : Int, ∀ w2, move_player M (rich_world M) NORTH = some w2 →
      w2.player.gold = (rich_world M).player.gold + (rich_world M).quest.reward := by
  rintro ⟨M, h⟩
  have hm : move_player M (rich_world M) NORTH = some (end_quest M (rich_world M)) := by
    simp [move_player, rich_world, demo_world, demo_player, gpoint_equal]
  have hg := h _ hm
  simp only [end_quest, adjust_player_gold, show_scroll, rich_world, demo_world] at hg
  simp only [if_true] at hg
  split at hg
  · simp at hg
  · split at hg
    · simp at hg
    · rename_i h1 h2
      simp at h2

/-- Claim C20: the amount `damage_player` passes to
`adjust_player_current_hp` as a loss is `max (power - defense / 2) MIN_DAMAGE`
with truncating division; it is at least `MIN_DAMAGE` and positive; the
player's HP drops by exactly that amount whenever the result does not exceed
`MAX_HP`; and for power 3 and defense 100 the amount is `MIN_DAMAGE`. -/
theorem damage_floor (w : World) (power : Int) :
    damage_player_amount w power =
      max (power - Int.tdiv (w.player.stats PHYSICAL_DEFENSE) 2) MIN_DAMAGE ∧
    damage_player w power =
      adjust_player_current_hp w
        (-(max (power - Int.tdiv (w.player.stats PHYSICAL_DEFENSE) 2) MIN_DAMAGE)) ∧
    MIN_DAMAGE ≤ damage_player_amount w power ∧ 0 < damage_player_amount w power ∧
    (w.player.stats CURRENT_HP - damage_player_amount w power ≤ w.player.stats MAX_HP →
      (damage_player w power).player.stats CURRENT_HP =
        w.player.stats CURRENT_HP - damage_player_amount w power) ∧
    (w.player.stats PHYSICAL_DEFENSE = 100 → damage_player_amount w 3 = MIN_DAMAGE) := by
  have hamt : damage_player_amount w power =
      max (power - Int.tdiv (w.player.stats PHYSICAL_DEFENSE) 2) MIN_DAMAGE := by
    unfold damage_player_amount
    simp only
    split
    · rw [max_eq_right (by omega)]
    · rw [max_eq_left (by omega)]
  have hmin : MIN_DAMAGE ≤ damage_player_amount w power := by
    rw [hamt]; exact le_max_right _ _
  refine ⟨hamt, ?_, hmin, ?_, ?_, ?_⟩
  · unfold damage_player
    rw [hamt]
    congr 1
    ring
  · have : (0 : Int) < MIN_DAMAGE := by decide
    omega
  · intro hle
    unfold damage_player adjust_player_current_hp show_scroll
    have hmul : damage_player_amount w power * -1 = -damage_player_amount w power := by ring
    simp only [hmul, StatArray.set]
    have hne : ¬ (MAX_HP = CURRENT_HP) := by decide
    simp only [if_true, hne, if_false]
    split
    · omega
    · split <;> simp [StatArray.set] <;> ring
  · intro hdef
    unfold damage_player_amount
    rw [hdef]
    decide

/-- Claim C20 at power 3, defense 100, HP 30: the amount is `MIN_DAMAGE` and the
HP becomes 28. -/
theorem damage_floor_witness :
    damage_player_amount armoured_world 3 = MIN_DAMAGE ∧
    (damage_player armoured_world 3).player.stats CURRENT_HP = 28 := by
  have h := damage_floor armoured_world 3
  refine ⟨h.2.2.2.2.2 (by decide), ?_⟩
  rw [h.2.2.2.2.1 (by decide)]
  decide

/-! ## Theorems: spawn points -/

/-- Claim C21, failing input: with the player at (0, 5) on the west edge, an
NPC on (0, 11), first draw 1 (direction SOUTH) and second draw even,
`get_npc_spawn_point` returns (-1, 11): the cell to the right of (0, 11)
when heading south. It lies outside the grid and is not the sentinel
(-1, -1). -/
theorem spawn_point_outside_grid :
    (get_npc_spawn_point 1 west_edge_world south_then_right).map (fun p => p.1) =
      some ⟨-1, 11⟩ ∧
    out_of_bounds ⟨-1, 11⟩ = true ∧ (⟨-1, 11⟩ : GPoint) ≠ ⟨-1, -1⟩ ∧
    out_of_bounds west_edge_world.player.position = false ∧
    occupiable west_edge_world ⟨-1, 11⟩ = true := by
  decide

/-- A point returned from inside the `do ... while` loop is occupiable and lies
`j` cells to the left or to the right of `spawn_point`. -/
theorem spawn_do_while_sound (w : World) (spawn_point : GPoint) (direction j : Int) (fuel : Nat) :
    ∀ (cl cr : Bool) (r r2 : Rand) (p : GPoint),
      spawn_do_while w spawn_point direction j fuel cl cr r = some (some p, r2) →
      occupiable w p = true ∧
      (p = get_cell_farther_away spawn_point (get_direction_to_the_left direction) j ∨
        p = get_cell_farther_away spawn_point (get_direction_to_the_right direction) j) := by
  induction fuel with
  | zero => intro cl cr r r2 p h; exact Option.noConfusion h
  | succ n ih =>
    intro cl cr r r2 p h
    simp only [spawn_do_while] at h
    generalize (if cr = true then (true, r) else (decide ((rand r).1 % 2 ≠ 0), (rand r).2)) =
      coin at h
    obtain ⟨c, r3⟩ := coin
    cases c
    · simp only [Bool.false_eq_true, if_false] at h
      by_cases hocc : occupiable w
          (get_cell_farther_away spawn_point (get_direction_to_the_right direction) j) = true
      · simp only [hocc, if_true, Option.some.injEq, Prod.mk.injEq] at h
        rw [← h.1]
        exact ⟨hocc, Or.inr rfl⟩
      · cases cl
        · simp [hocc] at h; exact ih _ _ _ _ _ h
        · simp [hocc] at h
    · simp only [if_true] at h
      by_cases hocc : occupiable w
          (get_cell_farther_away spawn_point (get_direction_to_the_left direction) j) = true
      · simp only [hocc, if_true, Option.some.injEq, Prod.mk.injEq] at h
        rw [← h.1]
        exact ⟨hocc, Or.inl rfl⟩
      · cases cr
        · simp [hocc] at h; exact ih _ _ _ _ _ h
        · simp [hocc] at h

/-- A point returned from inside the loop over `j` is occupiable and lies at
least one cell to the left or to the right of `spawn_point`. -/
theorem spawn_j_loop_sound (fuel : Nat) (w : World) (spawn_point : GPoint) (direction : Int)
    (count : Nat) : ∀ (j : Int) (r r2 : Rand) (p : GPoint), 1 ≤ j →
      spawn_j_loop fuel w spawn_point direction count j r = some (some p, r2) →
      occupiable w p = true ∧ ∃ k : Int, 1 ≤ k ∧
      (p = get_cell_farther_away spawn_point (get_direction_to_the_left direction) k ∨
        p = get_cell_farther_away spawn_point (get_direction_to_the_right direction) k) := by
  induction count with
  | zero => intro j r r2 p _ h; simp [spawn_j_loop] at h
  | succ n ih =>
    intro j r r2 p hj h
    simp only [spawn_j_loop] at h
    split at h
    · exact Option.noConfusion h
    · rename_i q r3 hq
      simp only [Option.some.injEq, Prod.mk.injEq] at h
      obtain ⟨ho, hp⟩ := spawn_do_while_sound w spawn_point direction j fuel _ _ _ _ _ hq
      rw [← h.1]
      exact ⟨ho, j, hj, hp⟩
    · exact ih (j + 1) _ _ _ (by omega) h

/-- The cell `MAX_VISIBILITY_DEPTH` steps away in any direction is at that
Manhattan distance or more. -/
theorem manhattan_ahead (p : GPoint) (direction : Int) :
    MAX_VISIBILITY_DEPTH ≤ manhattan (get_cell_farther_away p direction MAX_VISIBILITY_DEPTH) p := by
  simp only [manhattan, get_cell_farther_away, MAX_VISIBILITY_DEPTH]
  split_ifs <;> simp only [] <;> omega

/-- Stepping sideways from the cell `MAX_VISIBILITY_DEPTH` steps away does not
bring it nearer. -/
theorem manhattan_aside (p : GPoint) (direction k : Int) (hk : 1 ≤ k) :
    MAX_VISIBILITY_DEPTH ≤ manhattan (get_cell_farther_away
      (get_cell_farther_away p direction MAX_VISIBILITY_DEPTH)
      (get_direction_to_the_left direction) k) p ∧
    MAX_VISIBILITY_DEPTH ≤ manhattan (get_cell_farther_away
      (get_cell_farther_away p direction MAX_VISIBILITY_DEPTH)
      (get_direction_to_the_right direction) k) p := by
  simp only [manhattan, get_cell_farther_away, MAX_VISIBILITY_DEPTH, get_direction_to_the_left,
    get_direction_to_the_right, NORTH, SOUTH, EAST, WEST]
  constructor <;> split_ifs <;> simp only [] <;> omega

/-- What the loop over the directions returns is the sentinel or an occupiable
cell far enough from the player. -/
theorem spawn_direction_loop_sound (fuel : Nat) (w : World) (count : Nat) :
    ∀ (direction : Int) (r r2 : Rand) (p : GPoint),
      spawn_direction_loop fuel w count direction r = some (p, r2) →
      p = ⟨-1, -1⟩ ∨
        (occupiable w p = true ∧ MAX_VISIBILITY_DEPTH ≤ manhattan p w.player.position) := by
  induction count with
  | zero =>
    intro direction r r2 p h
    simp only [spawn_direction_loop, Option.some.injEq, Prod.mk.injEq] at h
    exact Or.inl h.1.symm
  | succ n ih =>
    intro direction r r2 p h
    simp only [spawn_direction_loop] at h
    split at h
    · exact ih _ _ _ _ h
    · split at h
      · rename_i hocc
        simp only [Option.some.injEq, Prod.mk.injEq] at h
        rw [← h.1]
        exact Or.inr ⟨hocc, manhattan_ahead _ _⟩
      · split at h
        · exact Option.noConfusion h
        · rename_i q r3 hq
          simp only [Option.some.injEq, Prod.mk.injEq] at h
          obtain ⟨ho, k, hk, hp⟩ := spawn_j_loop_sound fuel w _ direction _ 1 _ _ _ (le_refl _) hq
          rw [← h.1]
          refine Or.inr ⟨ho, ?_⟩
          rcases hp with hp | hp
          · rw [hp]; exact (manhattan_aside _ _ _ hk).1
          · rw [hp]; exact (manhattan_aside _ _ _ hk).2
        · exact ih _ _ _ _ h

/-- The part of the contract of `get_npc_spawn_point` that the code keeps:
whenever it returns, the result is the sentinel (-1, -1) or a cell that
`occupiable` accepts and whose Manhattan distance from the player is at least
`MAX_VISIBILITY_DEPTH`. -/
theorem spawn_point_occupiable_and_far (fuel : Nat) (w : World) (r r2 : Rand) (p : GPoint)
    (h : get_npc_spawn_point fuel w r = some (p, r2)) :
    p = ⟨-1, -1⟩ ∨
      (occupiable w p = true ∧ MAX_VISIBILITY_DEPTH ≤ manhattan p w.player.position) :=
  spawn_direction_loop_sound fuel w _ _ _ _ _ h

/-- The spawn point found for the player at (5, 5) with every draw 0: north of
the player lies outside the grid, so the search turns south to (5, 11). -/
theorem spawn_point_occupiable_and_far_witness :
    ∃ q, get_npc_spawn_point 1 two_npc_world (fun _ => 0) = some q ∧ q.1 = ⟨5, 11⟩ ∧
      (q.1 = ⟨-1, -1⟩ ∨ (occupiable two_npc_world q.1 = true ∧
        MAX_VISIBILITY_DEPTH ≤ manhattan q.1 two_npc_world.player.position)) := by
  have hq : (get_npc_spawn_point 1 two_npc_world (fun _ => 0)).map (fun p => p.1) =
      some ⟨5, 11⟩ := by decide
  obtain ⟨q, hq1, hq2⟩ := Option.map_eq_some'.1 hq
  exact ⟨q, hq1, hq2, spawn_point_occupiable_and_far 1 two_npc_world (fun _ => 0) q.2 q.1 hq1⟩

/-- With the cell ahead and the cell to its left both taken, a stream of odd
draws keeps the `do ... while` loop looking to the left. -/
theorem spawn_do_while_stuck (fuel : Nat) : ∀ cl : Bool,
    spawn_do_while blocked_left_world ⟨5, 11⟩ SOUTH 1 fuel cl false always_odd = none := by
  induction fuel with
  | zero => intro cl; rfl
  | succ n ih =>
    intro cl
    have hr : (rand always_odd).2 = always_odd := rfl
    have hc : (rand always_odd).1 % 2 ≠ 0 := by decide
    have hocc : occupiable blocked_left_world
        (get_cell_farther_away ⟨5, 11⟩ (get_direction_to_the_left SOUTH) 1) = false := by decide
    simp only [spawn_do_while, Bool.false_eq_true, if_false, hc, hr, ne_eq, not_false_eq_true,
      decide_True, if_true, hocc, Bool.or_true, Bool.not_true, Bool.or_false, Bool.not_false,
      Bool.false_or]
    exact ih true

/-- The search of `get_npc_spawn_point` is not bounded: with the player at
(5, 5), NPCs on (5, 11) and (6, 11) and every draw odd, no number of passes
through the `do ... while` loop lets it return. -/
theorem spawn_point_search_unbounded (fuel : Nat) :
    get_npc_spawn_point fuel blocked_left_world always_odd = none := by
  have h1 : out_of_bounds (get_cell_farther_away blocked_left_world.player.position SOUTH
      MAX_VISIBILITY_DEPTH) = false := by decide
  have h2 : occupiable blocked_left_world (get_cell_farther_away
      blocked_left_world.player.position SOUTH MAX_VISIBILITY_DEPTH) = false := by decide
  have h3 : get_cell_farther_away blocked_left_world.player.position SOUTH
      MAX_VISIBILITY_DEPTH = ⟨5, 11⟩ := by decide
  have hd : (((rand always_odd).1 % NUM_DIRECTIONS : Nat) : Int) = SOUTH := by decide
  have hr : (rand always_odd).2 = always_odd := rfl
  unfold get_npc_spawn_point
  rw [hd, hr]
  show spawn_direction_loop fuel blocked_left_world (3 + 1) SOUTH always_odd = none
  rw [spawn_direction_loop]
  simp only [h1, h2, Bool.false_eq_true, if_false]
  show (match spawn_j_loop fuel blocked_left_world _ SOUTH (3 + 1) 1 always_odd with
    | none => none
    | some (some spawn_point2, r2) => some (spawn_point2, r2)
    | some (none, r2) => spawn_direction_loop fuel blocked_left_world 3 _ r2) = none
  rw [spawn_j_loop, h3, spawn_do_while_stuck fuel false]

/-! ## Theorems: adding and removing NPCs -/

/-- The counting walk of `add_new_npc` adds the number of nodes it passes. -/
theorem add_new_npc_count_eq (l : List npc_t) :
    ∀ c : Int, add_new_npc_count l c = c + l.length := by
  induction l with
  | nil => intro c; simp [add_new_npc_count]
  | cons a l ih => intro c; simp [add_new_npc_count, ih]; ring

/-- Claim C22: when `position` is occupiable and the list holds fewer than
`MAX_NPCS_AT_ONE_TIME` NPCs, `add_new_npc` leaves the list as it was with one
new NPC of the given type at the given position added at its tail; in every
other case the list is unchanged; so a list of at most `MAX_NPCS_AT_ONE_TIME`
NPCs never grows beyond that. -/
theorem add_new_npc_appends (w : World) (npc_type : Int) (position : GPoint) (fresh : npc_t) :
    (occupiable w position = true → (w.quest.npcs.length : Int) < MAX_NPCS_AT_ONE_TIME →
      (add_new_npc w npc_type position fresh).quest.npcs =
        w.quest.npcs ++ [init_npc w fresh npc_type position] ∧
      (init_npc w fresh npc_type position).type = npc_type ∧
      (init_npc w fresh npc_type position).position = position) ∧
    (¬ (occupiable w position = true ∧ (w.quest.npcs.length : Int) < MAX_NPCS_AT_ONE_TIME) →
      (add_new_npc w npc_type position fresh).quest.npcs = w.quest.npcs) ∧
    ((w.quest.npcs.length : Int) ≤ MAX_NPCS_AT_ONE_TIME →
      ((add_new_npc w npc_type position fresh).quest.npcs.length : Int) ≤
        MAX_NPCS_AT_ONE_TIME) := by
  have key : (add_new_npc w npc_type position fresh).quest.npcs =
      if occupiable w position = true ∧ (w.quest.npcs.length : Int) < MAX_NPCS_AT_ONE_TIME then
        w.quest.npcs ++ [init_npc w fresh npc_type position]
      else w.quest.npcs := by
    unfold add_new_npc
    cases hocc : occupiable w position
    · simp
    · cases hl : w.quest.npcs with
      | nil => simp
      | cons first next =>
        simp only [if_true, add_new_npc_count_eq, List.length_cons, true_and]
        split_ifs with h1 h2 h2
        · rfl
        · exact absurd h1 (by push_cast at h2; omega)
        · exact absurd h2 (by push_cast; omega)
        · exact hl
  refine ⟨?_, ?_, ?_⟩
  · intro hocc hlen
    rw [key, if_pos ⟨hocc, hlen⟩]
    exact ⟨rfl, rfl, rfl⟩
  · intro hn
    rw [key, if_neg hn]
  · intro hle
    rw [key]
    split
    · rename_i h
      have := h.2
      simp only [MAX_NPCS_AT_ONE_TIME] at this hle ⊢
      simp only [List.length_append, List.length_singleton]
      push_cast
      omega
    · exact hle

/-- Claim C22 on a list of two NPCs: a goblin added at the free cell (1, 1)
becomes the third NPC, behind the two that were there. -/
theorem add_new_npc_appends_witness :
    (add_new_npc two_npc_world GOBLIN ⟨1, 1⟩ (demo_npc ⟨0, 0⟩)).quest.npcs =
      two_npc_world.quest.npcs ++ [init_npc two_npc_world (demo_npc ⟨0, 0⟩) GOBLIN ⟨1, 1⟩] :=
  ((add_new_npc_appends two_npc_world GOBLIN ⟨1, 1⟩ (demo_npc ⟨0, 0⟩)).1 (by decide)
    (by decide)).1

/-- Links over `xs ++ ys` are links over `xs` up to some pointer and links
over `ys` from there. -/
theorem linked_from_append (next : Nat → Option Nat) (xs ys : List Nat) :
    ∀ (pointer stop : Option Nat),
    linked_from next pointer (xs ++ ys) stop ↔
      ∃ mid, linked_from next pointer xs mid ∧ linked_from next mid ys stop := by
  induction xs with
  | nil => intro pointer stop; simp [linked_from]
  | cons x xs ih =>
    intro pointer stop
    rw [List.cons_append]
    simp only [linked_from]
    rw [ih]
    constructor
    · rintro ⟨h1, mid, h2, h3⟩; exact ⟨mid, ⟨h1, h2⟩, h3⟩
    · rintro ⟨mid, ⟨h1, h2⟩, h3⟩; exact ⟨h1, mid, h2, h3⟩

/-- A store to the `next` field of a node outside `nodes` leaves their links
as they were. -/
theorem linked_from_set_next (next : Nat → Option Nat) (node : Nat) (value : Option Nat)
    (nodes : List Nat) : ∀ (pointer stop : Option Nat), node ∉ nodes →
    linked_from next pointer nodes stop →
    linked_from (fun a => if a = node then value else next a) pointer nodes stop := by
  induction nodes with
  | nil => intro pointer stop _ h; exact h
  | cons x xs ih =>
    intro pointer stop hn h
    simp only [List.mem_cons, not_or] at hn
    obtain ⟨h1, h2⟩ := h
    refine ⟨h1, ?_⟩
    have hx : x ≠ node := fun e => hn.1 e.symm
    simp only [hx, if_false]
    exact ih _ _ hn.2 h2

/-- The walk of `remove_npc` from the middle of the list: `before` are the
nodes already passed, `after` those from `npc_pointer` on. -/
theorem remove_npc_links_walk (npc : Nat) (l : NpcLinks) (after : List Nat) :
    ∀ (before : List Nat) (npc_pointer npc_pointer_2 : Option Nat) (fuel : Nat),
    linked_from l.next l.npcs before npc_pointer →
    linked_from l.next npc_pointer after none →
    (before ++ after).Nodup → npc ∉ before →
    (before = [] → npc_pointer_2 = l.npcs) →
    (∀ node, before.getLast? = some node → npc_pointer_2 = some node) →
    after.length < fuel →
    ∃ l2, remove_npc_links npc l fuel npc_pointer npc_pointer_2 = some l2 ∧
      holds_list l2 (before ++ after.erase npc) ∧
      (npc ∈ after → l2.freed = npc :: l.freed) ∧ (npc ∉ after → l2 = l) := by
  induction after with
  | nil =>
    intro before npc_pointer npc_pointer_2 fuel hb ha _ _ _ _ hf
    obtain ⟨fuel, rfl⟩ : ∃ k, fuel = k + 1 := ⟨fuel - 1, by omega⟩
    simp only [linked_from] at ha
    subst ha
    refine ⟨l, rfl, ?_, fun h => absurd h (List.not_mem_nil _), fun _ => rfl⟩
    simpa [holds_list] using hb
  | cons a rest ih =>
    intro before npc_pointer npc_pointer_2 fuel hb ha hnd hnb h0 hlast hf
    obtain ⟨fuel, rfl⟩ : ∃ k, fuel = k + 1 := ⟨fuel - 1, by omega⟩
    obtain ⟨hptr, hrest⟩ := ha
    subst hptr
    have hnd2 := List.nodup_append.1 hnd
    have ha_rest : a ∉ rest := (List.nodup_cons.1 hnd2.2.1).1
    have ha_before : a ∉ before := fun hm => hnd2.2.2 hm (List.mem_cons_self _ _)
    by_cases hnpc : a = npc
    · subst hnpc
      have herase : (a :: rest).erase a = rest := by simp
      rw [herase]
      rcases List.eq_nil_or_concat before with hnil | ⟨pre, q, hcat⟩
      · -- the node is the head of the list
        subst hnil
        simp only [linked_from] at hb
        have hres : remove_npc_links a l (fuel + 1) (some a) npc_pointer_2 =
            some { l with npcs := l.next a, freed := a :: l.freed } := by
          simp only [remove_npc_links, if_true, hb]
          by_cases hnx : l.next a = none
          · simp [hnx]
          · simp [hnx]
        refine ⟨_, hres, ?_, fun _ => rfl, fun h => absurd (List.mem_cons_self _ _) h⟩
        simpa [holds_list] using hrest
      · -- the node has a predecessor, `q`
        rw [List.concat_eq_append] at hcat
        subst hcat
        have hp2 : npc_pointer_2 = some q := hlast q (by simp)
        subst hp2
        have hsplit := (linked_from_append l.next pre [q] l.npcs (some a)).1 (by simpa using hb)
        obtain ⟨mid, hpre, hq⟩ := hsplit
        simp only [linked_from] at hq
        obtain ⟨hmid, hqa⟩ := hq
        subst hmid
        have hq_pre : q ∉ pre := by
          have := List.nodup_append.1 hnd2.1
          intro hm
          exact this.2.2 hm (List.mem_singleton_self _)
        have hq_rest : q ∉ rest := fun hm =>
          hnd2.2.2 (by simp) (List.mem_cons_of_mem _ hm)
        have hqa2 : q ≠ a := fun e => ha_before (by simp [e])
        have hhead : some a ≠ l.npcs := by
          intro e
          cases pre with
          | nil =>
            simp only [linked_from] at hpre
            rw [hpre] at e
            exact hqa2 (Option.some.inj e).symm
          | cons x xs =>
            obtain ⟨hx, _⟩ := hpre
            rw [hx] at e
            exact ha_before (by rw [Option.some.inj e]; simp)
        have hres : remove_npc_links a l (fuel + 1) (some a) (some q) =
            some { l.set_next q (l.next a) with freed := a :: l.freed } := by
          simp only [remove_npc_links, if_true, hhead, if_false, Option.map_some']
          by_cases hnx : l.next a = none
          · simp [hnx]
          · simp [hnx]
        refine ⟨_, hres, ?_, fun _ => rfl, fun h => absurd (List.mem_cons_self _ _) h⟩
        show linked_from (fun x => if x = q then l.next a else l.next x) l.npcs
          (pre ++ [q] ++ rest) none
        rw [List.append_assoc, linked_from_append]
        refine ⟨some q, linked_from_set_next _ _ _ _ _ _ hq_pre hpre, rfl, ?_⟩
        simp only [if_true]
        exact linked_from_set_next _ _ _ _ _ _ hq_rest hrest
    · have hstep : remove_npc_links npc l (fuel + 1) (some a) npc_pointer_2 =
          remove_npc_links npc l fuel (l.next a) (some a) := by
        simp only [remove_npc_links, hnpc, if_false]
      have hb2 : linked_from l.next l.npcs (before ++ [a]) (l.next a) := by
        rw [linked_from_append]
        exact ⟨some a, hb, rfl, rfl⟩
      obtain ⟨l2, h1, h2, h3, h4⟩ := ih (before ++ [a]) (l.next a) (some a) fuel hb2 hrest
        (by simpa using hnd)
        (by
          intro hm
          rcases List.mem_append.1 hm with hm | hm
          · exact hnb hm
          · simp only [List.mem_singleton] at hm; exact hnpc hm.symm)
        (by intro h; simp at h)
        (by intro node hn; simp at hn; rw [hn])
        (by simp only [List.length_cons] at hf; omega)
      have herase : (a :: rest).erase npc = a :: rest.erase npc := by
        simp [List.erase_cons, hnpc]
      refine ⟨l2, hstep.trans h1, ?_, ?_, ?_⟩
      · rw [herase]; simpa using h2
      · intro hm
        rcases List.mem_cons.1 hm with hm | hm
        · exact absurd hm.symm hnpc
        · exact h3 hm
      · intro hm
        exact h4 (fun hr => hm (List.mem_cons_of_mem _ hr))

/-- Claim C26: when the link fields hold a list `nodes` without repeated
nodes, `remove_npc(npc)` returns (one pass per node is enough) and leaves the
link fields holding `nodes` with `npc` erased, the other nodes in their
original order, whether `npc` is the head, an interior node, the tail or the
only node; it hands `npc` and nothing else to `free`. When `npc` is not in the
list, nothing changes. -/
theorem remove_npc_erases (l : NpcLinks) (nodes : List Nat) (npc : Nat)
    (hl : holds_list l nodes) (hnd : nodes.Nodup) :
    ∃ l2, remove_npc_links npc l (nodes.length + 1) l.npcs l.npcs = some l2 ∧
      holds_list l2 (nodes.erase npc) ∧
      (npc ∈ nodes → l2.freed = npc :: l.freed) ∧ (npc ∉ nodes → l2 = l) := by
  have h := remove_npc_links_walk npc l nodes [] l.npcs l.npcs (nodes.length + 1) rfl hl
    (by simpa using hnd) (List.not_mem_nil _) (fun _ => rfl) (by intro node hn; simp at hn)
    (by omega)
  simpa using h

/-- Claim C26 on the list 10, 20, 30: removing the interior node 20 leaves
10, 30 and frees node 20. -/
theorem remove_npc_erases_witness :
    ∃ l2, remove_npc_links 20 three_links 4 (some 10) (some 10) = some l2 ∧
      holds_list l2 [10, 30] ∧ l2.freed = [20] := by
  obtain ⟨l2, h1, h2, h3, _⟩ :=
    remove_npc_erases three_links [10, 20, 30] 20 ⟨rfl, rfl, rfl, rfl⟩ (by decide)
  exact ⟨l2, h1, h2, h3 (by decide)⟩

/-- The list walk of the state model agrees with the pointer walk: it drops
the node at index `npc` and keeps the others in order. -/
theorem remove_npc_walk_eraseIdx (npc : Nat) (l : List npc_t) :
    ∀ index, index ≤ npc → remove_npc_walk npc index l = l.eraseIdx (npc - index) := by
  induction l with
  | nil => intro index _; rfl
  | cons a rest ih =>
    intro index hi
    by_cases h : index = npc
    · subst h
      cases rest <;> simp [remove_npc_walk]
    · have hlt : index < npc := by omega
      obtain ⟨k, hk⟩ : ∃ k, npc - index = k + 1 := ⟨npc - index - 1, by omega⟩
      have hk2 : npc - (index + 1) = k := by omega
      simp only [remove_npc_walk, h, if_false, hk, List.eraseIdx_cons_succ]
      rw [ih (index + 1) (by omega), hk2]

/-! ## Theorems: the carving loop -/

/-- The function `init_quest_location` is the carving loop run from `carve_start`,
followed by its last part. -/
theorem init_quest_location_eq_carve (fuel : Nat) (w : World) (r : Rand) (fresh : npc_t) :
    init_quest_location fuel w r fresh =
      (carve_loop fuel (carve_start w r)).bind fun b => init_quest_location_finish b fresh := rfl

/-- On the stream `never_turning` the loop starts at (0, 0) heading south,
with (1, 14) to reach and only the draw 1 left. -/
theorem carve_start_never_turning (w : World) :
    (carve_start w never_turning).w.quest.entrance_direction = NORTH ∧
    (carve_start w never_turning).w.quest.starting_point = ⟨0, 0⟩ ∧
    (carve_start w never_turning).w.quest.ending_point = ⟨1, 14⟩ ∧
    (carve_start w never_turning).builder_position = ⟨0, 0⟩ ∧
    (carve_start w never_turning).builder_direction = SOUTH ∧
    (∀ k, (carve_start w never_turning).r k = 1) :=
  ⟨rfl, rfl, rfl, rfl, rfl, fun _ => rfl⟩

/-- One pass of a south-bound walk in column 0 that never turns: it stays in
column 0, heading south. -/
theorem carve_step_stalled (b : Builder) (hd : b.builder_direction = SOUTH)
    (hx : b.builder_position.x = 0) (hy : 0 ≤ b.builder_position.y ∧ b.builder_position.y ≤ 14)
    (hr : ∀ k, b.r k = 1) (he : b.w.quest.ending_point = ⟨1, 14⟩) :
    ∃ b2, carve_step b = some b2 ∧ b2.builder_direction = SOUTH ∧ b2.builder_position.x = 0 ∧
      (0 ≤ b2.builder_position.y ∧ b2.builder_position.y ≤ 14) ∧ (∀ k, b2.r k = 1) ∧
      b2.w.quest.ending_point = ⟨1, 14⟩ := by
  have hin : out_of_bounds b.builder_position = false := (in_bounds_iff _).2 (by omega)
  have hs : ∃ w1, set_cell_type b.w b.builder_position EMPTY = some w1 := by
    simp [set_cell_type, hin]
  obtain ⟨w1, hs⟩ := hs
  have hcoin : ¬ ((rand b.r).1 % NUM_DIRECTIONS = 0) := by
    simp [rand, hr 0]
  have hstep : ∃ b2, carve_step b = some b2 := by
    simp [carve_step, hs]
  obtain ⟨b2, hb2⟩ := hstep
  have hf := carve_step_frame b b2 hb2
  have hsn : ¬ (SOUTH = NORTH) := by decide
  refine ⟨b2, hb2, ?_, ?_, ?_, ?_, by rw [← hf.2.2.2.2.1]; exact he⟩
  all_goals
    simp only [carve_step, hs, Option.map_some', hcoin, if_false, Option.some.injEq, hd, hsn,
      if_true, LOCATION_HEIGHT, LOCATION_WIDTH] at hb2
    subst hb2
  · rfl
  · show (if b.builder_position.y < 15 - 1 then
        ({ b.builder_position with y := b.builder_position.y + 1 } : GPoint)
      else b.builder_position).x = 0
    split_ifs <;> simp [hx]
  · show 0 ≤ (if b.builder_position.y < 15 - 1 then
        ({ b.builder_position with y := b.builder_position.y + 1 } : GPoint)
      else b.builder_position).y ∧ (if b.builder_position.y < 15 - 1 then
        ({ b.builder_position with y := b.builder_position.y + 1 } : GPoint)
      else b.builder_position).y ≤ 14
    split_ifs <;> constructor <;> (try simp only []) <;> omega
  · intro k
    show (rand b.r).2 k = 1
    simp [rand, hr]

/-- Any number of passes of such a walk leave the builder in column 0. -/
theorem carve_passes_stalled (n : Nat) : ∀ (b : Builder), b.builder_direction = SOUTH →
    b.builder_position.x = 0 → (0 ≤ b.builder_position.y ∧ b.builder_position.y ≤ 14) →
    (∀ k, b.r k = 1) → b.w.quest.ending_point = ⟨1, 14⟩ →
    ∃ b2, carve_passes n b = some b2 ∧ b2.builder_position.x = 0 ∧
      b2.w.quest.ending_point = ⟨1, 14⟩ := by
  induction n with
  | zero => intro b _ hx _ _ he; exact ⟨b, rfl, hx, he⟩
  | succ n ih =>
    intro b hd hx hy hr he
    obtain ⟨b1, hb1, hd1, hx1, hy1, hr1, he1⟩ := carve_step_stalled b hd hx hy hr he
    obtain ⟨b2, hb2, h2⟩ := ih b1 hd1 hx1 hy1 hr1 he1
    exact ⟨b2, by simp [carve_passes, hb1, hb2], h2⟩

/-- The carving loop never ends for such a walk, whatever the number of passes
allowed. -/
theorem carve_loop_stalled (fuel : Nat) : ∀ (b : Builder), b.builder_direction = SOUTH →
    b.builder_position.x = 0 → (0 ≤ b.builder_position.y ∧ b.builder_position.y ≤ 14) →
    (∀ k, b.r k = 1) → b.w.quest.ending_point = ⟨1, 14⟩ → carve_loop fuel b = none := by
  induction fuel with
  | zero =>
    intro b _ hx _ _ he
    have hne : gpoint_equal b.builder_position b.w.quest.ending_point = false := by
      rw [he]; simp [gpoint_equal, hx]
    simp [carve_loop, hne]
  | succ n ih =>
    intro b hd hx hy hr he
    have hne : gpoint_equal b.builder_position b.w.quest.ending_point = false := by
      rw [he]; simp [gpoint_equal, hx]
    obtain ⟨b1, hb1, hd1, hx1, hy1, hr1, he1⟩ := carve_step_stalled b hd hx hy hr he
    simp [carve_loop, hne, hb1, ih b1 hd1 hx1 hy1 hr1 he1]

/-- Claim C23: on the random stream `never_turning` the starting point is
(0, 0) on the north edge and the ending point (1, 14) on the opposite edge; the
walk heads south, never turns and stalls clamped at (0, 14). For every `n` the
builder position after `n` passes of the loop body differs from
`ending_point`, so the loop test never fails: the carving loop and with it
`init_quest_location` return for no number of passes. -/
theorem carving_loop_may_not_terminate (w : World) :
    on_border_edge NORTH (carve_start w never_turning).w.quest.starting_point ∧
    on_border_edge SOUTH (carve_start w never_turning).w.quest.ending_point ∧
    (carve_start w never_turning).builder_position =
      (carve_start w never_turning).w.quest.starting_point ∧
    (∀ n, ∃ b, carve_passes n (carve_start w never_turning) = some b ∧
      b.builder_position ≠ b.w.quest.ending_point ∧
      gpoint_equal b.builder_position b.w.quest.ending_point = false) ∧
    (∀ fuel, carve_loop fuel (carve_start w never_turning) = none) ∧
    (∀ fuel fresh, init_quest_location fuel w never_turning fresh = none) := by
  obtain ⟨_, hs, he, hp, hd, hr⟩ := carve_start_never_turning w
  have hx : (carve_start w never_turning).builder_position.x = 0 := by rw [hp]
  have hy : 0 ≤ (carve_start w never_turning).builder_position.y ∧
      (carve_start w never_turning).builder_position.y ≤ 14 := by rw [hp]; decide
  refine ⟨by rw [hs]; simp [on_border_edge], by rw [he]; simp [on_border_edge, LOCATION_HEIGHT, LOCATION_WIDTH], by rw [hp, hs],
    ?_, ?_, ?_⟩
  · intro n
    obtain ⟨b, hb, hbx, hbe⟩ := carve_passes_stalled n _ hd hx hy hr he
    have hne : b.builder_position ≠ b.w.quest.ending_point := by
      intro h
      rw [hbe] at h
      rw [h] at hbx
      exact absurd hbx (by decide)
    refine ⟨b, hb, hne, ?_⟩
    cases hg : gpoint_equal b.builder_position b.w.quest.ending_point
    · rfl
    · exact absurd ((gpoint_equal_iff _ _).1 hg) hne
  · intro fuel
    exact carve_loop_stalled fuel _ hd hx hy hr he
  · intro fuel fresh
    rw [init_quest_location_eq_carve, carve_loop_stalled fuel _ hd hx hy hr he]
    rfl

/-- One row of the clearing loops: the cells of row `i` in the columns of `l`
become `SOLID`, the others keep their contents. -/
theorem store_row_solid (i : Nat) (l : List Nat) : ∀ (cells : Nat → Nat → Int) (a b : Nat),
    (l.foldl (fun cells j => store_cell cells i j SOLID) cells) a b =
      if a = i ∧ b ∈ l then SOLID else cells a b := by
  induction l with
  | nil => intro cells a b; simp
  | cons j l ih =>
    intro cells a b
    rw [List.foldl_cons, ih]
    simp only [store_cell, List.mem_cons]
    by_cases h1 : a = i <;> by_cases h2 : b ∈ l <;> by_cases h3 : b = j <;> simp [h1, h2, h3]

/-- The two clearing loops: the cells in the rows of `l` and the columns of `m`
become `SOLID`, the others keep their contents. -/
theorem store_rows_solid (m : List Nat) (l : List Nat) : ∀ (cells : Nat → Nat → Int) (a b : Nat),
    (l.foldl (fun cells i => m.foldl (fun cells j => store_cell cells i j SOLID) cells) cells) a b =
      if a ∈ l ∧ b ∈ m then SOLID else cells a b := by
  induction l with
  | nil => intro cells a b; simp
  | cons i l ih =>
    intro cells a b
    rw [List.foldl_cons, ih, store_row_solid]
    simp only [List.mem_cons]
    by_cases h1 : a ∈ l <;> by_cases h2 : b ∈ m <;> by_cases h3 : a = i <;> simp [h1, h2, h3]

/-- On entry to the carving loop every cell reads `SOLID`. -/
theorem carve_start_solid (w : World) (r : Rand) (c : GPoint) :
    get_cell_type (carve_start w r).w c = SOLID := by
  have hcells : (carve_start w r).w.quest.cells = (init_quest_location_clear w).quest.cells := by
    unfold carve_start init_quest_location_points
    simp only
    split
    · rfl
    · split
      · rfl
      · split <;> rfl
  rw [get_cell_type_congr _ _ hcells]
  unfold get_cell_type
  split
  · rfl
  · rename_i hb
    have hb2 := (in_bounds_iff c).1 (by simpa using hb)
    have h1 : c.x.toNat < 15 := by omega
    have h2 : c.y.toNat < 15 := by omega
    simp only [init_quest_location_clear, store_rows_solid, List.mem_range]
    have h3 : (15 : Int).toNat = 15 := rfl
    rw [if_pos ⟨by simp only [LOCATION_WIDTH, h3]; exact h1,
      by simp only [LOCATION_HEIGHT, LOCATION_WIDTH, h3]; exact h2⟩]

/-- One pass of the carving loop from a cell inside the grid: the store lands
inside the grid, the pass completes, and the builder stays inside the grid, on
the same cell or on one that touches it. -/
theorem carve_step_in_grid (b : Builder) (hin : out_of_bounds b.builder_position = false) :
    ∃ w1 b2, set_cell_type b.w b.builder_position EMPTY = some w1 ∧ carve_step b = some b2 ∧
      b2.w.quest.cells = w1.quest.cells ∧ out_of_bounds b2.builder_position = false ∧
      (b2.builder_position = b.builder_position ∨
        touching b.builder_position b2.builder_position = true) := by
  have hs : ∃ w1, set_cell_type b.w b.builder_position EMPTY = some w1 := by
    simp [set_cell_type, hin]
  obtain ⟨w1, hs⟩ := hs
  have hpb := (in_bounds_iff _).1 hin
  have hmove : ∀ p2 : GPoint, p2 = (
      if b.builder_direction = NORTH then
        if b.builder_position.y > 0 then
          { b.builder_position with y := b.builder_position.y - 1 } else b.builder_position
      else if b.builder_direction = SOUTH then
        if b.builder_position.y < LOCATION_HEIGHT - 1 then
          { b.builder_position with y := b.builder_position.y + 1 } else b.builder_position
      else if b.builder_direction = EAST then
        if b.builder_position.x < LOCATION_WIDTH - 1 then
          { b.builder_position with x := b.builder_position.x + 1 } else b.builder_position
      else
        if b.builder_position.x > 0 then
          { b.builder_position with x := b.builder_position.x - 1 } else b.builder_position) →
      out_of_bounds p2 = false ∧
      (p2 = b.builder_position ∨ touching b.builder_position p2 = true) := by
    intro p2 hp2
    simp only [LOCATION_WIDTH, LOCATION_HEIGHT] at hp2
    split_ifs at hp2
    all_goals first
      | exact ⟨hp2 ▸ hin, Or.inl hp2⟩
      | (subst hp2
         refine ⟨(in_bounds_iff _).2 ?_, Or.inr (by simp [touching])⟩
         simp only
         omega)
  have hstep : ∃ b2, carve_step b = some b2 := by simp [carve_step, hs]
  obtain ⟨b2, hb2⟩ := hstep
  refine ⟨w1, b2, hs, hb2, ?_⟩
  unfold carve_step at hb2
  rw [hs] at hb2
  simp only [Option.map_some', Option.some.injEq] at hb2
  split at hb2 <;> (subst hb2; exact ⟨rfl, hmove _ rfl⟩)

/-- Reading the grid after `set_cell_type` has emptied a cell: one more cell
is open. -/
theorem open_after_store (w w1 : World) (p : GPoint) (h : set_cell_type w p EMPTY = some w1)
    (cells : List GPoint) (hopen : ∀ c, get_cell_type w c ≠ SOLID ↔ c ∈ cells) (c : GPoint) :
    get_cell_type w1 c ≠ SOLID ↔ c ∈ cells ++ [p] := by
  have hp := (set_cell_type_eq_some _ _ _ _ h).1
  cases hc : out_of_bounds c with
  | true =>
    have h1 : get_cell_type w1 c = SOLID := by simp [get_cell_type, hc]
    have h2 : get_cell_type w c = SOLID := by simp [get_cell_type, hc]
    have h3 : c ∉ cells := fun hm => (hopen c).2 hm h2
    have h4 : c ≠ p := by intro e; rw [e, hp] at hc; exact Bool.noConfusion hc
    simp [h1, h3, h4]
  | false =>
    rw [get_cell_type_set _ _ _ _ h c hc]
    by_cases e : c = p
    · simp [e]
    · simp [e, hopen c]

/-- A chain within a set of cells is a chain within any larger set. -/
theorem linked_within_mono {cells cells2 : List GPoint} {a b : GPoint}
    (h : linked_within cells a b) (hsub : ∀ c ∈ cells, c ∈ cells2) : linked_within cells2 a b := by
  obtain ⟨path, h1, h2, h3, h4⟩ := h
  exact ⟨path, h1, h2, fun c hc => hsub c (h3 c hc), h4⟩

/-- A chain can be extended by a touching cell of the set. -/
theorem linked_within_step {cells : List GPoint} {a b c : GPoint}
    (h : linked_within cells a b) (ht : touching b c = true) (hc : c ∈ cells) :
    linked_within cells a c := by
  obtain ⟨path, h1, h2, h3, h4⟩ := h
  refine ⟨path ++ [c], ?_, by simp, ?_, ?_⟩
  · cases path with
    | nil => simp at h1
    | cons x xs => simpa using h1
  · intro d hd
    rcases List.mem_append.1 hd with hd | hd
    · exact h3 d hd
    · simp only [List.mem_singleton] at hd; rw [hd]; exact hc
  · rw [List.chain'_append]
    refine ⟨h4, List.chain'_singleton _, ?_⟩
    intro x hx y hy
    simp only [List.head?_cons, Option.mem_def, Option.some.injEq] at hy
    subst hy
    rw [h2] at hx
    simp only [Option.mem_def, Option.some.injEq] at hx
    rw [← hx]; exact ht

/-- The carving invariant over any number of passes: `cells` are the cells
opened so far, all linked to `s`. -/
theorem carve_passes_visited (s : GPoint) (n : Nat) : ∀ (b : Builder) (cells : List GPoint),
    out_of_bounds b.builder_position = false →
    (∀ c, get_cell_type b.w c ≠ SOLID ↔ c ∈ cells) →
    (∀ c ∈ cells ++ [b.builder_position], linked_within (cells ++ [b.builder_position]) s c) →
    ∃ b2 w2, carve_passes n b = some b2 ∧ out_of_bounds b2.builder_position = false ∧
      set_cell_type b2.w b2.builder_position EMPTY = some w2 ∧
      (∀ c, get_cell_type w2 c ≠ SOLID ↔ c ∈ cells ++ carve_visited n b) ∧
      (∀ c ∈ cells ++ carve_visited n b, linked_within (cells ++ carve_visited n b) s c) := by
  induction n with
  | zero =>
    intro b cells hin hopen hlink
    obtain ⟨w1, _, hs, _⟩ := carve_step_in_grid b hin
    exact ⟨b, w1, rfl, hin, hs, open_after_store _ _ _ hs cells hopen, hlink⟩
  | succ n ih =>
    intro b cells hin hopen hlink
    obtain ⟨w1, b1, hs, hb1, hcells, hin1, hmove⟩ := carve_step_in_grid b hin
    have hopen1 : ∀ c, get_cell_type b1.w c ≠ SOLID ↔ c ∈ cells ++ [b.builder_position] := by
      intro c
      rw [get_cell_type_congr _ _ hcells]
      exact open_after_store _ _ _ hs cells hopen c
    have hlink1 : ∀ c ∈ (cells ++ [b.builder_position]) ++ [b1.builder_position],
        linked_within ((cells ++ [b.builder_position]) ++ [b1.builder_position]) s c := by
      intro c hc
      have hold : linked_within ((cells ++ [b.builder_position]) ++ [b1.builder_position]) s
          b.builder_position :=
        linked_within_mono (hlink _ (by simp)) (fun d hd => List.mem_append_left _ hd)
      rcases List.mem_append.1 hc with hc | hc
      · exact linked_within_mono (hlink c hc) (fun d hd => List.mem_append_left _ hd)
      · simp only [List.mem_singleton] at hc
        rw [hc]
        rcases hmove with hmove | hmove
        · rw [hmove]
          exact linked_within_mono (hlink _ (by simp)) (fun d hd =>
            List.mem_append_left _ hd)
        · exact linked_within_step hold hmove (by simp)
    obtain ⟨b2, w2, h1, h2, h3, h4, h5⟩ := ih b1 (cells ++ [b.builder_position]) hin1 hopen1 hlink1
    have hv : cells ++ carve_visited (n + 1) b =
        (cells ++ [b.builder_position]) ++ carve_visited n b1 := by
      simp [carve_visited, hb1]
    refine ⟨b2, w2, by simp [carve_passes, hb1, h1], h2, h3, ?_, ?_⟩
    · rw [hv]; exact h4
    · rw [hv]; exact h5

/-- A carving loop that ends has run its body some number of times. -/
theorem carve_loop_passes (fuel : Nat) : ∀ (b b2 : Builder), carve_loop fuel b = some b2 →
    ∃ n, n ≤ fuel ∧ carve_passes n b = some b2 := by
  induction fuel with
  | zero =>
    intro b b2 h
    unfold carve_loop at h
    split at h
    · cases h; exact ⟨0, le_refl _, rfl⟩
    · exact Option.noConfusion h
  | succ n ih =>
    intro b b2 h
    unfold carve_loop at h
    split at h
    · cases h; exact ⟨0, Nat.zero_le _, rfl⟩
    · cases hs : carve_step b with
      | none => rw [hs] at h; exact Option.noConfusion h
      | some b1 =>
        rw [hs] at h
        simp only [Option.some_bind] at h
        obtain ⟨k, hk, hp⟩ := ih b1 b2 h
        exact ⟨k + 1, by omega, by simp [carve_passes, hs, hp]⟩

/-- Claim C27: whenever the carving loop of `init_quest_location` ends, it has
run its body some number `k` of times; and after any number `n` of passes the
builder stands inside the grid, the next pass completes (its `set_cell_type`
stores inside the grid) and leaves the builder on the same cell or on a
4-adjacent one, and once the builder's cell is emptied (the statement after
the loop) the cells that do not read `SOLID` are exactly the positions the walk
visited, each reachable from `starting_point` along 4-adjacent cells that do
not read `SOLID`. -/
theorem carving_walk_invariants (w : World) (r : Rand) (n : Nat) :
    (∀ fuel b, carve_loop fuel (carve_start w r) = some b →
      ∃ k, k ≤ fuel ∧ carve_passes k (carve_start w r) = some b) ∧
    ∃ b, carve_passes n (carve_start w r) = some b ∧
      out_of_bounds b.builder_position = false ∧
      (∃ b2, carve_step b = some b2 ∧
        (b2.builder_position = b.builder_position ∨
          touching b.builder_position b2.builder_position = true)) ∧
      ∃ w2, set_cell_type b.w b.builder_position EMPTY = some w2 ∧
        ∀ c, (get_cell_type w2 c ≠ SOLID ↔ c ∈ carve_visited n (carve_start w r)) ∧
          (c ∈ carve_visited n (carve_start w r) →
            reachable w2 (carve_start w r).w.quest.starting_point c) := by
  refine ⟨fun fuel b h => carve_loop_passes fuel _ b h, ?_⟩
  have hin : out_of_bounds (carve_start w r).builder_position = false :=
    (init_quest_location_points_edges (init_quest_location_clear w) r).2.1
  have hopen : ∀ c, get_cell_type (carve_start w r).w c ≠ SOLID ↔ c ∈ ([] : List GPoint) := by
    intro c
    simp [carve_start_solid w r c]
  have hlink : ∀ c ∈ [] ++ [(carve_start w r).builder_position],
      linked_within ([] ++ [(carve_start w r).builder_position])
        (carve_start w r).w.quest.starting_point c := by
    intro c hc
    simp only [List.nil_append, List.mem_singleton] at hc
    subst hc
    exact ⟨[(carve_start w r).builder_position], rfl, rfl, fun c hc => by simpa using hc,
      List.chain'_singleton _⟩
  obtain ⟨b, w2, h1, h2, h3, h4, h5⟩ :=
    carve_passes_visited (carve_start w r).w.quest.starting_point n (carve_start w r) [] hin hopen
      hlink
  simp only [List.nil_append] at h4 h5
  obtain ⟨_, b2, _, hb2, _, _, hmove⟩ := carve_step_in_grid b h2
  refine ⟨b, h1, h2, ⟨b2, hb2, hmove⟩, w2, h3, fun c => ⟨h4 c, ?_⟩⟩
  intro hc
  obtain ⟨path, p1, p2, p3, p4⟩ := h5 c hc
  refine ⟨path, p1, p2, ?_, p4⟩
  intro d hd
  have hd2 := (h4 d).2 (p3 d hd)
  refine ⟨?_, hd2⟩
  cases hb : out_of_bounds d
  · rfl
  · exact absurd (by simp [get_cell_type, hb]) hd2

/-! ## Theorems: hit points -/

/-- Claim C24, divergence: `adjust_player_current_hp` clamps only from above.
Whenever the sum `CURRENT_HP + amount` does not exceed `MAX_HP`, the new
`CURRENT_HP` is that sum, also when it is negative. -/
theorem adjust_player_current_hp_unclamped_below (w : World) (amount : Int)
    (h : w.player.stats CURRENT_HP + amount ≤ w.player.stats MAX_HP) :
    (adjust_player_current_hp w amount).player.stats CURRENT_HP =
      w.player.stats CURRENT_HP + amount := by
  unfold adjust_player_current_hp show_scroll
  have hne : ¬ (MAX_HP = CURRENT_HP) := by decide
  simp only [StatArray.set, if_true, hne, if_false]
  split
  · omega
  · split <;> simp [StatArray.set]

/-- Claim C24, failing input: a player with 5 of 10 hit points (so within
0..MAX_HP) and amount -10 ends with -5 hit points. -/
theorem adjust_player_current_hp_unclamped_below_witness :
    0 ≤ wounded_world.player.stats CURRENT_HP ∧
    wounded_world.player.stats CURRENT_HP ≤ wounded_world.player.stats MAX_HP ∧
    (adjust_player_current_hp wounded_world (-10)).player.stats CURRENT_HP = -5 := by
  refine ⟨by decide, by decide, ?_⟩
  rw [adjust_player_current_hp_unclamped_below wounded_world (-10) (by decide)]
  decide

/-! ## Theorems: the order of the pursuit candidates -/

/-- The loop of `get_pursuit_direction` entered with neither direction
checked, in closed form: one draw, which fixes the order of the two tries. -/
theorem pursuit_loop_unchecked (w : World) (pursuer : GPoint) (hd vd : Int) (r : Rand) :
    pursuit_loop w pursuer hd vd false false r =
      (if (rand r).1 % 2 ≠ 0 then
        (if occupiable w (get_cell_farther_away pursuer hd 1) = true then hd
         else if occupiable w (get_cell_farther_away pursuer vd 1) = true then vd else hd)
       else
        (if occupiable w (get_cell_farther_away pursuer vd 1) = true then vd
         else if occupiable w (get_cell_farther_away pursuer hd 1) = true then hd else hd),
       (rand r).2) := by
  rw [pursuit_loop]
  by_cases hc : (rand r).1 % 2 = 0 <;>
  cases hh : occupiable w (get_cell_farther_away pursuer hd 1) <;>
  cases hv : occupiable w (get_cell_farther_away pursuer vd 1) <;>
  simp [hc, hh, hv, pursuit_loop_done] <;>
  rw [pursuit_loop] <;> simp [hh, hv, pursuit_loop_done]

/-- Two passes through the loop body are enough when neither direction has
been checked. -/
theorem pursuit_passes_two (w : World) (pursuer : GPoint) (hd vd : Int) (r : Rand) :
    pursuit_passes w pursuer hd vd 2 false false r =
      some (pursuit_loop w pursuer hd vd false false r) := by
  rw [pursuit_loop_unchecked]
  by_cases hc : (rand r).1 % 2 = 0 <;>
  cases hh : occupiable w (get_cell_farther_away pursuer hd 1) <;>
  cases hv : occupiable w (get_cell_farther_away pursuer vd 1) <;>
  simp [pursuit_passes, pursuit_pass, hc, hh, hv]

/-- Claim C25: when pursuer and target differ in both x and y,
`get_pursuit_direction` draws exactly one random number; if it is odd the
horizontal candidate is tried first and the vertical one second, if it is even
the vertical one first and the horizontal one second; the first candidate
whose one-step cell is occupiable is returned (the horizontal candidate when
neither is); and two passes through the loop body are enough to return. -/
theorem pursuit_coin_order (w : World) (pursuer target : GPoint) (r : Rand)
    (hx : pursuer.x ≠ target.x) (hy : pursuer.y ≠ target.y) :
    (get_pursuit_direction w pursuer target r).2 = (rand r).2 ∧
    ((rand r).1 % 2 ≠ 0 →
      (get_pursuit_direction w pursuer target r).1 =
        if occupiable w (get_cell_farther_away pursuer
            (if pursuer.x > target.x then WEST else EAST) 1) = true then
          (if pursuer.x > target.x then WEST else EAST)
        else if occupiable w (get_cell_farther_away pursuer
            (if pursuer.y > target.y then NORTH else SOUTH) 1) = true then
          (if pursuer.y > target.y then NORTH else SOUTH)
        else (if pursuer.x > target.x then WEST else EAST)) ∧
    ((rand r).1 % 2 = 0 →
      (get_pursuit_direction w pursuer target r).1 =
        if occupiable w (get_cell_farther_away pursuer
            (if pursuer.y > target.y then NORTH else SOUTH) 1) = true then
          (if pursuer.y > target.y then NORTH else SOUTH)
        else if occupiable w (get_cell_farther_away pursuer
            (if pursuer.x > target.x then WEST else EAST) 1) = true then
          (if pursuer.x > target.x then WEST else EAST)
        else (if pursuer.x > target.x then WEST else EAST)) ∧
    pursuit_passes w pursuer (if pursuer.x > target.x then WEST else EAST)
        (if pursuer.y > target.y then NORTH else SOUTH) 2 false false r =
      some (get_pursuit_direction w pursuer target r) := by
  have h1 : pursuer.x - target.x ≠ 0 := by omega
  have h2 : pursuer.y - target.y ≠ 0 := by omega
  have h3 : (pursuer.x - target.x > 0) ↔ pursuer.x > target.x := by omega
  have h4 : (pursuer.y - target.y > 0) ↔ pursuer.y > target.y := by omega
  have hg : get_pursuit_direction w pursuer target r =
      pursuit_loop w pursuer (if pursuer.x > target.x then WEST else EAST)
        (if pursuer.y > target.y then NORTH else SOUTH) false false r := by
    simp only [get_pursuit_direction, h1, h2, h3, h4, false_and, if_false, decide_False]
  rw [hg]
  generalize (if pursuer.x > target.x then WEST else EAST) = hd
  generalize (if pursuer.y > target.y then NORTH else SOUTH) = vd
  refine ⟨?_, ?_, ?_, pursuit_passes_two w pursuer hd vd r⟩
  · rw [pursuit_loop_unchecked]
  · intro hodd
    rw [pursuit_loop_unchecked]
    simp only [hodd, ne_eq, not_false_eq_true, if_true]
  · intro heven
    rw [pursuit_loop_unchecked]
    simp only [heven, ne_eq, not_true_eq_false, if_false]

/-- Claim C25 with the pursuer at (3, 3) and the target at (5, 5) on an open
grid: an odd draw gives EAST, an even draw SOUTH. -/
theorem pursuit_coin_order_witness :
    (get_pursuit_direction two_npc_world ⟨3, 3⟩ ⟨5, 5⟩ (fun _ => 1)).1 = EAST ∧
    (get_pursuit_direction two_npc_world ⟨3, 3⟩ ⟨5, 5⟩ (fun _ => 0)).1 = SOUTH := by
  have h1 := pursuit_coin_order two_npc_world ⟨3, 3⟩ ⟨5, 5⟩ (fun _ => 1) (by decide) (by decide)
  have h0 := pursuit_coin_order two_npc_world ⟨3, 3⟩ ⟨5, 5⟩ (fun _ => 0) (by decide) (by decide)
  exact ⟨(h1.2.1 (by decide)).trans (by decide), (h0.2.2.1 (by decide)).trans (by decide)⟩

/-! ## Theorems: drawing, leaving the grid, minor stats -/

/-- Claim C28, divergence: for every cell that reads `CAPTIVE` and holds no
NPC, `draw_cell_contents` selects the treasure chest, not the captive: the
loot test `get_cell_type(cell) >= GOLD` compares with `GOLD = 0` and comes
first. -/
theorem captive_drawn_as_chest (w : World) (cell : GPoint)
    (hcap : get_cell_type w cell = CAPTIVE) (hnpc : get_npc_at w cell = none) :
    draw_cell_contents w cell = Sprite.treasure_chest := by
  have h1 : ¬ (CAPTIVE ≤ EMPTY) := by decide
  have h2 : CAPTIVE ≥ GOLD := by decide
  simp only [draw_cell_contents, hnpc, hcap, h1, h2, if_true, if_false]

/-- Claim C28, failing input: the captive at (5, 4) is drawn as a treasure
chest. -/
theorem captive_drawn_as_chest_witness :
    draw_cell_contents (demo_world captive_cells ⟨5, 5⟩ []) ⟨5, 4⟩ = Sprite.treasure_chest :=
  captive_drawn_as_chest (demo_world captive_cells ⟨5, 5⟩ []) ⟨5, 4⟩ (by decide) rfl

/-- One step in any direction leaves the cell. -/
theorem get_cell_farther_away_ne (p : GPoint) (direction : Int) :
    get_cell_farther_away p direction 1 ≠ p := by
  cases p
  unfold get_cell_farther_away
  split_ifs <;> simp

/-- Claim C29, divergence: when the cell ahead lies outside the grid and holds
no NPC (and the move is not the one through the entrance), `occupiable`
accepts it, the player is moved onto it, and since it reads `SOLID`, which
equals `ARTIFACT`, `set_cell_type` stores outside the grid. -/
theorem move_player_leaves_grid (MAX_SMALL_INT_VALUE : Int) (w : World) (direction : Int)
    (hexit : ¬ (w.player.position = w.quest.starting_point ∧
      w.player.direction = w.quest.entrance_direction))
    (hout : out_of_bounds (get_cell_farther_away w.player.position direction 1) = true)
    (hfree : get_npc_at w (get_cell_farther_away w.player.position direction 1) = none) :
    occupiable w (get_cell_farther_away w.player.position direction 1) = true ∧
    move_player MAX_SMALL_INT_VALUE w direction = none := by
  have hnot : (gpoint_equal w.player.position w.quest.starting_point &&
      w.player.direction == w.quest.entrance_direction) = false := by
    rw [← Bool.not_eq_true]
    intro h
    simp only [Bool.and_eq_true, gpoint_equal_iff, beq_iff_eq] at h
    exact hexit h
  have hne : gpoint_equal w.player.position
      (get_cell_farther_away w.player.position direction 1) = false := by
    rw [← Bool.not_eq_true, gpoint_equal_iff]
    exact fun h => get_cell_farther_away_ne _ _ h.symm
  have hty : get_cell_type w (get_cell_farther_away w.player.position direction 1) = SOLID := by
    simp [get_cell_type, hout]
  have hle : SOLID ≤ EMPTY := by decide
  have hocc : occupiable w (get_cell_farther_away w.player.position direction 1) = true := by
    simp [occupiable, hty, hne, hfree, hle]
  refine ⟨hocc, ?_⟩
  simp [move_player, hnot, hocc, get_cell_type, hout, set_cell_type]

/-- Claim C29, failing input: the player at (0, 5), inside the grid, moving
WEST. -/
theorem move_player_leaves_grid_witness :
    out_of_bounds (demo_world empty_cells ⟨0, 5⟩ []).player.position = false ∧
    move_player 9999 (demo_world empty_cells ⟨0, 5⟩ []) WEST = none :=
  ⟨by decide,
   (move_player_leaves_grid 9999 (demo_world empty_cells ⟨0, 5⟩ []) WEST (by decide) (by decide)
      rfl).2⟩

/-- Claim C30, divergence: `assign_minor_stats` reads `stats_array[INTELLECT * 10]`,
index 20 of an array of `NUM_CHARACTER_STATS = 11` entries, for `MAX_MP`, and
reads the `MAX_MP` it just stored (index `INTELLECT * 2 = 4`) for
`MAGICAL_POWER`; so both depend on what lies past the end of the array: two
arrays that agree on every index below 11 get different `MAX_MP`. -/
theorem assign_minor_stats_reads_past_end (stats_array : StatArray) :
    assign_minor_stats stats_array MAX_MP = stats_array 20 ∧
    assign_minor_stats stats_array MAGICAL_POWER = stats_array 20 + stats_array AGILITY ∧
    ¬ (20 < NUM_CHARACTER_STATS) ∧
    ∃ other : StatArray, (∀ i, i < NUM_CHARACTER_STATS → other i = stats_array i) ∧
      assign_minor_stats other MAX_MP ≠ assign_minor_stats stats_array MAX_MP := by
  have h1 : ∀ a : StatArray, assign_minor_stats a MAX_MP = a 20 := fun _ => rfl
  refine ⟨h1 _, rfl, by decide, ?_⟩
  refine ⟨fun i => if i = 20 then stats_array 20 + 1 else stats_array i, ?_, ?_⟩
  · intro i hi
    have : i ≠ 20 := by
      intro h; rw [h] at hi; exact absurd hi (by decide)
    simp [this]
  · rw [h1, h1]
    simp

end PebbleQuest
